import Mathlib

/-!
# Peloton typed-value layer: the variable-length type handler

A shallow embedding of `src/type/varlen_type.cpp` (the `VarlenType` handler for
VARCHAR / VARBINARY values) together with the small part of its surroundings the
handler calls into.

Conventions of the embedding.

* Addresses are natural numbers, `nullptr` is `0`, and memory is a total map from
  addresses to byte values.  A `const char *` is an address.
* `uint32_t`, `int` and `size_t` quantities are natural numbers / integers with the
  wrap-around written out (`% 2^32`, `% 2^64`, two's complement for `int`).
* Functions that can throw return `Except Exception _`.
* Code that lives outside the translated files (the `Value` class, `ValueFactory`,
  the serialization streams, the `TypeId` enumeration, constants) is either taken as a
  parameter or modelled from the specification; every such definition says so.
* Of the pool, `type/varlen_pool.h` gives the constants, the fields and the location of
  the reference count word; the bodies of its operations are modelled from the
  specification, acting on an explicit pool state and on the memory.
* Of the TIMESTAMP handler, `type/timestamp_type.h` declares the operations; the six
  comparisons are modelled from the specification, and `ComparisonTest` of
  `test/common/timestamp_value_test.cpp` is translated and run against them.
-/

namespace peloton
namespace type

/-! ## Machine integers -/

/-- Number of values of a `uint32_t`. -/
def UINT32_SIZE : Nat := 4294967296

/-- Number of values of a `size_t` (64-bit target). -/
def SIZE_T_SIZE : Nat := 18446744073709551616

/-- Conversion of a `uint32_t` to `int` (two's complement, as at the call sites of
`CompareStrings`, which receives `GetLength()` in an `int` parameter). -/
def toInt32 (x : Nat) : Int :=
  if x % UINT32_SIZE < 2147483648 then ((x % UINT32_SIZE : Nat) : Int)
  else ((x % UINT32_SIZE : Nat) : Int) - 4294967296

/-- Result of an `int` computation brought back into the range of `int`
(two's complement wrap-around). -/
def wrapInt32 (i : Int) : Int :=
  if i % 4294967296 < 2147483648 then i % 4294967296 else i % 4294967296 - 4294967296

/-- Conversion of an `int` to `size_t`, as when `std::min(len1, len2)` is handed to
`strncmp`. -/
def toSizeT (i : Int) : Nat :=
  (i % 18446744073709551616).toNat

/-! ## Memory -/

/-- The null pointer.  An address is a natural number. -/
def nullptr : Nat := 0

/-- Byte-addressed memory: every address holds a byte value. -/
abbrev Memory := Nat → Nat

/-- The `n` bytes found at `p`, as `std::string(p, n)` collects them. -/
def readBytes (m : Memory) (p : Nat) (n : Nat) : List Nat :=
  (List.range n).map (fun i => m (p + i))

/-- Little-endian bytes of `v` in a field of `n` bytes. -/
def bytesLE : Nat → Nat → List Nat
  | 0, _ => []
  | n + 1, v => (v % 256) :: bytesLE n (v / 256)

/-- The unsigned number whose little-endian bytes are given. -/
def ofBytesLE : List Nat → Nat
  | [] => 0
  | b :: bs => b + 256 * ofBytesLE bs

/-- Store the byte list `bs` at address `p` (the bytes of an object representation,
or the result of `PL_MEMCPY` from a buffer whose content is `bs`). -/
def storeBytes (m : Memory) (p : Nat) (bs : List Nat) : Memory :=
  fun a => if p ≤ a ∧ a < p + bs.length then bs.getD (a - p) 0 else m a

/-- `PL_MEMCPY(dst, src, n)`: afterwards byte `i` of the destination is byte `i` of the
source as it was before the call, for `i < n`; everything else is untouched. -/
def PL_MEMCPY (m : Memory) (dst src : Nat) (n : Nat) : Memory :=
  fun a => if dst ≤ a ∧ a < dst + n then m (src + (a - dst)) else m a

/-- Read an `n`-byte little-endian unsigned object at `p`. -/
def loadLE (m : Memory) (p : Nat) (n : Nat) : Nat :=
  ofBytesLE (readBytes m p n)

/-- `strncmp(s1, s2, n)` on unsigned bytes: stops at the first difference, at a zero
byte, or after `n` bytes.  Only the sign of the result is used by the callers. -/
def strncmp (m : Memory) : Nat → Nat → Nat → Int
  | _, _, 0 => 0
  | s1, s2, n + 1 =>
    if m s1 ≠ m s2 then (m s1 : Int) - (m s2 : Int)
    else if m s1 = 0 then 0
    else strncmp m (s1 + 1) (s2 + 1) n

/-! ## Type ids, values, exceptions -/

/-- Modelled from the spec: the closed `TypeId` enumeration (`type/type.h` is not among
the translated files). -/
inductive TypeId where
  | BOOLEAN | TINYINT | SMALLINT | INTEGER | BIGINT | DECIMAL
  | TIMESTAMP | DATE | VARCHAR | VARBINARY | ARRAY | INVALID
  deriving DecidableEq

/-- Modelled from the spec: `PELOTON_VARCHAR_MAX_LEN` is the largest `uint32_t`
(`type/types.h` is not among the translated files). -/
def PELOTON_VARCHAR_MAX_LEN : Nat := 4294967295

/-- Modelled from the spec: the NULL sentinel of TIMESTAMP is the largest unsigned
64-bit value. -/
def PELOTON_TIMESTAMP_NULL : Nat := 18446744073709551615

/-- The `varlen` member of the value union: `value_.varlen.data`, `value_.varlen.len`. -/
structure VarlenData where
  data : Nat
  len : Nat
  deriving DecidableEq

/-- Modelled from the spec: the payload union of `Value` (`type/value.h` is not among the
translated files), restricted to the members this development reads.  A BOOLEAN
payload ranges over the SQL truth domain, `none` being NULL.  The members are kept
side by side; each handler reads only the member its type id selects. -/
structure Val where
  boolean : Option Bool
  timestamp : Nat
  varlen : VarlenData
  deriving DecidableEq

/-- Modelled from the spec: a `Value` is a type id plus a payload. -/
structure Value where
  type_id : TypeId
  value_ : Val
  deriving DecidableEq

/-- The errors the operations raise. `NotCoercable` is the error thrown at the end of
`VarlenType::CastAs`; `TypeMismatch` is raised by `CheckComparable`;
`ConversionFailed` stands for whatever the `ValueFactory::CastAs*` helpers raise. -/
inductive Exception where
  | TypeMismatch (left right : TypeId)
  | NotCoercable (target : TypeId)
  | ConversionFailed
  deriving DecidableEq

deriving instance DecidableEq for Except

/-- Payload with every member cleared. -/
def Val.zero : Val :=
  { boolean := none, timestamp := 0, varlen := { data := nullptr, len := 0 } }

/-- Modelled from the spec: the varlen constructor `Value(type, data, len)`.  A null data
pointer yields the NULL value, whose length field holds the sentinel
`PELOTON_VARCHAR_MAX_LEN`; otherwise the value views `len` bytes at `data`. -/
def Value.mkVarlen (type : TypeId) (data : Nat) (len : Nat) : Value :=
  if data = nullptr then
    { type_id := type,
      value_ := { Val.zero with varlen := { data := nullptr, len := PELOTON_VARCHAR_MAX_LEN } } }
  else
    { type_id := type,
      value_ := { Val.zero with varlen := { data := data, len := len % UINT32_SIZE } } }

/-- Accessor `Value::GetTypeId`. -/
def Value.GetTypeId (v : Value) : TypeId := v.type_id

/-- Modelled from the spec: `Value::IsNull`.  Each type has a sentinel payload that denotes
SQL NULL: for VARCHAR / VARBINARY the length `PELOTON_VARCHAR_MAX_LEN`, for TIMESTAMP
the largest unsigned 64-bit value, for BOOLEAN the third truth value.  The other
types are outside this development.  The comparison paragraph of the spec and the
source, which test `IsNull()` and the sentinel length one after the other, also allow
a reading under which a value at the sentinel length is not NULL; where that matters
the operators are given with the null test as a parameter (`VarlenType.CompareWith`). -/
def Value.IsNull (v : Value) : Bool :=
  match v.type_id with
  | .BOOLEAN => v.value_.boolean.isNone
  | .TIMESTAMP => v.value_.timestamp == PELOTON_TIMESTAMP_NULL
  | .VARCHAR => v.value_.varlen.len == PELOTON_VARCHAR_MAX_LEN
  | .VARBINARY => v.value_.varlen.len == PELOTON_VARCHAR_MAX_LEN
  | _ => false

/-- Modelled from the spec: `Value::IsTrue` of a BOOLEAN value. -/
def Value.IsTrue (v : Value) : Bool := v.value_.boolean == some true

/-- Modelled from the spec: `Value::IsFalse` of a BOOLEAN value. -/
def Value.IsFalse (v : Value) : Bool := v.value_.boolean == some false

/-- Modelled from the spec: `ValueFactory::GetBooleanValue`, a non-null BOOLEAN. -/
def GetBooleanValue (b : Bool) : Value :=
  { type_id := .BOOLEAN, value_ := { Val.zero with boolean := some b } }

/-- Modelled from the spec: `ValueFactory::GetNullValueByType`, the NULL value of a type
(for the types of this development). -/
def GetNullValueByType (t : TypeId) : Value :=
  match t with
  | .TIMESTAMP => { type_id := t, value_ := { Val.zero with timestamp := PELOTON_TIMESTAMP_NULL } }
  | .VARCHAR => Value.mkVarlen t nullptr 0
  | .VARBINARY => Value.mkVarlen t nullptr 0
  | _ => { type_id := t, value_ := Val.zero }

/-- Modelled from the spec: `Value::CheckComparable` raises the type-mismatch error,
carrying both type ids, when the operand types disagree. -/
def Value.CheckComparable (left right : Value) : Except Exception Unit :=
  if left.type_id = right.type_id then .ok ()
  else .error (.TypeMismatch left.type_id right.type_id)

/-! ## `VarlenType` -/

/-- The handler object: `VarlenType(TypeId type) : Type(type)` stores its type id. -/
structure VarlenType where
  type_id_ : TypeId
  deriving DecidableEq

/-- Accessor `Type::GetTypeId` of the handler. -/
def VarlenType.GetTypeId (self : VarlenType) : TypeId := self.type_id_

/-- `CompareStrings(str1, len1, str2, len2)`.  For lengths below `2^31` this is the
source's computation.  From `2^31` on the `int` parameters are negative, `len1 - len2`
can overflow and `strncmp` is given a bound beyond the payloads, which C++ leaves
undefined; the embedding fixes these as two's-complement wrap-around and reads of a
total memory. -/
def CompareStrings (m : Memory) (str1 : Nat) (len1 : Int) (str2 : Nat) (len2 : Int) : Int :=
  let ret := strncmp m str1 str2 (toSizeT (min len1 len2))
  if ret = 0 ∧ len1 ≠ len2 then wrapInt32 (len1 - len2) else ret

/-- `VarlenType::GetData(const Value&)`. -/
def VarlenType.GetData (_self : VarlenType) (val : Value) : Nat := val.value_.varlen.data

/-- `VarlenType::GetLength`. -/
def VarlenType.GetLength (_self : VarlenType) (val : Value) : Nat := val.value_.varlen.len

/-- `Value::GetLength`, which dispatches to the handler. -/
def Value.GetLength (v : Value) : Nat := v.value_.varlen.len

/-- `Value::GetData`, which dispatches to the handler. -/
def Value.GetData (v : Value) : Nat := v.value_.varlen.data

/-- `VarlenType::CompareEquals`. -/
def VarlenType.CompareEquals (_self : VarlenType) (m : Memory) (left right : Value) :
    Except Exception Value :=
  match left.CheckComparable right with
  | .error e => .error e
  | .ok _ =>
    if left.IsNull || right.IsNull then .ok (GetNullValueByType .BOOLEAN)
    else if left.GetLength = PELOTON_VARCHAR_MAX_LEN
        ∨ right.GetLength = PELOTON_VARCHAR_MAX_LEN then
      .ok (GetBooleanValue (decide (left.GetLength = right.GetLength)))
    else
      .ok (GetBooleanValue (decide (CompareStrings m left.GetData (toInt32 left.GetLength)
        right.GetData (toInt32 right.GetLength) = 0)))

/-- `VarlenType::CompareNotEquals`. -/
def VarlenType.CompareNotEquals (_self : VarlenType) (m : Memory) (left right : Value) :
    Except Exception Value :=
  match left.CheckComparable right with
  | .error e => .error e
  | .ok _ =>
    if left.IsNull || right.IsNull then .ok (GetNullValueByType .BOOLEAN)
    else if left.GetLength = PELOTON_VARCHAR_MAX_LEN
        ∨ right.GetLength = PELOTON_VARCHAR_MAX_LEN then
      .ok (GetBooleanValue (decide (left.GetLength ≠ right.GetLength)))
    else
      .ok (GetBooleanValue (decide (CompareStrings m left.GetData (toInt32 left.GetLength)
        right.GetData (toInt32 right.GetLength) ≠ 0)))

/-- `VarlenType::CompareLessThan`. -/
def VarlenType.CompareLessThan (_self : VarlenType) (m : Memory) (left right : Value) :
    Except Exception Value :=
  match left.CheckComparable right with
  | .error e => .error e
  | .ok _ =>
    if left.IsNull || right.IsNull then .ok (GetNullValueByType .BOOLEAN)
    else if left.GetLength = PELOTON_VARCHAR_MAX_LEN
        ∨ right.GetLength = PELOTON_VARCHAR_MAX_LEN then
      .ok (GetBooleanValue (decide (left.GetLength < right.GetLength)))
    else
      .ok (GetBooleanValue (decide (CompareStrings m left.GetData (toInt32 left.GetLength)
        right.GetData (toInt32 right.GetLength) < 0)))

/-- `VarlenType::CompareLessThanEquals`. -/
def VarlenType.CompareLessThanEquals (_self : VarlenType) (m : Memory) (left right : Value) :
    Except Exception Value :=
  match left.CheckComparable right with
  | .error e => .error e
  | .ok _ =>
    if left.IsNull || right.IsNull then .ok (GetNullValueByType .BOOLEAN)
    else if left.GetLength = PELOTON_VARCHAR_MAX_LEN
        ∨ right.GetLength = PELOTON_VARCHAR_MAX_LEN then
      .ok (GetBooleanValue (decide (left.GetLength ≤ right.GetLength)))
    else
      .ok (GetBooleanValue (decide (CompareStrings m left.GetData (toInt32 left.GetLength)
        right.GetData (toInt32 right.GetLength) ≤ 0)))

/-- `VarlenType::CompareGreaterThan`. -/
def VarlenType.CompareGreaterThan (_self : VarlenType) (m : Memory) (left right : Value) :
    Except Exception Value :=
  match left.CheckComparable right with
  | .error e => .error e
  | .ok _ =>
    if left.IsNull || right.IsNull then .ok (GetNullValueByType .BOOLEAN)
    else if left.GetLength = PELOTON_VARCHAR_MAX_LEN
        ∨ right.GetLength = PELOTON_VARCHAR_MAX_LEN then
      .ok (GetBooleanValue (decide (left.GetLength > right.GetLength)))
    else
      .ok (GetBooleanValue (decide (CompareStrings m left.GetData (toInt32 left.GetLength)
        right.GetData (toInt32 right.GetLength) > 0)))

/-- `VarlenType::CompareGreaterThanEquals`. -/
def VarlenType.CompareGreaterThanEquals (_self : VarlenType) (m : Memory) (left right : Value) :
    Except Exception Value :=
  match left.CheckComparable right with
  | .error e => .error e
  | .ok _ =>
    if left.IsNull || right.IsNull then .ok (GetNullValueByType .BOOLEAN)
    else if left.GetLength = PELOTON_VARCHAR_MAX_LEN
        ∨ right.GetLength = PELOTON_VARCHAR_MAX_LEN then
      .ok (GetBooleanValue (decide (left.GetLength ≥ right.GetLength)))
    else
      .ok (GetBooleanValue (decide (CompareStrings m left.GetData (toInt32 left.GetLength)
        right.GetData (toInt32 right.GetLength) ≥ 0)))

/-- The six comparison operators of the handler. -/
inductive CompareOp where
  | Equals | NotEquals | LessThan | LessThanEquals | GreaterThan | GreaterThanEquals
  deriving DecidableEq

/-- Dispatch to one of the six comparison operators. -/
def VarlenType.Compare (self : VarlenType) (op : CompareOp) (m : Memory) (left right : Value) :
    Except Exception Value :=
  match op with
  | .Equals => self.CompareEquals m left right
  | .NotEquals => self.CompareNotEquals m left right
  | .LessThan => self.CompareLessThan m left right
  | .LessThanEquals => self.CompareLessThanEquals m left right
  | .GreaterThan => self.CompareGreaterThan m left right
  | .GreaterThanEquals => self.CompareGreaterThanEquals m left right

/-- The six comparison operators of `varlen_type.cpp` once more, with the null test
`Value::IsNull`, whose body is not among the translated files, taken as the parameter
`isNull`.  Each case is the body of the operator of that name; with `Value.IsNull` for
`isNull` it is `VarlenType.Compare`. -/
def VarlenType.CompareWith (_self : VarlenType) (isNull : Value → Bool) (op : CompareOp)
    (m : Memory) (left right : Value) : Except Exception Value :=
  match op with
  | .Equals =>
    match left.CheckComparable right with
    | .error e => .error e
    | .ok _ =>
      if isNull left || isNull right then .ok (GetNullValueByType .BOOLEAN)
      else if left.GetLength = PELOTON_VARCHAR_MAX_LEN
          ∨ right.GetLength = PELOTON_VARCHAR_MAX_LEN then
        .ok (GetBooleanValue (decide (left.GetLength = right.GetLength)))
      else
        .ok (GetBooleanValue (decide (CompareStrings m left.GetData (toInt32 left.GetLength)
          right.GetData (toInt32 right.GetLength) = 0)))
  | .NotEquals =>
    match left.CheckComparable right with
    | .error e => .error e
    | .ok _ =>
      if isNull left || isNull right then .ok (GetNullValueByType .BOOLEAN)
      else if left.GetLength = PELOTON_VARCHAR_MAX_LEN
          ∨ right.GetLength = PELOTON_VARCHAR_MAX_LEN then
        .ok (GetBooleanValue (decide (left.GetLength ≠ right.GetLength)))
      else
        .ok (GetBooleanValue (decide (CompareStrings m left.GetData (toInt32 left.GetLength)
          right.GetData (toInt32 right.GetLength) ≠ 0)))
  | .LessThan =>
    match left.CheckComparable right with
    | .error e => .error e
    | .ok _ =>
      if isNull left || isNull right then .ok (GetNullValueByType .BOOLEAN)
      else if left.GetLength = PELOTON_VARCHAR_MAX_LEN
          ∨ right.GetLength = PELOTON_VARCHAR_MAX_LEN then
        .ok (GetBooleanValue (decide (left.GetLength < right.GetLength)))
      else
        .ok (GetBooleanValue (decide (CompareStrings m left.GetData (toInt32 left.GetLength)
          right.GetData (toInt32 right.GetLength) < 0)))
  | .LessThanEquals =>
    match left.CheckComparable right with
    | .error e => .error e
    | .ok _ =>
      if isNull left || isNull right then .ok (GetNullValueByType .BOOLEAN)
      else if left.GetLength = PELOTON_VARCHAR_MAX_LEN
          ∨ right.GetLength = PELOTON_VARCHAR_MAX_LEN then
        .ok (GetBooleanValue (decide (left.GetLength ≤ right.GetLength)))
      else
        .ok (GetBooleanValue (decide (CompareStrings m left.GetData (toInt32 left.GetLength)
          right.GetData (toInt32 right.GetLength) ≤ 0)))
  | .GreaterThan =>
    match left.CheckComparable right with
    | .error e => .error e
    | .ok _ =>
      if isNull left || isNull right then .ok (GetNullValueByType .BOOLEAN)
      else if left.GetLength = PELOTON_VARCHAR_MAX_LEN
          ∨ right.GetLength = PELOTON_VARCHAR_MAX_LEN then
        .ok (GetBooleanValue (decide (left.GetLength > right.GetLength)))
      else
        .ok (GetBooleanValue (decide (CompareStrings m left.GetData (toInt32 left.GetLength)
          right.GetData (toInt32 right.GetLength) > 0)))
  | .GreaterThanEquals =>
    match left.CheckComparable right with
    | .error e => .error e
    | .ok _ =>
      if isNull left || isNull right then .ok (GetNullValueByType .BOOLEAN)
      else if left.GetLength = PELOTON_VARCHAR_MAX_LEN
          ∨ right.GetLength = PELOTON_VARCHAR_MAX_LEN then
        .ok (GetBooleanValue (decide (left.GetLength ≥ right.GetLength)))
      else
        .ok (GetBooleanValue (decide (CompareStrings m left.GetData (toInt32 left.GetLength)
          right.GetData (toInt32 right.GetLength) ≥ 0)))

/-- The characters of `"varlen_null"`. -/
def str_varlen_null : List Nat := [118, 97, 114, 108, 101, 110, 95, 110, 117, 108, 108]

/-- The characters of `"varlen_max"`. -/
def str_varlen_max : List Nat := [118, 97, 114, 108, 101, 110, 95, 109, 97, 120]

/-- `VarlenType::ToString`; a `std::string` is the list of its bytes.  `GetLength() - 1`
is computed in `uint32_t`. -/
def VarlenType.ToString (self : VarlenType) (m : Memory) (val : Value) : List Nat :=
  if val.IsNull then str_varlen_null
  else if val.GetLength = PELOTON_VARCHAR_MAX_LEN then str_varlen_max
  else if self.GetTypeId = .VARBINARY then readBytes m val.GetData val.GetLength
  else readBytes m val.GetData ((val.GetLength + UINT32_SIZE - 1) % UINT32_SIZE)

/-- `VarlenType::Hash`; the library function `std::hash<std::string>` is the
parameter `hash`. -/
def VarlenType.Hash (self : VarlenType) (hash : List Nat → Nat) (m : Memory) (val : Value) : Nat :=
  hash (self.ToString m val)

/-! ### Stream serialization -/

/-- Byte order of a serialization stream. -/
inductive ByteOrder where
  | LittleEndian | BigEndian
  deriving DecidableEq

/-- The four bytes of a 32-bit integer in the given byte order. -/
def intBytes (order : ByteOrder) (v : Nat) : List Nat :=
  match order with
  | .LittleEndian => bytesLE 4 v
  | .BigEndian => (bytesLE 4 v).reverse

/-- The 32-bit integer spelled by four bytes in the given byte order. -/
def intOfBytes (order : ByteOrder) (bs : List Nat) : Nat :=
  match order with
  | .LittleEndian => ofBytesLE bs
  | .BigEndian => ofBytesLE bs.reverse

/-- Modelled from the spec: the output stream `SerializeOutput` (not among the translated
files): the bytes written so far, and the byte order the stream uses for integers. -/
structure SerializeOutput where
  order : ByteOrder
  buffer : List Nat
  deriving DecidableEq

/-- Modelled from the spec: `SerializeOutput::WriteInt` appends the four bytes of a 32-bit
integer in the stream's byte order. -/
def SerializeOutput.WriteInt (out : SerializeOutput) (v : Nat) : SerializeOutput :=
  { out with buffer := out.buffer ++ intBytes out.order (v % UINT32_SIZE) }

/-- Modelled from the spec: `SerializeOutput::WriteBytes(value, length)` appends `length`
bytes read at `value`. -/
def SerializeOutput.WriteBytes (out : SerializeOutput) (m : Memory) (value : Nat)
    (length : Nat) : SerializeOutput :=
  { out with buffer := out.buffer ++ readBytes m value length }

/-- Modelled from the spec: the input stream `SerializeInput` (not among the translated
files): a read position inside a buffer in memory, and the stream's byte order. -/
structure SerializeInput where
  order : ByteOrder
  current : Nat
  deriving DecidableEq

/-- Modelled from the spec: `SerializeInput::ReadInt` reads a 32-bit integer at the read
position and advances by four bytes. -/
def SerializeInput.ReadInt (inp : SerializeInput) (m : Memory) : Nat × SerializeInput :=
  (intOfBytes inp.order (readBytes m inp.current 4), { inp with current := inp.current + 4 })

/-- Modelled from the spec: `SerializeInput::getRawPointer(length)` returns the read
position and advances by `length` bytes. -/
def SerializeInput.getRawPointer (inp : SerializeInput) (length : Nat) : Nat × SerializeInput :=
  (inp.current, { inp with current := inp.current + length })

/-- `VarlenType::SerializeTo(const Value&, SerializeOutput&)`. -/
def VarlenType.SerializeTo (_self : VarlenType) (m : Memory) (val : Value)
    (out : SerializeOutput) : SerializeOutput :=
  let out1 := out.WriteInt val.GetLength
  if val.GetLength > 0 then out1.WriteBytes m val.GetData val.GetLength else out1

/-- `VarlenType::DeserializeFrom(SerializeInput&, VarlenPool*)`; the pool is unused. -/
def VarlenType.DeserializeFrom (self : VarlenType) (m : Memory) (inp : SerializeInput) :
    Value × SerializeInput :=
  let r := inp.ReadInt m
  let len := r.1 % UINT32_SIZE
  let p := r.2.getRawPointer len
  (Value.mkVarlen self.type_id_ p.1 len, p.2)

/-! ### Tuple-slot (inline form) serialization -/

/-- Modelled from the spec: the part of `VarlenPool` the handler calls.  `Allocate(size)`
returns the payload address of a block of `size` bytes, or the null pointer when the
pool is exhausted.  The pool implementation is not among the translated files. -/
structure VarlenPool where
  Allocate : Nat → Nat

/-- What one call of the inline `SerializeTo` did: the number of bytes it asked the
allocator for, the address the allocator returned, and the memory afterwards. -/
structure SlotWrite where
  size : Nat
  data : Nat
  memory : Memory

/-- `VarlenType::SerializeTo(const Value&, char *storage, bool inlined, VarlenPool *pool)`.
`new_char` is the heap allocator `new char[size]`.  `size` is a `uint32_t`;
`size - sizeof(uint32_t)` is computed in `size_t`.  The slot receives the pointer as
an 8-byte little-endian word, the buffer the object representation of the length. -/
def VarlenType.SerializeTo_storage (_self : VarlenType) (new_char : Nat → Nat) (m : Memory)
    (val : Value) (storage : Nat) (_inlined : Bool) (pool : Option VarlenPool) : SlotWrite :=
  let size := (val.GetLength + 4) % UINT32_SIZE
  let data := match pool with
    | none => new_char size
    | some p => p.Allocate size
  let m1 := storeBytes m storage (bytesLE 8 data)
  let m2 := storeBytes m1 data (bytesLE 4 val.value_.varlen.len)
  let m3 := PL_MEMCPY m2 (data + 4) val.value_.varlen.data
    ((size + SIZE_T_SIZE - 4) % SIZE_T_SIZE)
  { size := size, data := data, memory := m3 }

/-- `VarlenType::DeserializeFrom(const char *storage, bool inlined, VarlenPool *pool)`;
`inlined` and the pool are unused. -/
def VarlenType.DeserializeFrom_storage (self : VarlenType) (m : Memory) (storage : Nat)
    (_inlined : Bool) (_pool : Option VarlenPool) : Value :=
  let ptr := loadLE m storage 8
  if ptr = nullptr then Value.mkVarlen self.type_id_ nullptr 0
  else
    let len := loadLE m ptr 4
    Value.mkVarlen self.type_id_ (ptr + 4) len

/-! ### Copy and cast -/

/-- `VarlenType::Copy`. -/
def VarlenType.Copy (_self : VarlenType) (val : Value) : Value :=
  let len := val.GetLength
  Value.mkVarlen val.GetTypeId val.GetData len

/-- `Value::Copy` of a varlen value, which dispatches to the handler of the value's own
type id. -/
def Value.Copy (val : Value) : Value :=
  VarlenType.Copy { type_id_ := val.type_id } val

/-- The conversions `ValueFactory::CastAsBoolean`, `CastAsTinyInt`, `CastAsSmallInt`,
`CastAsInteger` and `CastAsTimestamp`, which are not among the translated files and
are therefore parameters of `CastAs`. -/
structure ValueFactory where
  CastAsBoolean : Value → Except Exception Value
  CastAsTinyInt : Value → Except Exception Value
  CastAsSmallInt : Value → Except Exception Value
  CastAsInteger : Value → Except Exception Value
  CastAsTimestamp : Value → Except Exception Value

/-- `VarlenType::CastAs`. -/
def VarlenType.CastAs (_self : VarlenType) (factory : ValueFactory) (val : Value)
    (type_id : TypeId) : Except Exception Value :=
  match type_id with
  | .BOOLEAN => factory.CastAsBoolean val
  | .TINYINT => factory.CastAsTinyInt val
  | .SMALLINT => factory.CastAsSmallInt val
  | .INTEGER => factory.CastAsInteger val
  | .TIMESTAMP => factory.CastAsTimestamp val
  | .VARCHAR => .ok val.Copy
  | .VARBINARY => .ok val.Copy
  | _ => .error (.NotCoercable type_id)

/-- `VarlenType::IsInlined`, defined in the class body. -/
def VarlenType.IsInlined (_self : VarlenType) (_val : Value) : Bool := false

/-- The handler object of TIMESTAMP values (`type/timestamp_type.h`). -/
structure TimestampType where
  type_id_ : TypeId
  deriving DecidableEq

/-- `TimestampType::IsInlined`, defined in the class body. -/
def TimestampType.IsInlined (_self : TimestampType) (_val : Value) : Bool := true

/-! ## The pool (`type/varlen_pool.h`) -/

/-- `BUFFER_SIZE = (1 << 17)` bytes. -/
def BUFFER_SIZE : Nat := 1 <<< 17

/-- `MAX_POOL_SIZE = (1L << 60)`. -/
def MAX_POOL_SIZE : Nat := 1 <<< 60

/-- `MIN_BLOCK_SIZE = 16`. -/
def MIN_BLOCK_SIZE : Nat := 16

/-- `MAX_BLOCK_NUM = BUFFER_SIZE / MIN_BLOCK_SIZE`. -/
def MAX_BLOCK_NUM : Nat := BUFFER_SIZE / MIN_BLOCK_SIZE

/-- `MAX_LIST_NUM = 15`. -/
def MAX_LIST_NUM : Nat := 15

/-- `LARGE_LIST_ID = MAX_LIST_NUM - 1`. -/
def LARGE_LIST_ID : Nat := MAX_LIST_NUM - 1

/-- `MAX_EMPTY_NUM = 4`. -/
def MAX_EMPTY_NUM : Nat := 4

/-- `VarlenPool::GetRefCountSize`: `sizeof(std::atomic<int64_t>)`, eight bytes. -/
def VarlenPool.GetRefCountSize : Nat := 8

/-- `VarlenPool::GetRefCntPtr`: `((char *) addr) - sizeof(std::atomic<int64_t>)`, pointer
arithmetic on a 64-bit address. -/
def VarlenPool.GetRefCntPtr (addr : Nat) : Nat :=
  (addr + SIZE_T_SIZE - VarlenPool.GetRefCountSize) % SIZE_T_SIZE

/-- An `int64_t` read from its 64-bit word (two's complement). -/
def toInt64 (x : Nat) : Int :=
  if x % SIZE_T_SIZE < 9223372036854775808 then ((x % SIZE_T_SIZE : Nat) : Int)
  else ((x % SIZE_T_SIZE : Nat) : Int) - 18446744073709551616

/-- Modelled from the spec: `VarlenPool::GetRefCount` is an atomic load of the reference
count word at `ptr - refcount_size`.  Its body (`varlen_pool.cpp`) is not among the
translated files. -/
def VarlenPool.GetRefCount (m : Memory) (ptr : Nat) : Int :=
  toInt64 (loadLE m (VarlenPool.GetRefCntPtr ptr) 8)

/-- Modelled from the spec: `VarlenPool::AddRefCount` atomically increments the reference
count word at `ptr - refcount_size`.  Its body (`varlen_pool.cpp`) is not among the
translated files. -/
def VarlenPool.AddRefCount (m : Memory) (ptr : Nat) : Memory :=
  storeBytes m (VarlenPool.GetRefCntPtr ptr)
    (bytesLE 8 ((loadLE m (VarlenPool.GetRefCntPtr ptr) 8 + 1) % SIZE_T_SIZE))

/-- `class Buffer`: the fields declared in `varlen_pool.h`.  `buf_begin_` is the address
of the owned byte region. -/
structure Buffer where
  buf_size_ : Nat
  blk_size_ : Nat
  allocated_cnt_ : Nat
  buf_begin_ : Nat
  bitmap_ : List Bool
  deriving DecidableEq

/-- Modelled from the spec: the constructor `Buffer(buf_size, block_size)`: an occupancy
bitmap of length `B / s` with every bit clear and an allocation counter of zero;
`region` is the address of the byte region the constructor obtains.  The bodies of
the `Buffer` and `VarlenPool` operations (`varlen_pool.cpp`) are not among the
translated files. -/
def Buffer.create (region buf_size block_size : Nat) : Buffer :=
  { buf_size_ := buf_size, blk_size_ := block_size, allocated_cnt_ := 0,
    buf_begin_ := region, bitmap_ := List.replicate (buf_size / block_size) false }

/-- Modelled from the spec: is-empty, no bit of the bitmap is set. -/
def Buffer.IsEmpty (b : Buffer) : Bool := b.bitmap_.all (fun x => !x)

/-- Modelled from the spec: is-full, no bit of the bitmap is clear. -/
def Buffer.IsFull (b : Buffer) : Bool := b.bitmap_.all (fun x => x)

/-- Modelled from the spec: contains(ptr), by address range. -/
def Buffer.Contains (b : Buffer) (ptr : Nat) : Bool :=
  decide (b.buf_begin_ ≤ ptr ∧ ptr < b.buf_begin_ + b.buf_size_)

/-- Index of the first clear bit of a bitmap (its length when there is none). -/
def firstClear : List Bool → Nat
  | [] => 0
  | x :: xs => if x = false then 0 else firstClear xs + 1

/-- The index of the block that covers `ptr`. -/
def Buffer.blockIndex (b : Buffer) (ptr : Nat) : Nat := (ptr - b.buf_begin_) / b.blk_size_

/-- Modelled from the spec: allocate-one-block scans the bitmap from index 0, marks the
first clear bit and returns the address of that block. -/
def Buffer.Allocate (b : Buffer) : Nat × Buffer :=
  (b.buf_begin_ + firstClear b.bitmap_ * b.blk_size_,
    { b with bitmap_ := b.bitmap_.set (firstClear b.bitmap_) true,
             allocated_cnt_ := b.allocated_cnt_ + 1 })

/-- Modelled from the spec: free-one-block clears the bit covering a pointer. -/
def Buffer.Free (b : Buffer) (ptr : Nat) : Buffer :=
  { b with bitmap_ := b.bitmap_.set (b.blockIndex ptr) false,
           allocated_cnt_ := b.allocated_cnt_ - 1 }

/-- The private fields of `class VarlenPool` declared in `varlen_pool.h`: the buffer
lists, the total buffer size and the number of empty buffers of each list, the arrays
indexed by list id. -/
structure VarlenPoolState where
  buf_list_ : Nat → List Buffer
  pool_size_ : Nat
  empty_cnt_ : Nat → Nat

/-- Modelled from the spec: the pool after `Init`, no buffer and no byte held. -/
def VarlenPoolState.Init : VarlenPoolState :=
  { buf_list_ := fun _ => [], pool_size_ := 0, empty_cnt_ := fun _ => 0 }

/-- Search for the list id of a request of `need` bytes, from list `i` on. -/
def listIdFrom (need : Nat) : Nat → Nat → Nat
  | 0, i => i
  | fuel + 1, i => if need ≤ MIN_BLOCK_SIZE <<< i then i else listIdFrom need fuel (i + 1)

/-- Modelled from the spec: the list id of a request, `ceil(log2(need / min_block))`
clamped to the large list: the first list whose block size holds `need` bytes. -/
def listId (need : Nat) : Nat := listIdFrom need LARGE_LIST_ID 0

/-- Modelled from the spec: the capacity of a Buffer created for list `i`: `BUFFER_SIZE`,
or exactly `need` for the large list. -/
def newBufferSize (i need : Nat) : Nat := if i = LARGE_LIST_ID then need else BUFFER_SIZE

/-- Modelled from the spec: the block size of a Buffer created for list `i`:
`min_block << i`, or the whole buffer (one block) for the large list. -/
def newBlockSize (i need : Nat) : Nat :=
  if i = LARGE_LIST_ID then need else MIN_BLOCK_SIZE <<< i

/-- Modelled from the spec: `VarlenPool::AllocateHelper`, the allocation of a block of
`need` bytes.  The list of the request is scanned for a Buffer that is not full; if
there is none a new Buffer is created at `region` (the address the system hands
out), its capacity is charged to `pool_size_`, and the request fails when that would
exceed `MAX_POOL_SIZE`.  Leaving the empty state lowers the empty count. -/
def VarlenPoolState.AllocateHelper (pool : VarlenPoolState) (region need : Nat) :
    Option (Nat × VarlenPoolState) :=
  let i := listId need
  match (pool.buf_list_ i).findIdx? (fun b => !b.IsFull) with
  | some j =>
    match (pool.buf_list_ i)[j]? with
    | some b =>
      some ((b.Allocate).1,
        { pool with
          buf_list_ := Function.update pool.buf_list_ i ((pool.buf_list_ i).set j (b.Allocate).2),
          empty_cnt_ := if b.IsEmpty then Function.update pool.empty_cnt_ i (pool.empty_cnt_ i - 1)
            else pool.empty_cnt_ })
    | none => none
  | none =>
    if pool.pool_size_ + newBufferSize i need > MAX_POOL_SIZE then none
    else
      some (((Buffer.create region (newBufferSize i need) (newBlockSize i need)).Allocate).1,
        { pool with
          buf_list_ := Function.update pool.buf_list_ i (pool.buf_list_ i ++
            [((Buffer.create region (newBufferSize i need) (newBlockSize i need)).Allocate).2]),
          pool_size_ := pool.pool_size_ + newBufferSize i need })

/-- Search the lists `i, i + 1, ...` for the first Buffer whose address range contains
`ptr`; the result is the list id and the position in the list. -/
def VarlenPoolState.locateFrom (pool : VarlenPoolState) (ptr : Nat) : Nat → Nat → Option (Nat × Nat)
  | 0, _ => none
  | fuel + 1, i =>
    match (pool.buf_list_ i).findIdx? (fun b => b.Contains ptr) with
    | some j => some (i, j)
    | none => pool.locateFrom ptr fuel (i + 1)

/-- Modelled from the spec: locate the owning Buffer by address range, a linear scan of
the lists. -/
def VarlenPoolState.locate (pool : VarlenPoolState) (ptr : Nat) : Option (Nat × Nat) :=
  pool.locateFrom ptr MAX_LIST_NUM 0

/-- Modelled from the spec: `VarlenPool::FreeHelper`, the return of a block to its Buffer.
The owning Buffer is located and the block marked free; if the Buffer became empty
and the list already holds `MAX_EMPTY_NUM` empty Buffers it is destroyed and its
capacity taken off `pool_size_`, otherwise the empty count of the list goes up. -/
def VarlenPoolState.FreeHelper (pool : VarlenPoolState) (ptr : Nat) : VarlenPoolState :=
  match pool.locate ptr with
  | none => pool
  | some (i, j) =>
    match (pool.buf_list_ i)[j]? with
    | none => pool
    | some b =>
      if (b.Free ptr).IsEmpty then
        if pool.empty_cnt_ i ≥ MAX_EMPTY_NUM then
          { pool with
            buf_list_ := Function.update pool.buf_list_ i ((pool.buf_list_ i).eraseIdx j),
            pool_size_ := pool.pool_size_ - b.buf_size_ }
        else
          { pool with
            buf_list_ := Function.update pool.buf_list_ i ((pool.buf_list_ i).set j (b.Free ptr)),
            empty_cnt_ := Function.update pool.empty_cnt_ i (pool.empty_cnt_ i + 1) }
      else
        { pool with
          buf_list_ := Function.update pool.buf_list_ i ((pool.buf_list_ i).set j (b.Free ptr)) }

/-- The result of `VarlenPool::Allocate`: the payload pointer (null on failure), the pool
and the memory afterwards. -/
structure PoolAllocation where
  ptr : Nat
  pool : VarlenPoolState
  memory : Memory

/-- Modelled from the spec: `VarlenPool::Allocate(size)`: a block of
`size + refcount_size` bytes is allocated, its reference count set to 1, and the
payload pointer `block + refcount_size` returned; on exhaustion the null pointer. -/
def VarlenPoolState.Allocate (pool : VarlenPoolState) (m : Memory) (region size : Nat) :
    PoolAllocation :=
  match pool.AllocateHelper region (size + VarlenPool.GetRefCountSize) with
  | none => { ptr := nullptr, pool := pool, memory := m }
  | some r =>
    { ptr := r.1 + VarlenPool.GetRefCountSize, pool := r.2,
      memory := storeBytes m r.1 (bytesLE 8 1) }

/-- Modelled from the spec: `VarlenPool::Free(ptr)`: the reference count word is
decremented, and when it reaches zero the block is returned to its Buffer. -/
def VarlenPoolState.Free (s : VarlenPoolState × Memory) (ptr : Nat) :
    VarlenPoolState × Memory :=
  let q := VarlenPool.GetRefCntPtr ptr
  let cnt := (loadLE s.2 q 8 + SIZE_T_SIZE - 1) % SIZE_T_SIZE
  let m1 := storeBytes s.2 q (bytesLE 8 cnt)
  if cnt = 0 then (s.1.FreeHelper q, m1) else (s.1, m1)

/-- Whether the block at address `blk` is marked allocated in a Buffer of the pool whose
address range contains it. -/
def VarlenPoolState.IsAllocated (pool : VarlenPoolState) (blk : Nat) : Bool :=
  (List.range MAX_LIST_NUM).any (fun i =>
    (pool.buf_list_ i).any (fun b => b.Contains blk && b.bitmap_.getD (b.blockIndex blk) false))

/-- The memory after `n` calls of `AddRefCount(ptr)`. -/
def VarlenPool.AddRefCountTimes (m : Memory) (ptr : Nat) : Nat → Memory
  | 0 => m
  | n + 1 => VarlenPool.AddRefCount (VarlenPool.AddRefCountTimes m ptr n) ptr

/-- The pool and the memory after `n` calls of `Free(ptr)`. -/
def VarlenPoolState.FreeTimes (s : VarlenPoolState × Memory) (ptr : Nat) :
    Nat → VarlenPoolState × Memory
  | 0 => s
  | n + 1 => VarlenPoolState.Free (VarlenPoolState.FreeTimes s ptr n) ptr

/-- The pool and the memory after `Allocate(size)` followed by `k` calls of `AddRefCount`
and `j` calls of `Free` on the returned payload pointer. -/
def VarlenPoolState.afterCalls (pool : VarlenPoolState) (m : Memory) (region size k j : Nat) :
    VarlenPoolState × Memory :=
  VarlenPoolState.FreeTimes
    ((pool.Allocate m region size).pool,
      VarlenPool.AddRefCountTimes (pool.Allocate m region size).memory
        (pool.Allocate m region size).ptr k)
    (pool.Allocate m region size).ptr j

/-- `VarlenType::DoShallowCopy`.  `PL_ASSERT` aborts when its condition fails (`none`).
The pointer is read from the source slot and stored into the destination slot as an
8-byte little-endian word; `src_pool->AddRefCount(ptr)` acts on the memory. -/
def VarlenType.DoShallowCopy (_self : VarlenType) (m : Memory) (dest src : Nat)
    (inlined : Bool) (src_pool : Option VarlenPool) : Option Memory :=
  if inlined = false ∧ src_pool.isSome = true then
    let ptr := loadLE m src 8
    let m1 := storeBytes m dest (bytesLE 8 ptr)
    if ptr ≠ nullptr then some (VarlenPool.AddRefCount m1 ptr) else some m1
  else none

/-! ## Concrete inputs -/

/-- The VARCHAR handler. -/
def varcharType : VarlenType := { type_id_ := .VARCHAR }

/-- The VARBINARY handler. -/
def varbinaryType : VarlenType := { type_id_ := .VARBINARY }

/-- Memory holding the bytes `a \0 b` at address 100 and `a \0 c` at address 200. -/
def memZeroByte : Memory :=
  storeBytes (storeBytes (fun _ => 0) 100 [97, 0, 98]) 200 [97, 0, 99]

/-- The three-byte VARBINARY value `a \0 b` at address 100. -/
def binA0B : Value := Value.mkVarlen .VARBINARY 100 3

/-- The three-byte VARBINARY value `a \0 c` at address 200. -/
def binA0C : Value := Value.mkVarlen .VARBINARY 200 3

/-- Memory holding `abc` at address 100. -/
def memAbc : Memory := storeBytes (fun _ => 0) 100 [97, 98, 99]

/-- The VARCHAR value viewing the three bytes `abc` at address 100. -/
def strAbc : Value := Value.mkVarlen .VARCHAR 100 3

/-- A VARCHAR value whose length field holds `PELOTON_VARCHAR_MAX_LEN`. -/
def strSentinel : Value :=
  { type_id := .VARCHAR,
    value_ := { Val.zero with varlen := { data := 100, len := PELOTON_VARCHAR_MAX_LEN } } }

/-- The NULL VARCHAR value. -/
def strNull : Value := GetNullValueByType .VARCHAR

/-- The reference three-way comparison of two byte sequences in the words of the
specification: lexicographic under unsigned byte ordering over the common length, and
when the common part is equal the shorter sequence sorts less. -/
def referenceCompare : List Nat → List Nat → Ordering
  | [], [] => .eq
  | [], _ :: _ => .lt
  | _ :: _, [] => .gt
  | x :: xs, y :: ys =>
    if x < y then .lt else if y < x then .gt else referenceCompare xs ys

/-- The three-way outcome an `int` result of `CompareStrings` stands for. -/
def orderingOfInt (c : Int) : Ordering :=
  if c < 0 then .lt else if c = 0 then .eq else .gt

/-- An empty big-endian output stream. -/
def outEmpty : SerializeOutput := { order := .BigEndian, buffer := [] }

/-- The bytes the stream form of `SerializeTo` produces for `abc`. -/
def streamAbc : List Nat := (varcharType.SerializeTo memAbc strAbc outEmpty).buffer

/-- Memory of `memAbc` with the stream bytes of `abc` laid out at address 500. -/
def memAbcStream : Memory := storeBytes memAbc 500 streamAbc

/-- An input stream reading at address 500. -/
def inpAbc : SerializeInput := { order := .BigEndian, current := 500 }

/-- The inline `SerializeTo` of `abc` into the slot at 2000, the heap returning 1000. -/
def slotAbc : SlotWrite :=
  varcharType.SerializeTo_storage (fun _ => 1000) memAbc strAbc 2000 false none

/-- Memory full of the byte 97, except for the byte 1 at address `1000 + 2^31`. -/
def memLong : Memory := fun a => if a = 2147484648 then 1 else 97

/-- The VARBINARY value of length `2^31` at address 1000. -/
def binLong : Value := Value.mkVarlen .VARBINARY 1000 2147483648

/-- The bytes the stream form of `SerializeTo` produces for `binLong`. -/
def streamLong : List Nat := (varbinaryType.SerializeTo memLong binLong outEmpty).buffer

/-- Memory of `memLong` with the stream bytes of `binLong` laid out at 8000000000. -/
def memLongStream : Memory := storeBytes memLong 8000000000 streamLong

/-- An input stream reading at address 8000000000. -/
def inpLong : SerializeInput := { order := .BigEndian, current := 8000000000 }

/-- The inline `SerializeTo` of `binLong` into the slot at 16000000000, the heap
returning 8000000000. -/
def slotLong : SlotWrite :=
  varbinaryType.SerializeTo_storage (fun _ => 8000000000) memLong binLong 16000000000 false none

/-- The inline `SerializeTo` of the NULL VARCHAR value into the slot at 2000, the heap
returning 1000. -/
def slotNull : SlotWrite :=
  varcharType.SerializeTo_storage (fun _ => 1000) memAbc strNull 2000 false none

/-- The same call with a pool whose `Allocate` returns 1000. -/
def slotNullPool : SlotWrite :=
  varcharType.SerializeTo_storage (fun _ => 0) memAbc strNull 2000 false
    (some { Allocate := fun _ => 1000 })

/-- The non-null VARCHAR value of length 0 at address 100. -/
def strEmpty : Value := Value.mkVarlen .VARCHAR 100 0

/-- The TIMESTAMP handler. -/
def timestampType : TimestampType := { type_id_ := .TIMESTAMP }

/-- A memory with a storage slot at 2000 holding the pointer 1008, whose reference count
word (at 1000) holds 1. -/
def memShallow : Memory :=
  storeBytes (storeBytes (fun _ => 0) 2000 (bytesLE 8 1008)) 1000 (bytesLE 8 1)

/-- A pool handle; `DoShallowCopy` only tests that one is given. -/
def poolHandle : VarlenPool := { Allocate := fun _ => 0 }

/-- A factory whose conversions all fail. -/
def factoryFailing : ValueFactory :=
  { CastAsBoolean := fun _ => .error .ConversionFailed,
    CastAsTinyInt := fun _ => .error .ConversionFailed,
    CastAsSmallInt := fun _ => .error .ConversionFailed,
    CastAsInteger := fun _ => .error .ConversionFailed,
    CastAsTimestamp := fun _ => .error .ConversionFailed }

/-! ## `TimestampType` comparisons and their test -/

/-- Modelled from the spec: `ValueFactory::GetTimestampValue`, the TIMESTAMP value holding
an unsigned 64-bit number (`type/value_factory.h` is not among the translated files). -/
def GetTimestampValue (v : Nat) : Value :=
  { type_id := .TIMESTAMP, value_ := { Val.zero with timestamp := v % SIZE_T_SIZE } }

/-- Modelled from the spec: `Value::GetAs<uint64_t>`, the raw payload of a TIMESTAMP
value. -/
def Value.GetAs_uint64 (v : Value) : Nat := v.value_.timestamp

/-- Modelled from the spec: `TimestampType::CompareEquals` (`timestamp_type.cpp` is not
among the translated files; the header declares the six operators).  NULL when either
operand is NULL, otherwise the non-null BOOLEAN of the comparison of the two unsigned
64-bit values. -/
def TimestampType.CompareEquals (_self : TimestampType) (left right : Value) :
    Except Exception Value :=
  match left.CheckComparable right with
  | .error e => .error e
  | .ok _ =>
    if left.IsNull || right.IsNull then .ok (GetNullValueByType .BOOLEAN)
    else .ok (GetBooleanValue (decide (left.GetAs_uint64 = right.GetAs_uint64)))

/-- Modelled from the spec: `TimestampType::CompareNotEquals` (`timestamp_type.cpp` is not
among the translated files).  The spec's end-to-end scenario gives NULL for a NULL right
operand, and its design note reads the repository's `ComparisonTest` as: a NULL left
operand against a non-null right operand yields a non-null BOOLEAN.  So only the right
operand is tested for NULL, and otherwise the result is the non-null BOOLEAN of the
inequality of the two raw 64-bit values. -/
def TimestampType.CompareNotEquals (_self : TimestampType) (left right : Value) :
    Except Exception Value :=
  match left.CheckComparable right with
  | .error e => .error e
  | .ok _ =>
    if right.IsNull then .ok (GetNullValueByType .BOOLEAN)
    else .ok (GetBooleanValue (decide (left.GetAs_uint64 ≠ right.GetAs_uint64)))

/-- Modelled from the spec: `TimestampType::CompareLessThan`, as `CompareEquals` with
`<`. -/
def TimestampType.CompareLessThan (_self : TimestampType) (left right : Value) :
    Except Exception Value :=
  match left.CheckComparable right with
  | .error e => .error e
  | .ok _ =>
    if left.IsNull || right.IsNull then .ok (GetNullValueByType .BOOLEAN)
    else .ok (GetBooleanValue (decide (left.GetAs_uint64 < right.GetAs_uint64)))

/-- Modelled from the spec: `TimestampType::CompareLessThanEquals`, as `CompareEquals`
with `<=`. -/
def TimestampType.CompareLessThanEquals (_self : TimestampType) (left right : Value) :
    Except Exception Value :=
  match left.CheckComparable right with
  | .error e => .error e
  | .ok _ =>
    if left.IsNull || right.IsNull then .ok (GetNullValueByType .BOOLEAN)
    else .ok (GetBooleanValue (decide (left.GetAs_uint64 ≤ right.GetAs_uint64)))

/-- Modelled from the spec: `TimestampType::CompareGreaterThan`, as `CompareEquals` with
`>`. -/
def TimestampType.CompareGreaterThan (_self : TimestampType) (left right : Value) :
    Except Exception Value :=
  match left.CheckComparable right with
  | .error e => .error e
  | .ok _ =>
    if left.IsNull || right.IsNull then .ok (GetNullValueByType .BOOLEAN)
    else .ok (GetBooleanValue (decide (left.GetAs_uint64 > right.GetAs_uint64)))

/-- Modelled from the spec: `TimestampType::CompareGreaterThanEquals`, as `CompareEquals`
with `>=`. -/
def TimestampType.CompareGreaterThanEquals (_self : TimestampType) (left right : Value) :
    Except Exception Value :=
  match left.CheckComparable right with
  | .error e => .error e
  | .ok _ =>
    if left.IsNull || right.IsNull then .ok (GetNullValueByType .BOOLEAN)
    else .ok (GetBooleanValue (decide (left.GetAs_uint64 ≥ right.GetAs_uint64)))

/-- The call `val0.Compare...(val1)` of the test for each expression type: `Value`
dispatches to the handler of its type id. -/
def TimestampType.Compare (self : TimestampType) (op : CompareOp) (left right : Value) :
    Except Exception Value :=
  match op with
  | .Equals => self.CompareEquals left right
  | .NotEquals => self.CompareNotEquals left right
  | .LessThan => self.CompareLessThan left right
  | .LessThanEquals => self.CompareLessThanEquals left right
  | .GreaterThan => self.CompareGreaterThan left right
  | .GreaterThanEquals => self.CompareGreaterThanEquals left right

/-- The array `values` of `TimestampValueTests.ComparisonTest`. -/
def ComparisonTest.values : List Nat := [1000000000, 2000000000, PELOTON_TIMESTAMP_NULL]

/-- The vector `compares` of `ComparisonTest`. -/
def ComparisonTest.compares : List CompareOp :=
  [.Equals, .NotEquals, .LessThan, .LessThanEquals, .GreaterThan, .GreaterThanEquals]

/-- The operand the test builds from an entry of `values`: the NULL TIMESTAMP for the
sentinel, `GetTimestampValue` otherwise. -/
def ComparisonTest.operand (v : Nat) : Value :=
  if v = PELOTON_TIMESTAMP_NULL then GetNullValueByType .TIMESTAMP else GetTimestampValue v

/-- The variable `expected` of the test at the comparison `etype`. -/
def ComparisonTest.expected (etype : CompareOp) (vi vj : Nat) : Bool :=
  match etype with
  | .Equals => decide (vi = vj)
  | .NotEquals => decide (vi ≠ vj)
  | .LessThan => decide (vi < vj)
  | .LessThanEquals => decide (vi ≤ vj)
  | .GreaterThan => decide (vi > vj)
  | .GreaterThanEquals => decide (vi ≥ vj)

/-- The variable `expected_null` of the test when the expectations are checked: set when
an operand is built from the sentinel, and reset for `NotEquals` when `val1` is not
NULL. -/
def ComparisonTest.expected_null (etype : CompareOp) (vi vj : Nat) : Bool :=
  match etype with
  | .NotEquals =>
    if !(ComparisonTest.operand vj).IsNull
        && (decide (vi = PELOTON_TIMESTAMP_NULL) || decide (vj = PELOTON_TIMESTAMP_NULL)) then
      false
    else decide (vi = PELOTON_TIMESTAMP_NULL) || decide (vj = PELOTON_TIMESTAMP_NULL)
  | _ => decide (vi = PELOTON_TIMESTAMP_NULL) || decide (vj = PELOTON_TIMESTAMP_NULL)

/-- The `EXPECT_EQ` checks of one pass of the inner loop of the test on the value
`result` of the call: all of them hold.  A call that throws fails the test. -/
def ComparisonTest.check (etype : CompareOp) (vi vj : Nat) (result : Except Exception Value) :
    Bool :=
  match result with
  | .error _ => false
  | .ok result =>
    if ComparisonTest.expected_null etype vi vj then
      decide (ComparisonTest.expected_null etype vi vj = result.IsNull)
    else
      decide (ComparisonTest.expected etype vi vj = result.IsTrue)
        && decide ((!ComparisonTest.expected etype vi vj) = result.IsFalse)

/-- One pass of the inner loop of the test: the call on the two operands and its
checks. -/
def ComparisonTest.expectations (etype : CompareOp) (vi vj : Nat) : Bool :=
  ComparisonTest.check etype vi vj
    (TimestampType.Compare { type_id_ := .TIMESTAMP } etype
      (ComparisonTest.operand vi) (ComparisonTest.operand vj))

/-- `TEST_F(TimestampValueTests, ComparisonTest)`: the checks of all passes hold. -/
def ComparisonTest : Bool :=
  ComparisonTest.values.all (fun vi =>
    ComparisonTest.values.all (fun vj =>
      ComparisonTest.compares.all (fun etype => ComparisonTest.expectations etype vi vj)))

/-- The TIMESTAMP value 1000000000 of the test. -/
def ts1 : Value := GetTimestampValue 1000000000

/-- The TIMESTAMP value 2000000000 of the test. -/
def ts2 : Value := GetTimestampValue 2000000000

/-- The NULL TIMESTAMP value. -/
def tsNull : Value := GetNullValueByType .TIMESTAMP

/-- Memory holding `a` at address 100, `ab` at address 200 and `b` at address 300. -/
def memOrder : Memory :=
  storeBytes (storeBytes (storeBytes (fun _ => 0) 100 [97]) 200 [97, 98]) 300 [98]

/-- The VARCHAR value `a` at address 100. -/
def strA : Value := Value.mkVarlen .VARCHAR 100 1

/-- The VARCHAR value `ab` at address 200. -/
def strAB : Value := Value.mkVarlen .VARCHAR 200 2

/-- The VARCHAR value `b` at address 300. -/
def strB : Value := Value.mkVarlen .VARCHAR 300 1

/-! ## Theorems -/

/-- C1 (hash-equals law, at the failing input).  The VARBINARY values `a \0 b` and
`a \0 c` are non-null, of one type, and `CompareEquals` reports them equal because
`strncmp` stops at the zero byte; yet `ToString` yields two different strings, so the
two hashes agree only if `std::hash` happens to collide on those two strings. -/
theorem hash_equals_law_zero_byte :
    binA0B.IsNull = false ∧ binA0C.IsNull = false ∧
    binA0B.GetTypeId = binA0C.GetTypeId ∧
    (∃ r, varbinaryType.CompareEquals memZeroByte binA0B binA0C = .ok r ∧ r.IsTrue = true) ∧
    varbinaryType.ToString memZeroByte binA0B = [97, 0, 98] ∧
    varbinaryType.ToString memZeroByte binA0C = [97, 0, 99] ∧
    ∀ hash : List Nat → Nat,
      (varbinaryType.Hash hash memZeroByte binA0B = varbinaryType.Hash hash memZeroByte binA0C
        ↔ hash [97, 0, 98] = hash [97, 0, 99]) := by
  refine ⟨by decide, by decide, by decide, ⟨GetBooleanValue true, by decide, by decide⟩,
    by decide, by decide, ?_⟩
  intro hash
  have h1 : varbinaryType.ToString memZeroByte binA0B = [97, 0, 98] := by decide
  have h2 : varbinaryType.ToString memZeroByte binA0C = [97, 0, 99] := by decide
  simp only [VarlenType.Hash, h1, h2]

/-- C2 (comparison against the reference order, at the failing input).  On the
non-null, non-sentinel VARBINARY values `a \0 b` and `a \0 c` the byte sequences
differ and the first is lexicographically smaller, yet `CompareEquals` is true,
`CompareNotEquals` is false and `CompareLessThan` is false, because `strncmp` stops
at the zero byte. -/
theorem compare_zero_byte_disagrees_with_reference :
    binA0B.IsNull = false ∧ binA0C.IsNull = false ∧
    binA0B.GetLength ≠ PELOTON_VARCHAR_MAX_LEN ∧ binA0C.GetLength ≠ PELOTON_VARCHAR_MAX_LEN ∧
    readBytes memZeroByte binA0B.GetData binA0B.GetLength = [97, 0, 98] ∧
    readBytes memZeroByte binA0C.GetData binA0C.GetLength = [97, 0, 99] ∧
    referenceCompare [97, 0, 98] [97, 0, 99] = .lt ∧
    varbinaryType.CompareEquals memZeroByte binA0B binA0C = .ok (GetBooleanValue true) ∧
    varbinaryType.CompareNotEquals memZeroByte binA0B binA0C = .ok (GetBooleanValue false) ∧
    varbinaryType.CompareLessThan memZeroByte binA0B binA0C = .ok (GetBooleanValue false) ∧
    varbinaryType.CompareGreaterThanEquals memZeroByte binA0B binA0C
      = .ok (GetBooleanValue true) := by
  decide

/-- The NULL BOOLEAN is null, and neither true nor false. -/
theorem null_boolean_props :
    (GetNullValueByType .BOOLEAN).GetTypeId = .BOOLEAN ∧
    (GetNullValueByType .BOOLEAN).IsNull = true ∧
    (GetNullValueByType .BOOLEAN).IsTrue = false ∧
    (GetNullValueByType .BOOLEAN).IsFalse = false := by
  decide

/-- A value made by `GetBooleanValue` is a non-null BOOLEAN. -/
theorem boolean_value_props (b : Bool) :
    (GetBooleanValue b).GetTypeId = .BOOLEAN ∧ (GetBooleanValue b).IsNull = false := by
  cases b <;> decide

/-- Each operator returns the NULL BOOLEAN when an operand is NULL. -/
theorem compare_of_null (self : VarlenType) (op : CompareOp) (m : Memory) (left right : Value)
    (hc : left.CheckComparable right = .ok ())
    (hn : left.IsNull = true ∨ right.IsNull = true) :
    self.Compare op m left right = .ok (GetNullValueByType .BOOLEAN) := by
  have hor : (left.IsNull || right.IsNull) = true := by
    rcases hn with h | h <;> simp [h]
  cases op <;>
    simp [VarlenType.Compare, VarlenType.CompareEquals, VarlenType.CompareNotEquals,
      VarlenType.CompareLessThan, VarlenType.CompareLessThanEquals,
      VarlenType.CompareGreaterThan, VarlenType.CompareGreaterThanEquals, hc, hor]

/-- Each operator returns a value made by `GetBooleanValue` when no operand is NULL. -/
theorem compare_of_not_null (self : VarlenType) (op : CompareOp) (m : Memory)
    (left right : Value) (hc : left.CheckComparable right = .ok ())
    (hl : left.IsNull = false) (hr : right.IsNull = false) :
    ∃ b, self.Compare op m left right = .ok (GetBooleanValue b) := by
  cases op <;>
    simp only [VarlenType.Compare, VarlenType.CompareEquals, VarlenType.CompareNotEquals,
      VarlenType.CompareLessThan, VarlenType.CompareLessThanEquals,
      VarlenType.CompareGreaterThan, VarlenType.CompareGreaterThanEquals, hc, hl, hr,
      Bool.or_self, Bool.false_eq_true, if_false] <;>
    split <;> exact ⟨_, rfl⟩

/-- What each of the six operators returns on a comparable pair: a BOOLEAN that is the
NULL BOOLEAN when an operand is NULL and a non-null one otherwise. -/
theorem compare_result (self : VarlenType) (op : CompareOp) (m : Memory)
    (left right : Value) (hc : left.CheckComparable right = .ok ()) :
    ∃ r, self.Compare op m left right = .ok r ∧ r.GetTypeId = .BOOLEAN ∧
      ((left.IsNull = true ∨ right.IsNull = true) →
        r = GetNullValueByType .BOOLEAN ∧ r.IsNull = true ∧ r.IsTrue = false ∧
          r.IsFalse = false) ∧
      ((left.IsNull = false ∧ right.IsNull = false) → r.IsNull = false) := by
  by_cases hn : left.IsNull = true ∨ right.IsNull = true
  · refine ⟨_, compare_of_null self op m left right hc hn, null_boolean_props.1, ?_, ?_⟩
    · intro _
      exact ⟨rfl, null_boolean_props.2⟩
    · rintro ⟨hl, hr⟩
      rcases hn with h | h
      · rw [hl] at h; exact absurd h (by decide)
      · rw [hr] at h; exact absurd h (by decide)
  · have hl : left.IsNull = false := by
      cases h : left.IsNull
      · rfl
      · exact absurd (Or.inl h) hn
    have hr : right.IsNull = false := by
      cases h : right.IsNull
      · rfl
      · exact absurd (Or.inr h) hn
    obtain ⟨b, hb⟩ := compare_of_not_null self op m left right hc hl hr
    refine ⟨_, hb, (boolean_value_props b).1, ?_, ?_⟩
    · intro h
      exact absurd h hn
    · intro _
      exact (boolean_value_props b).2

/-- C3 (null propagation).  For each of the six operators and every comparable pair,
the call returns a BOOLEAN value; when an operand is NULL it is the NULL BOOLEAN,
which is neither true nor false, and when no operand is NULL it is not NULL. -/
theorem null_propagation (self : VarlenType) (op : CompareOp) (m : Memory)
    (left right : Value) (hc : left.CheckComparable right = .ok ()) :
    ∃ r, self.Compare op m left right = .ok r ∧ r.GetTypeId = .BOOLEAN ∧
      ((left.IsNull = true ∨ right.IsNull = true) →
        r = GetNullValueByType .BOOLEAN ∧ r.IsNull = true ∧ r.IsTrue = false ∧
          r.IsFalse = false) ∧
      ((left.IsNull = false ∧ right.IsNull = false) → r.IsNull = false) :=
  compare_result self op m left right hc

/-- Witness of C3: NULL against `abc` under `<`, and `abc` against itself under `==`. -/
theorem null_propagation_witness :
    (strNull.CheckComparable strAbc = .ok () ∧
      ∃ r, varcharType.Compare .LessThan memAbc strNull strAbc = .ok r ∧
        r.GetTypeId = .BOOLEAN ∧
        ((strNull.IsNull = true ∨ strAbc.IsNull = true) →
          r = GetNullValueByType .BOOLEAN ∧ r.IsNull = true ∧ r.IsTrue = false ∧
            r.IsFalse = false) ∧
        ((strNull.IsNull = false ∧ strAbc.IsNull = false) → r.IsNull = false)) ∧
    (strAbc.CheckComparable strAbc = .ok () ∧
      ∃ r, varcharType.Compare .Equals memAbc strAbc strAbc = .ok r ∧
        r.GetTypeId = .BOOLEAN ∧
        ((strAbc.IsNull = true ∨ strAbc.IsNull = true) →
          r = GetNullValueByType .BOOLEAN ∧ r.IsNull = true ∧ r.IsTrue = false ∧
            r.IsFalse = false) ∧
        ((strAbc.IsNull = false ∧ strAbc.IsNull = false) → r.IsNull = false)) :=
  ⟨⟨by decide, null_propagation varcharType .LessThan memAbc strNull strAbc (by decide)⟩,
   ⟨by decide, null_propagation varcharType .Equals memAbc strAbc strAbc (by decide)⟩⟩

/-- C4, counterexample.  The left operand is NULL, the right one (`abc`) is not, the
pair is comparable, and `CompareNotEquals` still returns NULL. -/
theorem not_equals_one_null_counterexample :
    strNull.IsNull = true ∧ strAbc.IsNull = false ∧
    strNull.CheckComparable strAbc = .ok () ∧
    ∃ r, varcharType.CompareNotEquals memAbc strNull strAbc = .ok r ∧ r.IsNull = true := by
  refine ⟨by decide, by decide, by decide, GetNullValueByType .BOOLEAN, by decide, by decide⟩

/-- C4, amended.  For every comparable pair `CompareNotEquals` returns a BOOLEAN that is
NULL if and only if at least one operand is NULL. -/
theorem not_equals_null_rule (self : VarlenType) (m : Memory) (left right : Value)
    (hc : left.CheckComparable right = .ok ()) :
    ∃ r, self.CompareNotEquals m left right = .ok r ∧ r.GetTypeId = .BOOLEAN ∧
      (r.IsNull = true ↔ (left.IsNull = true ∨ right.IsNull = true)) := by
  obtain ⟨r, hr, ht, h1, h2⟩ := compare_result self .NotEquals m left right hc
  refine ⟨r, hr, ht, ?_, fun h => (h1 h).2.1⟩
  intro hnull
  by_contra hn
  have hl : left.IsNull = false := by
    cases h : left.IsNull
    · rfl
    · exact absurd (Or.inl h) hn
  have hrr : right.IsNull = false := by
    cases h : right.IsNull
    · rfl
    · exact absurd (Or.inr h) hn
  rw [h2 ⟨hl, hrr⟩] at hnull
  exact absurd hnull (by decide)

/-- Witness of the amended C4 at the pair (NULL, `abc`). -/
theorem not_equals_null_rule_witness :
    strNull.CheckComparable strAbc = .ok () ∧
    ∃ r, varcharType.CompareNotEquals memAbc strNull strAbc = .ok r ∧
      r.GetTypeId = .BOOLEAN ∧
      (r.IsNull = true ↔ (strNull.IsNull = true ∨ strAbc.IsNull = true)) :=
  ⟨by decide, not_equals_null_rule varcharType memAbc strNull strAbc (by decide)⟩

/-- With `Value.IsNull` as modelled in this development (a varlen value is NULL exactly
at the sentinel length), `abc` against a value whose length is the sentinel: the pair
is comparable and `CompareLessThan` returns NULL; so does `CompareEquals` of the
sentinel-length value and itself.  The null guard fires before the sentinel test. -/
theorem sentinel_compare_under_length_reading :
    strAbc.GetLength = 3 ∧ strSentinel.GetLength = PELOTON_VARCHAR_MAX_LEN ∧
    strAbc.CheckComparable strSentinel = .ok () ∧
    (∃ r, varcharType.CompareLessThan memAbc strAbc strSentinel = .ok r ∧
      r.IsNull = true ∧ r.IsTrue = false) ∧
    (∃ r, varcharType.CompareEquals memAbc strSentinel strSentinel = .ok r ∧
      r.IsNull = true ∧ r.IsTrue = false) := by
  refine ⟨by decide, by decide, by decide,
    ⟨GetNullValueByType .BOOLEAN, by decide, by decide, by decide⟩,
    ⟨GetNullValueByType .BOOLEAN, by decide, by decide, by decide⟩⟩

/-- A varlen value whose length field holds the sentinel is NULL. -/
theorem isNull_of_sentinel_length (v : Value)
    (ht : v.type_id = .VARCHAR ∨ v.type_id = .VARBINARY)
    (hs : v.GetLength = PELOTON_VARCHAR_MAX_LEN) : v.IsNull = true := by
  unfold Value.GetLength at hs
  rcases ht with h | h <;> simp [Value.IsNull, h, hs]

/-- With `Value.IsNull` as modelled in this development, for every comparable pair of
varlen values of which at least one carries the sentinel length, each of the six
operators returns the NULL BOOLEAN: the value with the sentinel length is NULL and the
null test comes first. -/
theorem sentinel_length_compares_null (self : VarlenType) (op : CompareOp) (m : Memory)
    (a b : Value) (ht : a.type_id = .VARCHAR ∨ a.type_id = .VARBINARY)
    (hc : a.CheckComparable b = .ok ())
    (hs : a.GetLength = PELOTON_VARCHAR_MAX_LEN ∨ b.GetLength = PELOTON_VARCHAR_MAX_LEN) :
    self.Compare op m a b = .ok (GetNullValueByType .BOOLEAN) := by
  have hab : a.type_id = b.type_id := by
    unfold Value.CheckComparable at hc
    by_contra hne
    simp [hne] at hc
  apply compare_of_null self op m a b hc
  rcases hs with h | h
  · exact Or.inl (isNull_of_sentinel_length a ht h)
  · exact Or.inr (isNull_of_sentinel_length b (by rw [← hab]; exact ht) h)

/-- The same at `abc` against the sentinel-length value under `<`. -/
theorem sentinel_length_compares_null_witness :
    (strAbc.type_id = .VARCHAR ∨ strAbc.type_id = .VARBINARY) ∧
    strAbc.CheckComparable strSentinel = .ok () ∧
    (strAbc.GetLength = PELOTON_VARCHAR_MAX_LEN ∨
      strSentinel.GetLength = PELOTON_VARCHAR_MAX_LEN) ∧
    varcharType.Compare .LessThan memAbc strAbc strSentinel
      = .ok (GetNullValueByType .BOOLEAN) :=
  ⟨by decide, by decide, by decide,
    sentinel_length_compares_null varcharType .LessThan memAbc strAbc strSentinel
      (by decide) (by decide) (by decide)⟩

/-- C6 (cast target set, at the failing input).  Whatever the value and the
conversions, `CastAs` with target BIGINT raises the not-coercible error: the switch
has no BIGINT case.  The other seven listed targets are dispatched to their conversion
or to `Copy`, and DECIMAL, DATE, ARRAY and INVALID raise the error. -/
theorem cast_targets (self : VarlenType) (factory : ValueFactory) (val : Value) :
    self.CastAs factory val .BIGINT = .error (.NotCoercable .BIGINT) ∧
    self.CastAs factory val .BOOLEAN = factory.CastAsBoolean val ∧
    self.CastAs factory val .TINYINT = factory.CastAsTinyInt val ∧
    self.CastAs factory val .SMALLINT = factory.CastAsSmallInt val ∧
    self.CastAs factory val .INTEGER = factory.CastAsInteger val ∧
    self.CastAs factory val .TIMESTAMP = factory.CastAsTimestamp val ∧
    self.CastAs factory val .VARCHAR = .ok val.Copy ∧
    self.CastAs factory val .VARBINARY = .ok val.Copy ∧
    self.CastAs factory val .DECIMAL = .error (.NotCoercable .DECIMAL) ∧
    self.CastAs factory val .DATE = .error (.NotCoercable .DATE) ∧
    self.CastAs factory val .ARRAY = .error (.NotCoercable .ARRAY) ∧
    self.CastAs factory val .INVALID = .error (.NotCoercable .INVALID) := by
  simp [VarlenType.CastAs]

/-- C7 (type of a cast result, at the failing input).  Casting the VARCHAR value `abc`
to VARBINARY succeeds and returns a value whose type id is VARCHAR; casting the
VARBINARY value `a \0 b` to VARCHAR succeeds and returns a VARBINARY value. -/
theorem cast_between_varlen_types_keeps_source_type (factory : ValueFactory) :
    strAbc.GetTypeId = .VARCHAR ∧
    (∃ r, varcharType.CastAs factory strAbc .VARBINARY = .ok r ∧ r.GetTypeId = .VARCHAR ∧
      r.GetTypeId ≠ .VARBINARY) ∧
    binA0B.GetTypeId = .VARBINARY ∧
    (∃ r, varbinaryType.CastAs factory binA0B .VARCHAR = .ok r ∧ r.GetTypeId = .VARBINARY ∧
      r.GetTypeId ≠ .VARCHAR) := by
  refine ⟨by decide, ⟨strAbc.Copy, rfl, by decide, by decide⟩, by decide,
    ⟨binA0B.Copy, rfl, by decide, by decide⟩⟩

/-! ### Memory, `strncmp` and byte-order lemmas -/

/-- Comparing no byte at all gives zero. -/
theorem strncmp_zero (m : Memory) (s1 s2 : Nat) : strncmp m s1 s2 0 = 0 := by
  simp [strncmp]

/-- One step of `strncmp`. -/
theorem strncmp_succ (m : Memory) (s1 s2 : Nat) (n : Nat) :
    strncmp m s1 s2 (n + 1) =
      if m s1 ≠ m s2 then (m s1 : Int) - (m s2 : Int)
      else if m s1 = 0 then 0 else strncmp m (s1 + 1) (s2 + 1) n := by
  simp [strncmp]

/-- `strncmp` is zero on two ranges with the same bytes. -/
theorem strncmp_eq_zero_of_bytes_eq (m : Memory) (n : Nat) :
    ∀ s1 s2 : Nat, (∀ i, i < n → m (s1 + i) = m (s2 + i)) → strncmp m s1 s2 n = 0 := by
  induction n with
  | zero => intro s1 s2 _; exact strncmp_zero m s1 s2
  | succ n ih =>
    intro s1 s2 h
    rw [strncmp_succ]
    have h0 : m s1 = m s2 := by simpa using h 0 (Nat.succ_pos n)
    rw [if_neg (by simpa using h0)]
    split
    · rfl
    · apply ih
      intro i hi
      have := h (i + 1) (by omega)
      simpa [Nat.add_assoc, Nat.add_comm 1 i] using this

/-- `strncmp` walks over a common run of non-zero bytes. -/
theorem strncmp_skip (m : Memory) (k : Nat) :
    ∀ (s1 s2 : Nat) (n : Nat),
      (∀ i, i < k → m (s1 + i) = m (s2 + i) ∧ m (s1 + i) ≠ 0) →
      strncmp m s1 s2 (k + n) = strncmp m (s1 + k) (s2 + k) n := by
  induction k with
  | zero => intro s1 s2 n _; simp
  | succ k ih =>
    intro s1 s2 n h
    have h0 := h 0 (Nat.succ_pos k)
    simp only [Nat.add_zero] at h0
    rw [show k + 1 + n = (k + n) + 1 by omega, strncmp_succ]
    rw [if_neg (by simpa using h0.1), if_neg h0.2]
    rw [ih (s1 + 1) (s2 + 1) n]
    · rw [show s1 + 1 + k = s1 + (k + 1) by omega, show s2 + 1 + k = s2 + (k + 1) by omega]
    · intro i hi
      have := h (i + 1) (by omega)
      simpa [Nat.add_assoc, Nat.add_comm 1 i] using this

/-- `strncmp` on a first byte that differs. -/
theorem strncmp_of_ne (m : Memory) (s1 s2 : Nat) (n : Nat) (hn : 0 < n)
    (h : m s1 ≠ m s2) : strncmp m s1 s2 n = (m s1 : Int) - (m s2 : Int) := by
  obtain ⟨k, rfl⟩ : ∃ k, n = k + 1 := ⟨n - 1, by omega⟩
  rw [strncmp_succ, if_pos h]

/-- Reading `n` bytes gives `n` bytes. -/
theorem readBytes_length (m : Memory) (p : Nat) (n : Nat) : (readBytes m p n).length = n := by
  simp [readBytes]

/-- Reading `a + b` bytes is reading `a` bytes and then `b` more. -/
theorem readBytes_add (m : Memory) (p : Nat) (a b : Nat) :
    readBytes m p (a + b) = readBytes m p a ++ readBytes m (p + a) b := by
  simp only [readBytes, List.range_add, List.map_append, List.map_map]
  congr 1
  apply List.map_congr_left
  intro i _
  simp [Nat.add_assoc]

/-- Two reads agree exactly when they agree byte by byte. -/
theorem readBytes_eq_iff (m m' : Memory) (p q : Nat) (n : Nat) :
    readBytes m p n = readBytes m' q n ↔ ∀ i, i < n → m (p + i) = m' (q + i) := by
  constructor
  · intro h i hi
    have := congrArg (fun l => l.getD i 0) h
    simpa [readBytes, List.getD_eq_getElem?_getD, hi] using this
  · intro h
    simp only [readBytes]
    apply List.map_congr_left
    intro i hi
    exact h i (List.mem_range.mp hi)

/-- Decoding the little-endian bytes of `v` in an `n`-byte field gives `v` modulo `256^n`. -/
theorem ofBytesLE_bytesLE (n : Nat) : ∀ v : Nat, ofBytesLE (bytesLE n v) = v % 256 ^ n := by
  induction n with
  | zero => intro v; simp [bytesLE, ofBytesLE, Nat.mod_one]
  | succ n ih =>
    intro v
    simp only [bytesLE, ofBytesLE, ih]
    rw [pow_succ, Nat.mul_comm (256 ^ n) 256, Nat.mod_mul]

/-- An `n`-byte field has `n` bytes. -/
theorem bytesLE_length (n : Nat) : ∀ v : Nat, (bytesLE n v).length = n := by
  induction n with
  | zero => intro v; rfl
  | succ n ih => intro v; simp [bytesLE, ih]

/-- A 32-bit integer takes four bytes in either byte order. -/
theorem intBytes_length (o : ByteOrder) (v : Nat) : (intBytes o v).length = 4 := by
  cases o <;> simp [intBytes, bytesLE_length]

/-- Decoding the four bytes of a 32-bit integer in the order they were written. -/
theorem intOfBytes_intBytes (o : ByteOrder) (v : Nat) :
    intOfBytes o (intBytes o v) = v % UINT32_SIZE := by
  cases o
  · simp only [intOfBytes, intBytes, ofBytesLE_bytesLE]; rfl
  · simp only [intOfBytes, intBytes, List.reverse_reverse, ofBytesLE_bytesLE]; rfl

/-- A length below `2^31` keeps its value as an `int`. -/
theorem toInt32_of_lt (x : Nat) (h : x < 2147483648) : toInt32 x = (x : Int) := by
  unfold toInt32 UINT32_SIZE
  have : x % 4294967296 = x := Nat.mod_eq_of_lt (by omega)
  rw [this, if_pos h]

/-- A non-negative `int` keeps its value as a `size_t`. -/
theorem toSizeT_of_nat (x : Nat) (h : x < 18446744073709551616) : toSizeT (x : Int) = x := by
  unfold toSizeT
  have : ((x : Int) % 18446744073709551616) = (x : Int) := Int.emod_eq_of_lt (by omega) (by omega)
  rw [this]
  simp

/-- Two non-null values of one varlen type with the same length below `2^31` and the
same bytes compare equal. -/
theorem compareEquals_of_same_bytes (self : VarlenType) (m : Memory) (a b : Value)
    (hc : a.CheckComparable b = .ok ())
    (ha : a.IsNull = false) (hb : b.IsNull = false)
    (hlen : a.GetLength = b.GetLength) (hlt : a.GetLength < 2147483648)
    (hbytes : ∀ i, i < a.GetLength → m (a.GetData + i) = m (b.GetData + i)) :
    self.CompareEquals m a b = .ok (GetBooleanValue true) := by
  have hs1 : a.GetLength ≠ PELOTON_VARCHAR_MAX_LEN := by
    unfold PELOTON_VARCHAR_MAX_LEN; omega
  have hs2 : b.GetLength ≠ PELOTON_VARCHAR_MAX_LEN := by
    rw [← hlen]; exact hs1
  have hcmp : CompareStrings m a.GetData (toInt32 a.GetLength) b.GetData (toInt32 b.GetLength)
      = 0 := by
    rw [← hlen, toInt32_of_lt _ hlt]
    unfold CompareStrings
    simp only [min_self, toSizeT_of_nat _ (show a.GetLength < 18446744073709551616 by omega),
      strncmp_eq_zero_of_bytes_eq m a.GetLength a.GetData b.GetData hbytes]
    simp
  simp [VarlenType.CompareEquals, hc, ha, hb, hs1, hs2, hcmp]

/-- Two non-null values of one varlen type, both of length `2^31`, whose payloads agree
and hold no zero byte, but whose bytes right after the payloads differ, are reported
unequal: `strncmp` is handed a length of `2^64 - 2^31` and runs past the payloads. -/
theorem compareEquals_false_of_long (self : VarlenType) (m : Memory) (a b : Value)
    (hc : a.CheckComparable b = .ok ())
    (ha : a.IsNull = false) (hb : b.IsNull = false)
    (hla : a.GetLength = 2147483648) (hlb : b.GetLength = 2147483648)
    (hbytes : ∀ i, i < 2147483648 →
      m (a.GetData + i) = m (b.GetData + i) ∧ m (a.GetData + i) ≠ 0)
    (hafter : m (a.GetData + 2147483648) ≠ m (b.GetData + 2147483648)) :
    self.CompareEquals m a b = .ok (GetBooleanValue false) := by
  have hs1 : a.GetLength ≠ PELOTON_VARCHAR_MAX_LEN := by
    rw [hla]; decide
  have hs2 : b.GetLength ≠ PELOTON_VARCHAR_MAX_LEN := by
    rw [hlb]; decide
  have hi : toInt32 2147483648 = -2147483648 := by decide
  have hn : toSizeT (-2147483648) = 2147483648 + 18446744069414584320 := by decide
  have hcmp : CompareStrings m a.GetData (toInt32 a.GetLength) b.GetData (toInt32 b.GetLength)
      ≠ 0 := by
    rw [hla, hlb, hi]
    unfold CompareStrings
    simp only [min_self, hn]
    rw [strncmp_skip m 2147483648 a.GetData b.GetData _ hbytes,
      strncmp_of_ne m _ _ _ (by decide) hafter]
    have : (m (a.GetData + 2147483648) : Int) - (m (b.GetData + 2147483648) : Int) ≠ 0 := by
      omega
    simp [this]
  simp [VarlenType.CompareEquals, hc, ha, hb, hs1, hs2, hcmp]

/-- Reading zero bytes gives the empty string. -/
theorem readBytes_zero (m : Memory) (p : Nat) : readBytes m p 0 = [] := by
  simp [readBytes]

/-- Reading `n + 1` bytes is reading the first byte and then `n` more. -/
theorem readBytes_succ (m : Memory) (p n : Nat) :
    readBytes m p (n + 1) = m p :: readBytes m (p + 1) n := by
  rw [Nat.add_comm n 1, readBytes_add]
  simp [readBytes, List.range_succ]

/-- An `int` result that is in range is not changed by the wrap-around. -/
theorem wrapInt32_of_small (i : Int) (h1 : -2147483648 ≤ i) (h2 : i < 2147483648) :
    wrapInt32 i = i := by
  unfold wrapInt32
  split <;> omega

/-- The minimum of two successors, as `int`s. -/
theorem min_cast_succ (k j : Nat) :
    min (((k + 1 : Nat) : Int)) (((j + 1 : Nat) : Int)) = ((min k j + 1 : Nat) : Int) := by
  omega

/-- `CompareStrings` steps over a common non-zero first byte. -/
theorem compareStrings_step (m : Memory) (s1 s2 k j : Nat)
    (hk : k + 1 < 2147483648) (hj : j + 1 < 2147483648)
    (he : m s1 = m s2) (hz : m s1 ≠ 0) :
    CompareStrings m s1 ((k + 1 : Nat) : Int) s2 ((j + 1 : Nat) : Int)
      = CompareStrings m (s1 + 1) (k : Int) (s2 + 1) (j : Int) := by
  have hmin : min ((k : Nat) : Int) ((j : Nat) : Int) = ((min k j : Nat) : Int) := by omega
  have hs : strncmp m s1 s2 (min k j + 1) = strncmp m (s1 + 1) (s2 + 1) (min k j) := by
    rw [strncmp_succ, if_neg (by simpa using he), if_neg hz]
  have e1 : (((k + 1 : Nat) : Int) ≠ ((j + 1 : Nat) : Int)) ↔ ((k : Int) ≠ (j : Int)) := by
    omega
  have e2 : ((k + 1 : Nat) : Int) - ((j + 1 : Nat) : Int) = (k : Int) - (j : Int) := by omega
  simp only [CompareStrings, min_cast_succ, hmin, toSizeT_of_nat _ (show min k j + 1
    < 18446744073709551616 by omega), toSizeT_of_nat _ (show min k j
    < 18446744073709551616 by omega), hs, e1, e2]

/-- `CompareStrings` on a first byte that differs. -/
theorem compareStrings_ne (m : Memory) (s1 s2 k j : Nat)
    (hk : k + 1 < 2147483648) (hj : j + 1 < 2147483648) (hne : m s1 ≠ m s2) :
    CompareStrings m s1 ((k + 1 : Nat) : Int) s2 ((j + 1 : Nat) : Int)
      = (m s1 : Int) - (m s2 : Int) := by
  have hs : strncmp m s1 s2 (min k j + 1) = (m s1 : Int) - (m s2 : Int) := by
    rw [strncmp_succ, if_pos hne]
  have hne0 : (m s1 : Int) - (m s2 : Int) ≠ 0 := by omega
  simp only [CompareStrings, min_cast_succ, toSizeT_of_nat _ (show min k j + 1
    < 18446744073709551616 by omega), hs]
  rw [if_neg (fun h => hne0 h.1)]

/-- On payloads shorter than `2^31` bytes, the first of which holds no zero byte, the
sign of `CompareStrings` is the reference comparison of the two byte sequences. -/
theorem compareStrings_reference (m : Memory) (l1 : Nat) :
    ∀ (s1 s2 l2 : Nat), l1 < 2147483648 → l2 < 2147483648 →
      (∀ i, i < l1 → m (s1 + i) ≠ 0) →
      orderingOfInt (CompareStrings m s1 (l1 : Int) s2 (l2 : Int))
        = referenceCompare (readBytes m s1 l1) (readBytes m s2 l2) := by
  induction l1 with
  | zero =>
    intro s1 s2 l2 _ h2 _
    cases l2 with
    | zero => simp [CompareStrings, toSizeT, strncmp, orderingOfInt, readBytes, referenceCompare]
    | succ j =>
      have hc : CompareStrings m s1 ((0 : Nat) : Int) s2 ((j + 1 : Nat) : Int)
          = -((j + 1 : Nat) : Int) := by
        unfold CompareStrings
        have hmin : min ((0 : Nat) : Int) ((j + 1 : Nat) : Int) = ((0 : Nat) : Int) := by omega
        rw [hmin, toSizeT_of_nat _ (by omega), strncmp_zero]
        rw [if_pos ⟨rfl, by omega⟩]
        rw [wrapInt32_of_small _ (by omega) (by omega)]
        omega
      rw [hc, readBytes_zero, readBytes_succ]
      simp only [referenceCompare, orderingOfInt]
      rw [if_pos (by omega)]
  | succ k ih =>
    intro s1 s2 l2 h1 h2 hz
    cases l2 with
    | zero =>
      have hc : CompareStrings m s1 ((k + 1 : Nat) : Int) s2 ((0 : Nat) : Int)
          = ((k + 1 : Nat) : Int) := by
        unfold CompareStrings
        have hmin : min ((k + 1 : Nat) : Int) ((0 : Nat) : Int) = ((0 : Nat) : Int) := by omega
        rw [hmin, toSizeT_of_nat _ (by omega), strncmp_zero]
        rw [if_pos ⟨rfl, by omega⟩]
        rw [wrapInt32_of_small _ (by omega) (by omega)]
        omega
      rw [hc, readBytes_zero, readBytes_succ]
      simp only [referenceCompare, orderingOfInt]
      rw [if_neg (by omega), if_neg (by omega)]
    | succ j =>
      rw [readBytes_succ, readBytes_succ]
      by_cases he : m s1 = m s2
      · have hz0 : m s1 ≠ 0 := by simpa using hz 0 (by omega)
        rw [compareStrings_step m s1 s2 k j h1 h2 he hz0]
        rw [ih (s1 + 1) (s2 + 1) j (by omega) (by omega)
          (fun i hi => by
            have := hz (i + 1) (by omega)
            rwa [show s1 + (i + 1) = s1 + 1 + i by omega] at this)]
        simp only [referenceCompare]
        rw [if_neg (by omega), if_neg (by omega)]
      · rw [compareStrings_ne m s1 s2 k j h1 h2 he]
        simp only [referenceCompare, orderingOfInt]
        by_cases hlt : m s1 < m s2
        · rw [if_pos (by omega), if_pos hlt]
        · rw [if_neg (by omega), if_neg (by omega), if_neg hlt, if_pos (by omega)]

/-- The outcome is `eq` exactly for the result zero. -/
theorem orderingOfInt_eq (c : Int) : orderingOfInt c = .eq ↔ c = 0 := by
  unfold orderingOfInt
  split
  · constructor
    · intro h; cases h
    · intro h; omega
  · split
    · simp [*]
    · constructor
      · intro h; cases h
      · intro h; omega

/-- The outcome is `lt` exactly for a negative result. -/
theorem orderingOfInt_lt (c : Int) : orderingOfInt c = .lt ↔ c < 0 := by
  unfold orderingOfInt
  split
  · simp [*]
  · split
    · constructor
      · intro h; cases h
      · intro h; omega
    · constructor
      · intro h; cases h
      · intro h; omega

/-- The outcome is `gt` exactly for a positive result. -/
theorem orderingOfInt_gt (c : Int) : orderingOfInt c = .gt ↔ 0 < c := by
  unfold orderingOfInt
  split
  · constructor
    · intro h; cases h
    · intro h; omega
  · split
    · constructor
      · intro h; cases h
      · intro h; omega
    · constructor
      · intro _; omega
      · intro _; rfl

/-- On non-null values of one varlen type with lengths below `2^31`, the first of which
holds no zero byte, the six operators are the six relations of the reference
comparison of the two byte sequences. -/
theorem compare_agrees_with_reference (self : VarlenType) (m : Memory) (a b : Value)
    (hc : a.CheckComparable b = .ok ())
    (ha : a.IsNull = false) (hb : b.IsNull = false)
    (hla : a.GetLength < 2147483648) (hlb : b.GetLength < 2147483648)
    (hz : ∀ i, i < a.GetLength → m (a.GetData + i) ≠ 0) :
    self.CompareEquals m a b = .ok (GetBooleanValue (decide (referenceCompare
      (readBytes m a.GetData a.GetLength) (readBytes m b.GetData b.GetLength) = .eq))) ∧
    self.CompareNotEquals m a b = .ok (GetBooleanValue (decide (referenceCompare
      (readBytes m a.GetData a.GetLength) (readBytes m b.GetData b.GetLength) ≠ .eq))) ∧
    self.CompareLessThan m a b = .ok (GetBooleanValue (decide (referenceCompare
      (readBytes m a.GetData a.GetLength) (readBytes m b.GetData b.GetLength) = .lt))) ∧
    self.CompareLessThanEquals m a b = .ok (GetBooleanValue (decide (referenceCompare
      (readBytes m a.GetData a.GetLength) (readBytes m b.GetData b.GetLength) ≠ .gt))) ∧
    self.CompareGreaterThan m a b = .ok (GetBooleanValue (decide (referenceCompare
      (readBytes m a.GetData a.GetLength) (readBytes m b.GetData b.GetLength) = .gt))) ∧
    self.CompareGreaterThanEquals m a b = .ok (GetBooleanValue (decide (referenceCompare
      (readBytes m a.GetData a.GetLength) (readBytes m b.GetData b.GetLength) ≠ .lt))) := by
  have hs1 : a.GetLength ≠ PELOTON_VARCHAR_MAX_LEN := by
    unfold PELOTON_VARCHAR_MAX_LEN; omega
  have hs2 : b.GetLength ≠ PELOTON_VARCHAR_MAX_LEN := by
    unfold PELOTON_VARCHAR_MAX_LEN; omega
  have href := compareStrings_reference m a.GetLength a.GetData b.GetData b.GetLength hla hlb hz
  rw [← toInt32_of_lt _ hla, ← toInt32_of_lt _ hlb] at href
  have e0 : ∀ c : Int, decide (orderingOfInt c = .eq) = decide (c = 0) := by
    intro c; simp [orderingOfInt_eq]
  have e1 : ∀ c : Int, decide (orderingOfInt c ≠ .eq) = decide (c ≠ 0) := by
    intro c; simp [orderingOfInt_eq]
  have e2 : ∀ c : Int, decide (orderingOfInt c = .lt) = decide (c < 0) := by
    intro c; simp [orderingOfInt_lt]
  have e3 : ∀ c : Int, decide (orderingOfInt c ≠ .gt) = decide (c ≤ 0) := by
    intro c; simp [orderingOfInt_gt]
  have e4 : ∀ c : Int, decide (orderingOfInt c = .gt) = decide (c > 0) := by
    intro c; simp [orderingOfInt_gt]
  have e5 : ∀ c : Int, decide (orderingOfInt c ≠ .lt) = decide (c ≥ 0) := by
    intro c; simp [orderingOfInt_lt]
  rw [← href, e0, e1, e2, e3, e4, e5]
  refine ⟨?_, ?_, ?_, ?_, ?_, ?_⟩
  · simp only [VarlenType.CompareEquals, hc, ha, hb, hs1, hs2, Bool.or_self,
      Bool.false_eq_true, or_self, if_false]
  · simp only [VarlenType.CompareNotEquals, hc, ha, hb, hs1, hs2, Bool.or_self,
      Bool.false_eq_true, or_self, if_false]
  · simp only [VarlenType.CompareLessThan, hc, ha, hb, hs1, hs2, Bool.or_self,
      Bool.false_eq_true, or_self, if_false]
  · simp only [VarlenType.CompareLessThanEquals, hc, ha, hb, hs1, hs2, Bool.or_self,
      Bool.false_eq_true, or_self, if_false]
  · simp only [VarlenType.CompareGreaterThan, hc, ha, hb, hs1, hs2, Bool.or_self,
      Bool.false_eq_true, or_self, if_false]
  · simp only [VarlenType.CompareGreaterThanEquals, hc, ha, hb, hs1, hs2, Bool.or_self,
      Bool.false_eq_true, or_self, if_false]

/-- Sequences the reference comparison reports equal are the same sequence. -/
theorem referenceCompare_eq : ∀ (A B : List Nat), referenceCompare A B = .eq → A = B := by
  intro A
  induction A with
  | nil =>
    intro B h
    cases B with
    | nil => rfl
    | cons y ys => simp [referenceCompare] at h
  | cons x xs ih =>
    intro B h
    cases B with
    | nil => simp [referenceCompare] at h
    | cons y ys =>
      simp only [referenceCompare] at h
      split at h
      · cases h
      · split at h
        · cases h
        · have hxy : x = y := by omega
          rw [hxy, ih ys h]

/-- The hash-equals law where `strncmp` sees the whole payloads: for non-null values of
the handler's type with lengths below `2^31`, a first payload without zero byte and,
for VARCHAR, at least the terminator, values that compare equal have the same
`ToString` and therefore the same hash. -/
theorem hash_equals_law_zero_free (self : VarlenType) (hash : List Nat → Nat) (m : Memory)
    (a b : Value) (hc : a.CheckComparable b = .ok ())
    (ha : a.IsNull = false) (hb : b.IsNull = false)
    (hla : a.GetLength < 2147483648) (hlb : b.GetLength < 2147483648)
    (hz : ∀ i, i < a.GetLength → m (a.GetData + i) ≠ 0)
    (hpos : self.GetTypeId = .VARBINARY ∨ 0 < a.GetLength)
    (heq : self.CompareEquals m a b = .ok (GetBooleanValue true)) :
    self.ToString m a = self.ToString m b ∧ self.Hash hash m a = self.Hash hash m b := by
  have h := (compare_agrees_with_reference self m a b hc ha hb hla hlb hz).1
  rw [heq] at h
  have hdec : decide (referenceCompare (readBytes m a.GetData a.GetLength)
      (readBytes m b.GetData b.GetLength) = .eq) = true := by
    have := congrArg (fun r => match r with
      | .ok v => v.IsTrue
      | .error _ => false) h
    simpa [GetBooleanValue, Value.IsTrue, Val.zero] using this.symm
  have hlist := referenceCompare_eq _ _ (of_decide_eq_true hdec)
  have hlen : a.GetLength = b.GetLength := by
    have := congrArg List.length hlist
    simpa [readBytes_length] using this
  have hbytes := (readBytes_eq_iff m m a.GetData b.GetData a.GetLength).mp
    (by rw [hlist, hlen])
  have hs1 : a.GetLength ≠ PELOTON_VARCHAR_MAX_LEN := by
    unfold PELOTON_VARCHAR_MAX_LEN; omega
  have hs2 : b.GetLength ≠ PELOTON_VARCHAR_MAX_LEN := by
    unfold PELOTON_VARCHAR_MAX_LEN; omega
  have hts : self.ToString m a = self.ToString m b := by
    unfold VarlenType.ToString
    rw [ha, hb]
    simp only [Bool.false_eq_true, if_false, hs1, hs2]
    split
    · rw [hlist]
    · rename_i hnb
      have hp : 0 < a.GetLength := by
        rcases hpos with h | h
        · exact absurd h hnb
        · exact h
      rw [← hlen]
      have hm : (a.GetLength + UINT32_SIZE - 1) % UINT32_SIZE = a.GetLength - 1 := by
        unfold UINT32_SIZE; omega
      rw [hm]
      apply (readBytes_eq_iff _ _ _ _ _).mpr
      intro i hi
      exact hbytes i (by omega)
  exact ⟨hts, by unfold VarlenType.Hash; rw [hts]⟩

/-- The stream form of `SerializeTo` appends the length word and then the payload. -/
theorem serializeTo_buffer (self : VarlenType) (m : Memory) (val : Value)
    (out : SerializeOutput) :
    (self.SerializeTo m val out).buffer =
      out.buffer ++ (intBytes out.order (val.GetLength % UINT32_SIZE)
        ++ readBytes m val.GetData val.GetLength) := by
  unfold VarlenType.SerializeTo
  by_cases h : val.GetLength > 0
  · simp [h, SerializeOutput.WriteInt, SerializeOutput.WriteBytes]
  · have h0 : val.GetLength = 0 := by omega
    simp [h0, SerializeOutput.WriteInt, readBytes_zero]

/-- The bytes one call of the stream form appends. -/
theorem serializeTo_produced (self : VarlenType) (m : Memory) (val : Value)
    (out : SerializeOutput) :
    (self.SerializeTo m val out).buffer.drop out.buffer.length =
      intBytes out.order (val.GetLength % UINT32_SIZE)
        ++ readBytes m val.GetData val.GetLength ∧
    (self.SerializeTo m val out).buffer.length - out.buffer.length = 4 + val.GetLength := by
  rw [serializeTo_buffer]
  constructor
  · simp
  · simp [intBytes_length, readBytes_length]

/-- Reading back what `storeBytes` stored. -/
theorem readBytes_storeBytes (m : Memory) (p : Nat) (bs : List Nat) :
    readBytes (storeBytes m p bs) p bs.length = bs := by
  apply List.ext_getElem
  · simp [readBytes_length]
  · intro i h1 h2
    simp only [readBytes, List.getElem_map, List.getElem_range, storeBytes]
    rw [if_pos ⟨by omega, by omega⟩]
    simp [List.getD_eq_getElem?_getD, h2]

/-- `storeBytes` leaves the addresses outside the stored range alone. -/
theorem storeBytes_outside (m : Memory) (p : Nat) (bs : List Nat) (a : Nat)
    (h : a < p ∨ p + bs.length ≤ a) : storeBytes m p bs a = m a := by
  unfold storeBytes
  rw [if_neg (by omega)]

/-- The stream form of `DeserializeFrom` on a buffer that holds a length word followed by
a payload. -/
theorem deserializeFrom_stream (self : VarlenType) (m : Memory) (inp : SerializeInput)
    (len : Nat) (payload : List Nat)
    (h : readBytes m inp.current (4 + payload.length) = intBytes inp.order len ++ payload) :
    (self.DeserializeFrom m inp).1
        = Value.mkVarlen self.type_id_ (inp.current + 4) (len % UINT32_SIZE) ∧
      readBytes m (inp.current + 4) payload.length = payload := by
  rw [readBytes_add] at h
  have h4 := List.append_inj h (by simp [readBytes_length, intBytes_length])
  refine ⟨?_, h4.2⟩
  simp [VarlenType.DeserializeFrom, SerializeInput.ReadInt, SerializeInput.getRawPointer, h4.1,
    intOfBytes_intBytes]

/-- A non-null varlen value built on a non-null pointer keeps its pointer and length. -/
theorem mkVarlen_of_ne_null (t : TypeId) (data len : Nat) (hd : data ≠ nullptr)
    (hl : len < UINT32_SIZE) :
    (Value.mkVarlen t data len).type_id = t ∧ (Value.mkVarlen t data len).GetData = data ∧
    (Value.mkVarlen t data len).GetLength = len := by
  unfold Value.mkVarlen
  rw [if_neg hd]
  exact ⟨rfl, rfl, Nat.mod_eq_of_lt hl⟩

/-- A varlen value is NULL exactly when its length field holds the sentinel. -/
theorem isNull_varlen (v : Value) (ht : v.type_id = .VARCHAR ∨ v.type_id = .VARBINARY) :
    v.IsNull = decide (v.GetLength = PELOTON_VARCHAR_MAX_LEN) := by
  unfold Value.GetLength
  rcases ht with h | h <;> simp [Value.IsNull, h, beq_eq_decide]

/-- The stream round trip where it holds: lengths below `2^31`.  Let `val` be a non-null
value of the handler's varlen type whose length is below `2^31`.  Write it with the
stream form of `SerializeTo`; let the input stream (same byte order) read, in a
memory `m'` where the payload of `val` is unchanged, a buffer that holds exactly the
bytes just produced.  Then the stream form of `DeserializeFrom` yields a value of the
same length, and `CompareEquals` of `val` and that value is true. -/
theorem stream_round_trip (self : VarlenType) (m m' : Memory) (val : Value)
    (out : SerializeOutput) (inp : SerializeInput)
    (hvar : self.type_id_ = .VARCHAR ∨ self.type_id_ = .VARBINARY)
    (htype : val.type_id = self.type_id_)
    (hnull : val.IsNull = false)
    (hlen : val.GetLength < 2147483648)
    (horder : inp.order = out.order)
    (hbuf : readBytes m' inp.current
        ((self.SerializeTo m val out).buffer.length - out.buffer.length)
      = (self.SerializeTo m val out).buffer.drop out.buffer.length)
    (hval : readBytes m' val.GetData val.GetLength = readBytes m val.GetData val.GetLength) :
    (self.DeserializeFrom m' inp).1.GetLength = val.GetLength ∧
    self.CompareEquals m' val (self.DeserializeFrom m' inp).1 = .ok (GetBooleanValue true) := by
  obtain ⟨hp, hl⟩ := serializeTo_produced self m val out
  rw [hp, hl, ← horder] at hbuf
  have hbuf' : readBytes m' inp.current (4 + (readBytes m val.GetData val.GetLength).length)
      = intBytes inp.order (val.GetLength % UINT32_SIZE)
        ++ readBytes m val.GetData val.GetLength := by
    rw [readBytes_length]; exact hbuf
  obtain ⟨hv, hpay⟩ := deserializeFrom_stream self m' inp _ _ hbuf'
  rw [readBytes_length] at hpay
  have hlt : val.GetLength < UINT32_SIZE := by unfold UINT32_SIZE; omega
  rw [Nat.mod_mod, Nat.mod_eq_of_lt hlt] at hv
  have hne : inp.current + 4 ≠ nullptr := by unfold nullptr; omega
  obtain ⟨h1, h2, h3⟩ := mkVarlen_of_ne_null self.type_id_ (inp.current + 4) val.GetLength
    hne hlt
  rw [← hv] at h1 h2 h3
  refine ⟨h3, ?_⟩
  apply compareEquals_of_same_bytes self m' val _ _ hnull _ h3.symm hlen
  · rw [h2]
    have := (readBytes_eq_iff m' m' val.GetData (inp.current + 4) val.GetLength).mp
      (by rw [hval, hpay])
    exact this
  · unfold Value.CheckComparable
    rw [h1, htype]; simp
  · rw [isNull_varlen _ (by rw [h1]; exact hvar), h3]
    unfold PELOTON_VARCHAR_MAX_LEN
    simp; omega

/-- The stream round trip of the VARCHAR value `abc`, written to an empty big-endian
stream and read back from address 500. -/
theorem stream_round_trip_witness :
    (varcharType.type_id_ = .VARCHAR ∨ varcharType.type_id_ = .VARBINARY) ∧
    strAbc.type_id = varcharType.type_id_ ∧ strAbc.IsNull = false ∧
    strAbc.GetLength < 2147483648 ∧ inpAbc.order = outEmpty.order ∧
    readBytes memAbcStream inpAbc.current
        ((varcharType.SerializeTo memAbc strAbc outEmpty).buffer.length - outEmpty.buffer.length)
      = (varcharType.SerializeTo memAbc strAbc outEmpty).buffer.drop outEmpty.buffer.length ∧
    readBytes memAbcStream strAbc.GetData strAbc.GetLength
      = readBytes memAbc strAbc.GetData strAbc.GetLength ∧
    (varcharType.DeserializeFrom memAbcStream inpAbc).1.GetLength = strAbc.GetLength ∧
    varcharType.CompareEquals memAbcStream strAbc (varcharType.DeserializeFrom memAbcStream inpAbc).1
      = .ok (GetBooleanValue true) :=
  ⟨by decide, by decide, by decide, by decide, by decide, by decide, by decide,
    stream_round_trip varcharType memAbc memAbcStream strAbc outEmpty inpAbc
      (by decide) (by decide) (by decide) (by decide) (by decide) (by decide) (by decide)⟩

/-- The payload of `binLong` consists of the byte 97. -/
theorem memLong_payload (i : Nat) (h : i < 2147483648) : memLong (1000 + i) = 97 := by
  unfold memLong
  rw [if_neg (by omega)]

/-- The stream bytes of `binLong`: the length word and then the payload. -/
theorem streamLong_eq :
    streamLong = intBytes .BigEndian 2147483648 ++ readBytes memLong 1000 2147483648 := by
  have h := serializeTo_buffer varbinaryType memLong binLong outEmpty
  have hl : binLong.GetLength = 2147483648 := by decide
  have hd : binLong.GetData = 1000 := by decide
  have hm : 2147483648 % UINT32_SIZE = 2147483648 := by decide
  have ho : outEmpty.buffer = [] := rfl
  have hor : outEmpty.order = .BigEndian := rfl
  rw [hl, hd, hm, ho, hor, List.nil_append] at h
  exact h

/-- The stream bytes of `binLong` are `4 + 2^31` bytes. -/
theorem streamLong_length : streamLong.length = 4 + 2147483648 := by
  rw [streamLong_eq, List.length_append, intBytes_length, readBytes_length]


/-- Laying out the stream bytes at 8000000000 leaves the lower addresses alone. -/
theorem memLongStream_low (a : Nat) (h : a < 8000000000) : memLongStream a = memLong a :=
  storeBytes_outside memLong 8000000000 streamLong a (Or.inl h)

/-- The buffer at 8000000000 holds the stream bytes of `binLong`. -/
theorem memLongStream_buffer :
    readBytes memLongStream 8000000000 (4 + 2147483648)
      = intBytes .BigEndian 2147483648 ++ readBytes memLong 1000 2147483648 := by
  have h : readBytes memLongStream 8000000000 streamLong.length = streamLong :=
    readBytes_storeBytes memLong 8000000000 streamLong
  rw [streamLong_length] at h
  rw [streamLong_eq] at h
  exact h

/-- What the stream form of `DeserializeFrom` reads from the buffer at 8000000000. -/
theorem deserialize_long :
    (varbinaryType.DeserializeFrom memLongStream inpLong).1
      = Value.mkVarlen .VARBINARY 8000000004 2147483648 ∧
    ∀ i, i < 2147483648 → memLongStream (8000000004 + i) = memLong (1000 + i) := by
  have hbuf : readBytes memLongStream inpLong.current
        (4 + (readBytes memLong 1000 2147483648).length)
      = intBytes inpLong.order 2147483648 ++ readBytes memLong 1000 2147483648 := by
    rw [readBytes_length]
    exact memLongStream_buffer
  obtain ⟨hv, hpay⟩ := deserializeFrom_stream varbinaryType memLongStream inpLong _ _ hbuf
  rw [readBytes_length] at hpay
  have hcur : inpLong.current + 4 = 8000000004 := by decide
  have hm : 2147483648 % UINT32_SIZE = 2147483648 := by decide
  have ht : varbinaryType.type_id_ = .VARBINARY := rfl
  rw [hcur] at hpay
  rw [hcur, hm, ht] at hv
  exact ⟨hv, (readBytes_eq_iff memLongStream memLong 8000000004 1000 2147483648).mp hpay⟩

/-- C8 (stream round trip, at the failing input).  The non-null VARBINARY value of length
`2^31` made of the byte 97, followed in memory by the byte 1.  `CompareStrings`
receives its `uint32_t` length in an `int` parameter as `-2^31`, so `strncmp` is given
the bound `2^64 - 2^31`, far beyond the payload.  The stream bytes of the value are
laid out at 8000000000 and read back: every premise of the round trip holds and the
lengths agree, but `CompareEquals` of the value and what was read is false: the
comparison runs over the two payloads and is decided by the bytes behind them. -/
theorem stream_round_trip_long_value :
    toInt32 binLong.GetLength = -2147483648 ∧
    toSizeT (min (toInt32 binLong.GetLength) (toInt32 binLong.GetLength))
      = 18446744071562067968 ∧
    binLong.GetLength < 18446744071562067968 ∧
    (varbinaryType.type_id_ = .VARCHAR ∨ varbinaryType.type_id_ = .VARBINARY) ∧
    binLong.type_id = varbinaryType.type_id_ ∧ binLong.IsNull = false ∧
    binLong.GetLength = 2147483648 ∧ inpLong.order = outEmpty.order ∧
    readBytes memLongStream inpLong.current
        ((varbinaryType.SerializeTo memLong binLong outEmpty).buffer.length
          - outEmpty.buffer.length)
      = (varbinaryType.SerializeTo memLong binLong outEmpty).buffer.drop
          outEmpty.buffer.length ∧
    readBytes memLongStream binLong.GetData binLong.GetLength
      = readBytes memLong binLong.GetData binLong.GetLength ∧
    (varbinaryType.DeserializeFrom memLongStream inpLong).1.GetLength = binLong.GetLength ∧
    varbinaryType.CompareEquals memLongStream binLong
        (varbinaryType.DeserializeFrom memLongStream inpLong).1
      = .ok (GetBooleanValue false) := by
  have hl : binLong.GetLength = 2147483648 := by decide
  have hd : binLong.GetData = 1000 := by decide
  have hm : 2147483648 % UINT32_SIZE = 2147483648 := by decide
  have e1 : (Value.mkVarlen .VARBINARY 8000000004 2147483648).GetData = 8000000004 := by
    decide
  obtain ⟨hv, hpay⟩ := deserialize_long
  refine ⟨by rw [hl]; decide, by rw [hl]; decide, by rw [hl]; decide,
    by decide, by decide, by decide, hl, by decide, ?_, ?_, ?_, ?_⟩
  · obtain ⟨hp, hlen⟩ := serializeTo_produced varbinaryType memLong binLong outEmpty
    rw [hp, hlen, hl, hd, hm]
    exact memLongStream_buffer
  · rw [hl, hd]
    apply (readBytes_eq_iff _ _ _ _ _).mpr
    intro i hi
    exact memLongStream_low _ (by omega)
  · rw [hv]; decide
  · rw [hv]
    apply compareEquals_false_of_long varbinaryType memLongStream binLong _
      (by decide) (by decide) (by decide) hl (by decide)
    · intro i hi
      rw [hd, e1, hpay i hi, memLongStream_low _ (by omega), memLong_payload i hi]
      exact ⟨rfl, by decide⟩
    · rw [hd, e1, memLongStream_low _ (by omega)]
      have e2 : memLongStream (8000000004 + 2147483648) = memLong (8000000004 + 2147483648) :=
        storeBytes_outside memLong 8000000000 streamLong _
          (Or.inr (by rw [streamLong_length]))
      rw [e2]
      decide

/-- Inside the destination `PL_MEMCPY` leaves the source bytes. -/
theorem PL_MEMCPY_inside (m : Memory) (dst src n i : Nat) (h : i < n) :
    PL_MEMCPY m dst src n (dst + i) = m (src + i) := by
  unfold PL_MEMCPY
  rw [if_pos ⟨by omega, by omega⟩]
  congr 1
  omega

/-- Outside the destination `PL_MEMCPY` changes nothing. -/
theorem PL_MEMCPY_outside (m : Memory) (dst src n a : Nat) (h : a < dst ∨ dst + n ≤ a) :
    PL_MEMCPY m dst src n a = m a := by
  unfold PL_MEMCPY
  rw [if_neg (by omega)]

/-- Reading back an unsigned object stored in little-endian form. -/
theorem loadLE_of_readBytes (m : Memory) (p n v : Nat)
    (h : readBytes m p n = bytesLE n v) : loadLE m p n = v % 256 ^ n := by
  unfold loadLE
  rw [h, ofBytesLE_bytesLE]

/-- What the inline `SerializeTo` does when `len + 4` fits a `uint32_t`: it asks for
`len + 4` bytes, stores the pointer in the slot, the length in the first four bytes
of the buffer and copies `len` payload bytes behind it. -/
theorem serializeTo_storage_small (self : VarlenType) (new_char : Nat → Nat) (m : Memory)
    (val : Value) (storage : Nat) (inlined : Bool) (pool : Option VarlenPool)
    (hsmall : val.GetLength + 4 < UINT32_SIZE) :
    (self.SerializeTo_storage new_char m val storage inlined pool).size = val.GetLength + 4 ∧
    (self.SerializeTo_storage new_char m val storage inlined pool).memory =
      PL_MEMCPY
        (storeBytes
          (storeBytes m storage
            (bytesLE 8 (self.SerializeTo_storage new_char m val storage inlined pool).data))
          (self.SerializeTo_storage new_char m val storage inlined pool).data
          (bytesLE 4 val.GetLength))
        ((self.SerializeTo_storage new_char m val storage inlined pool).data + 4)
        val.GetData val.GetLength := by
  have h1 : (val.GetLength + 4) % UINT32_SIZE = val.GetLength + 4 := Nat.mod_eq_of_lt hsmall
  have h2 : (val.GetLength + 4 + SIZE_T_SIZE - 4) % SIZE_T_SIZE = val.GetLength := by
    unfold UINT32_SIZE at hsmall
    unfold SIZE_T_SIZE
    omega
  unfold VarlenType.SerializeTo_storage
  simp only [h1, h2]
  exact ⟨trivial, rfl⟩

/-- The value the inline `DeserializeFrom` reads from a slot after the inline
`SerializeTo` wrote it, when `len + 4` fits a `uint32_t` and the allocation returned a
non-null block that does not overlap the slot; and the memory the call leaves. -/
theorem deserializeFrom_storage_after (self : VarlenType) (new_char : Nat → Nat) (m : Memory)
    (val : Value) (storage : Nat) (inlined : Bool) (pool : Option VarlenPool)
    (w : SlotWrite) (hw : w = self.SerializeTo_storage new_char m val storage inlined pool)
    (hsmall : val.GetLength + 4 < UINT32_SIZE)
    (halloc : w.data ≠ nullptr) (hptr : w.data < SIZE_T_SIZE)
    (hslot : w.data + w.size ≤ storage ∨ storage + 8 ≤ w.data) :
    self.DeserializeFrom_storage w.memory storage inlined pool
      = Value.mkVarlen self.type_id_ (w.data + 4) val.GetLength ∧
    (∀ i, i < val.GetLength →
      w.memory (w.data + 4 + i)
        = (storeBytes (storeBytes m storage (bytesLE 8 w.data)) w.data
            (bytesLE 4 val.GetLength)) (val.GetData + i)) ∧
    (∀ a, (a < w.data + 4 ∨ w.data + 4 + val.GetLength ≤ a) →
      w.memory a
        = (storeBytes (storeBytes m storage (bytesLE 8 w.data)) w.data
            (bytesLE 4 val.GetLength)) a) := by
  obtain ⟨hsize, hmem⟩ := serializeTo_storage_small self new_char m val storage inlined pool hsmall
  rw [← hw] at hsize hmem
  rw [hsize] at hslot
  have hin : ∀ i, i < val.GetLength →
      w.memory (w.data + 4 + i)
        = (storeBytes (storeBytes m storage (bytesLE 8 w.data)) w.data
            (bytesLE 4 val.GetLength)) (val.GetData + i) := by
    intro i hi
    rw [hmem]
    exact PL_MEMCPY_inside _ _ _ _ _ hi
  have hout : ∀ a, (a < w.data + 4 ∨ w.data + 4 + val.GetLength ≤ a) →
      w.memory a
        = (storeBytes (storeBytes m storage (bytesLE 8 w.data)) w.data
            (bytesLE 4 val.GetLength)) a := by
    intro a ha
    rw [hmem]
    exact PL_MEMCPY_outside _ _ _ _ _ ha
  refine ⟨?_, hin, hout⟩
  have hslotbytes : readBytes w.memory storage 8 = bytesLE 8 w.data := by
    have e : readBytes (storeBytes m storage (bytesLE 8 w.data)) storage 8 = bytesLE 8 w.data := by
      have := readBytes_storeBytes m storage (bytesLE 8 w.data)
      rwa [bytesLE_length] at this
    rw [← e]
    apply (readBytes_eq_iff _ _ _ _ _).mpr
    intro i hi
    rw [hout _ (by omega)]
    exact storeBytes_outside _ _ _ _ (by rw [bytesLE_length]; omega)
  have hlenbytes : readBytes w.memory w.data 4 = bytesLE 4 val.GetLength := by
    have e : readBytes (storeBytes (storeBytes m storage (bytesLE 8 w.data)) w.data
        (bytesLE 4 val.GetLength)) w.data 4 = bytesLE 4 val.GetLength := by
      have := readBytes_storeBytes (storeBytes m storage (bytesLE 8 w.data)) w.data
        (bytesLE 4 val.GetLength)
      rwa [bytesLE_length] at this
    rw [← e]
    apply (readBytes_eq_iff _ _ _ _ _).mpr
    intro i hi
    exact hout _ (by omega)
  have hp : loadLE w.memory storage 8 = w.data := by
    rw [loadLE_of_readBytes _ _ _ _ hslotbytes]
    apply Nat.mod_eq_of_lt
    unfold SIZE_T_SIZE at hptr
    omega
  have hl : loadLE w.memory w.data 4 = val.GetLength := by
    rw [loadLE_of_readBytes _ _ _ _ hlenbytes]
    apply Nat.mod_eq_of_lt
    unfold UINT32_SIZE at hsmall
    omega
  unfold VarlenType.DeserializeFrom_storage
  simp only [hp, hl, if_neg halloc]

/-- The inline round trip where it holds: lengths below `2^31`.  Let `val` be a non-null
value of the handler's varlen type whose length is below `2^31`, and let `w` be what
the inline `SerializeTo` did for some slot, with or without a pool.  If the allocation
succeeded, that is, it returned a non-null block of the requested size that overlaps
neither the slot nor the payload of `val`, then the inline `DeserializeFrom` on the
slot yields a value of the same length, and `CompareEquals` of `val` and that value is
true. -/
theorem storage_round_trip (self : VarlenType) (new_char : Nat → Nat) (m : Memory)
    (val : Value) (storage : Nat) (inlined : Bool) (pool : Option VarlenPool) (w : SlotWrite)
    (hvar : self.type_id_ = .VARCHAR ∨ self.type_id_ = .VARBINARY)
    (htype : val.type_id = self.type_id_)
    (hnull : val.IsNull = false)
    (hlen : val.GetLength < 2147483648)
    (hw : w = self.SerializeTo_storage new_char m val storage inlined pool)
    (halloc : w.data ≠ nullptr) (hptr : w.data < SIZE_T_SIZE)
    (hslot : w.data + w.size ≤ storage ∨ storage + 8 ≤ w.data)
    (hval : w.data + w.size ≤ val.GetData ∨ val.GetData + val.GetLength ≤ w.data) :
    (self.DeserializeFrom_storage w.memory storage inlined pool).GetLength = val.GetLength ∧
    self.CompareEquals w.memory val (self.DeserializeFrom_storage w.memory storage inlined pool)
      = .ok (GetBooleanValue true) := by
  have hsmall : val.GetLength + 4 < UINT32_SIZE := by unfold UINT32_SIZE; omega
  have hlt : val.GetLength < UINT32_SIZE := by unfold UINT32_SIZE; omega
  obtain ⟨hv, hin, hout⟩ := deserializeFrom_storage_after self new_char m val storage inlined
    pool w hw hsmall halloc hptr hslot
  have hsize : w.size = val.GetLength + 4 := by
    rw [hw]
    exact (serializeTo_storage_small self new_char m val storage inlined pool hsmall).1
  rw [hsize] at hval
  have hne : w.data + 4 ≠ nullptr := by unfold nullptr; omega
  obtain ⟨h1, h2, h3⟩ := mkVarlen_of_ne_null self.type_id_ (w.data + 4) val.GetLength hne hlt
  rw [← hv] at h1 h2 h3
  refine ⟨h3, ?_⟩
  apply compareEquals_of_same_bytes self w.memory val _ _ hnull _ h3.symm hlen
  · intro i hi
    rw [h2, hin i hi, hout _ (by omega)]
  · unfold Value.CheckComparable
    rw [h1, htype]; simp
  · rw [isNull_varlen _ (by rw [h1]; exact hvar), h3]
    unfold PELOTON_VARCHAR_MAX_LEN
    simp; omega

/-- The inline round trip of the VARCHAR value `abc`, the slot at 2000, the heap
returning the block at 1000. -/
theorem storage_round_trip_witness :
    (varcharType.type_id_ = .VARCHAR ∨ varcharType.type_id_ = .VARBINARY) ∧
    strAbc.type_id = varcharType.type_id_ ∧ strAbc.IsNull = false ∧
    strAbc.GetLength < 2147483648 ∧
    slotAbc = varcharType.SerializeTo_storage (fun _ => 1000) memAbc strAbc 2000 false none ∧
    slotAbc.data ≠ nullptr ∧ slotAbc.data < SIZE_T_SIZE ∧
    (slotAbc.data + slotAbc.size ≤ 2000 ∨ 2000 + 8 ≤ slotAbc.data) ∧
    (slotAbc.data + slotAbc.size ≤ strAbc.GetData
      ∨ strAbc.GetData + strAbc.GetLength ≤ slotAbc.data) ∧
    (varcharType.DeserializeFrom_storage slotAbc.memory 2000 false none).GetLength
      = strAbc.GetLength ∧
    varcharType.CompareEquals slotAbc.memory strAbc
        (varcharType.DeserializeFrom_storage slotAbc.memory 2000 false none)
      = .ok (GetBooleanValue true) :=
  ⟨by decide, by decide, by decide, by decide, rfl, by decide, by decide, by decide, by decide,
    storage_round_trip varcharType (fun _ => 1000) memAbc strAbc 2000 false none slotAbc
      (by decide) (by decide) (by decide) (by decide) rfl (by decide) (by decide) (by decide)
      (by decide)⟩

/-- C9 (inline round trip, at the failing input).  The non-null VARBINARY value of length
`2^31` made of the byte 97, followed in memory by the byte 1; the heap returns the
block at 8000000000 of the requested `2^31 + 4` bytes, which overlaps neither the slot
at 16000000000 nor the payload.  The value read back from the slot has the same
length, but `CompareEquals` is false: `CompareStrings` receives the length in an `int`
parameter as `-2^31`, `strncmp` is given the bound `2^64 - 2^31`, runs past both
payloads and is decided by the bytes behind them. -/
theorem storage_round_trip_long_value :
    toInt32 binLong.GetLength = -2147483648 ∧
    toSizeT (min (toInt32 binLong.GetLength) (toInt32 binLong.GetLength))
      = 18446744071562067968 ∧
    binLong.GetLength < 18446744071562067968 ∧
    (varbinaryType.type_id_ = .VARCHAR ∨ varbinaryType.type_id_ = .VARBINARY) ∧
    binLong.type_id = varbinaryType.type_id_ ∧ binLong.IsNull = false ∧
    binLong.GetLength = 2147483648 ∧
    slotLong = varbinaryType.SerializeTo_storage (fun _ => 8000000000) memLong binLong
      16000000000 false none ∧
    slotLong.data ≠ nullptr ∧ slotLong.data < SIZE_T_SIZE ∧
    slotLong.size = binLong.GetLength + 4 ∧
    (slotLong.data + slotLong.size ≤ 16000000000 ∨ 16000000000 + 8 ≤ slotLong.data) ∧
    (slotLong.data + slotLong.size ≤ binLong.GetData
      ∨ binLong.GetData + binLong.GetLength ≤ slotLong.data) ∧
    (varbinaryType.DeserializeFrom_storage slotLong.memory 16000000000 false none).GetLength
      = binLong.GetLength ∧
    varbinaryType.CompareEquals slotLong.memory binLong
        (varbinaryType.DeserializeFrom_storage slotLong.memory 16000000000 false none)
      = .ok (GetBooleanValue false) := by
  have hl : binLong.GetLength = 2147483648 := by decide
  have hd : binLong.GetData = 1000 := by decide
  have hdata : slotLong.data = 8000000000 := rfl
  have e1 : (Value.mkVarlen .VARBINARY 8000000004 2147483648).GetData = 8000000004 := by
    decide
  have hsmall : binLong.GetLength + 4 < UINT32_SIZE := by decide
  have hslot : slotLong.data + slotLong.size ≤ 16000000000
      ∨ 16000000000 + 8 ≤ slotLong.data := by decide
  obtain ⟨hv, hin, hout⟩ := deserializeFrom_storage_after varbinaryType (fun _ => 8000000000)
    memLong binLong 16000000000 false none slotLong rfl hsmall (by decide) (by decide) hslot
  rw [hdata, hl, hd] at hin
  rw [hdata, hl] at hout
  rw [hdata, hl] at hv
  have hv' : varbinaryType.DeserializeFrom_storage slotLong.memory 16000000000 false none
      = Value.mkVarlen .VARBINARY 8000000004 2147483648 := hv
  have hm2 : ∀ a, a < 8000000000 →
      storeBytes (storeBytes memLong 16000000000 (bytesLE 8 8000000000)) 8000000000
        (bytesLE 4 2147483648) a = memLong a := by
    intro a ha
    rw [storeBytes_outside _ _ _ _ (Or.inl ha), storeBytes_outside _ _ _ _ (Or.inl (by omega))]
  refine ⟨by rw [hl]; decide, by rw [hl]; decide, by rw [hl]; decide,
    by decide, by decide, by decide, hl, rfl, by decide, by decide, by decide, hslot,
    by decide, ?_, ?_⟩
  · rw [hv']; decide
  · rw [hv']
    apply compareEquals_false_of_long varbinaryType slotLong.memory binLong _
      (by decide) (by decide) (by decide) hl (by decide)
    · intro i hi
      rw [hd, e1, hin i hi, hout _ (Or.inl (by omega)), hm2 _ (by omega), memLong_payload i hi]
      exact ⟨rfl, by decide⟩
    · rw [hd, e1, hout _ (Or.inl (by omega)), hm2 _ (by omega),
        hout _ (Or.inr (by omega))]
      rw [storeBytes_outside _ _ _ _ (Or.inr (by rw [bytesLE_length]; omega)),
        storeBytes_outside _ _ _ _ (Or.inl (by omega))]
      decide

/-- C10 (inline serialize layout and size, at the failing input).  For the NULL VARCHAR
value, whose length field is `4294967295`, the inline `SerializeTo` asks the
allocator for 3 bytes and not for `len + 4`, from the heap and from a pool alike; the
block it gets is `[1000, 1003)`, and afterwards the bytes at 1003 (last byte of the
length word) and at 1104 (a byte of the payload copy) have changed although they lie
outside the block. -/
theorem serializeTo_storage_null_overruns :
    strNull.GetLength = 4294967295 ∧
    slotNull.size = 3 ∧ slotNull.size ≠ strNull.GetLength + 4 ∧
    slotNullPool.size = 3 ∧ slotNullPool.data = 1000 ∧
    slotNull.data = 1000 ∧ slotNull.data + slotNull.size ≤ 1003 ∧
    memAbc 1003 = 0 ∧ slotNull.memory 1003 = 255 ∧
    memAbc 1104 = 0 ∧ slotNull.memory 1104 = 97 := by
  decide

/-! ### Stream format, inline deserialize, copy, cast, `ToString`, constants -/

/-- C11 (stream serialize format).  For a varlen value whose length is a 32-bit quantity,
the stream form of `SerializeTo` leaves the byte order and every byte already in the
output unchanged and appends exactly `4 + len` bytes: the four bytes of the length
word `len`, which read back as `len`, followed by the `len` payload bytes at `GetData`
in order; for `len = 0` only the length word is appended. -/
theorem stream_serialize_format (self : VarlenType) (m : Memory) (val : Value)
    (out : SerializeOutput) (hlen : val.GetLength < UINT32_SIZE) :
    (self.SerializeTo m val out).order = out.order ∧
    (self.SerializeTo m val out).buffer.length = out.buffer.length + (4 + val.GetLength) ∧
    (self.SerializeTo m val out).buffer.take out.buffer.length = out.buffer ∧
    ((self.SerializeTo m val out).buffer.drop out.buffer.length).take 4
      = intBytes out.order val.GetLength ∧
    intOfBytes out.order (((self.SerializeTo m val out).buffer.drop out.buffer.length).take 4)
      = val.GetLength ∧
    (self.SerializeTo m val out).buffer.drop (out.buffer.length + 4)
      = readBytes m val.GetData val.GetLength ∧
    (val.GetLength = 0 →
      (self.SerializeTo m val out).buffer = out.buffer ++ intBytes out.order 0) := by
  have hb := serializeTo_buffer self m val out
  rw [Nat.mod_eq_of_lt hlen] at hb
  have ho : (self.SerializeTo m val out).order = out.order := by
    unfold VarlenType.SerializeTo
    split <;> rfl
  have h4 : (intBytes out.order val.GetLength).length = 4 := intBytes_length _ _
  refine ⟨ho, ?_, ?_, ?_, ?_, ?_, ?_⟩
  · rw [hb]
    simp [intBytes_length, readBytes_length]
  · rw [hb]
    simp
  · rw [hb, List.drop_left, List.take_left' h4]
  · rw [hb, List.drop_left, List.take_left' h4, intOfBytes_intBytes,
      Nat.mod_eq_of_lt hlen]
  · rw [hb, ← List.append_assoc, List.drop_left' (by simp [h4])]
  · intro h0
    rw [hb, h0, readBytes_zero, List.append_nil]

/-- Witness of C11: the VARCHAR value `abc` appended to an empty big-endian stream. -/
theorem stream_serialize_format_witness :
    strAbc.GetLength < UINT32_SIZE ∧
    (varcharType.SerializeTo memAbc strAbc outEmpty).buffer = [0, 0, 0, 3, 97, 98, 99] ∧
    ((varcharType.SerializeTo memAbc strAbc outEmpty).order = outEmpty.order ∧
      (varcharType.SerializeTo memAbc strAbc outEmpty).buffer.length
        = outEmpty.buffer.length + (4 + strAbc.GetLength) ∧
      (varcharType.SerializeTo memAbc strAbc outEmpty).buffer.take outEmpty.buffer.length
        = outEmpty.buffer ∧
      ((varcharType.SerializeTo memAbc strAbc outEmpty).buffer.drop outEmpty.buffer.length).take 4
        = intBytes outEmpty.order strAbc.GetLength ∧
      intOfBytes outEmpty.order
          (((varcharType.SerializeTo memAbc strAbc outEmpty).buffer.drop
            outEmpty.buffer.length).take 4)
        = strAbc.GetLength ∧
      (varcharType.SerializeTo memAbc strAbc outEmpty).buffer.drop (outEmpty.buffer.length + 4)
        = readBytes memAbc strAbc.GetData strAbc.GetLength ∧
      (strAbc.GetLength = 0 →
        (varcharType.SerializeTo memAbc strAbc outEmpty).buffer
          = outEmpty.buffer ++ intBytes outEmpty.order 0)) :=
  ⟨by decide, by decide, stream_serialize_format varcharType memAbc strAbc outEmpty (by decide)⟩

/-- A value made by the constructor from a null pointer is the NULL value of its type. -/
theorem mkVarlen_null (t : TypeId) (len : Nat) (ht : t = .VARCHAR ∨ t = .VARBINARY) :
    Value.mkVarlen t nullptr len = GetNullValueByType t ∧
    (Value.mkVarlen t nullptr len).IsNull = true ∧
    (Value.mkVarlen t nullptr len).GetTypeId = t := by
  have e : Value.mkVarlen t nullptr len = Value.mkVarlen t nullptr 0 := by
    unfold Value.mkVarlen
    rw [if_pos rfl, if_pos rfl]
  have e0 : Value.mkVarlen t nullptr 0
      = { type_id := t,
          value_ := { Val.zero with
            varlen := { data := nullptr, len := PELOTON_VARCHAR_MAX_LEN } } } := by
    unfold Value.mkVarlen
    rw [if_pos rfl]
  have hn : GetNullValueByType t = Value.mkVarlen t nullptr 0 := by
    rcases ht with h | h <;> subst h <;> unfold GetNullValueByType <;> rfl
  rw [e, hn]
  refine ⟨rfl, ?_, ?_⟩
  · rw [e0]
    rcases ht with h | h <;> subst h <;> decide
  · rw [e0]
    rfl

/-- C12 (inline deserialize).  `DeserializeFrom(storage, inlined, pool)` reads the pointer
held in the slot.  If it is null the result is the NULL value of the handler's type id;
otherwise the result has the handler's type id, the length held in the 32-bit word at
the pointer and data starting four bytes after the pointer.  The function is `const`
and only reads memory: the embedding returns the value alone, so the slot, the buffer
and every reference count are as before, and the result does not depend on `inlined`
or `pool`. -/
theorem inline_deserialize (self : VarlenType) (m : Memory) (storage : Nat) (inlined : Bool)
    (pool : Option VarlenPool)
    (hvar : self.type_id_ = .VARCHAR ∨ self.type_id_ = .VARBINARY) :
    (loadLE m storage 8 = nullptr →
      self.DeserializeFrom_storage m storage inlined pool = GetNullValueByType self.type_id_ ∧
      (self.DeserializeFrom_storage m storage inlined pool).IsNull = true ∧
      (self.DeserializeFrom_storage m storage inlined pool).GetTypeId = self.type_id_) ∧
    (loadLE m storage 8 ≠ nullptr →
      (self.DeserializeFrom_storage m storage inlined pool).GetTypeId = self.type_id_ ∧
      (self.DeserializeFrom_storage m storage inlined pool).GetLength
        = loadLE m (loadLE m storage 8) 4 % UINT32_SIZE ∧
      (self.DeserializeFrom_storage m storage inlined pool).GetData
        = loadLE m storage 8 + 4) ∧
    self.DeserializeFrom_storage m storage inlined pool
      = self.DeserializeFrom_storage m storage false none := by
  refine ⟨?_, ?_, rfl⟩
  · intro h
    have e : self.DeserializeFrom_storage m storage inlined pool
        = Value.mkVarlen self.type_id_ nullptr 0 := by
      unfold VarlenType.DeserializeFrom_storage
      simp only [h, if_true]
    rw [e]
    exact mkVarlen_null self.type_id_ 0 hvar
  · intro h
    have e : self.DeserializeFrom_storage m storage inlined pool
        = Value.mkVarlen self.type_id_ (loadLE m storage 8 + 4)
            (loadLE m (loadLE m storage 8) 4) := by
      unfold VarlenType.DeserializeFrom_storage
      simp only [h, if_false]
    rw [e]
    unfold Value.mkVarlen
    rw [if_neg (by unfold nullptr; omega)]
    exact ⟨rfl, rfl, rfl⟩

/-- Witness of C12: the slot at 2000 written by the inline `SerializeTo` of `abc`. -/
theorem inline_deserialize_witness :
    (varcharType.type_id_ = .VARCHAR ∨ varcharType.type_id_ = .VARBINARY) ∧
    loadLE slotAbc.memory 2000 8 = 1000 ∧
    ((loadLE slotAbc.memory 2000 8 = nullptr →
        varcharType.DeserializeFrom_storage slotAbc.memory 2000 true (some poolHandle)
          = GetNullValueByType varcharType.type_id_ ∧
        (varcharType.DeserializeFrom_storage slotAbc.memory 2000 true (some poolHandle)).IsNull = true ∧
        (varcharType.DeserializeFrom_storage slotAbc.memory 2000 true (some poolHandle)).GetTypeId
          = varcharType.type_id_) ∧
      (loadLE slotAbc.memory 2000 8 ≠ nullptr →
        (varcharType.DeserializeFrom_storage slotAbc.memory 2000 true (some poolHandle)).GetTypeId
          = varcharType.type_id_ ∧
        (varcharType.DeserializeFrom_storage slotAbc.memory 2000 true (some poolHandle)).GetLength
          = loadLE slotAbc.memory (loadLE slotAbc.memory 2000 8) 4 % UINT32_SIZE ∧
        (varcharType.DeserializeFrom_storage slotAbc.memory 2000 true (some poolHandle)).GetData
          = loadLE slotAbc.memory 2000 8 + 4) ∧
      varcharType.DeserializeFrom_storage slotAbc.memory 2000 true (some poolHandle)
        = varcharType.DeserializeFrom_storage slotAbc.memory 2000 false none) :=
  ⟨by decide, by decide,
    inline_deserialize varcharType slotAbc.memory 2000 true (some poolHandle) (by decide)⟩

/-- `Copy` of a value as the constructor builds it has the same type id, pointer and
length. -/
theorem copy_fields (self : VarlenType) (v : Value) (hlen : v.GetLength < UINT32_SIZE)
    (hwf : v.GetData = nullptr → v.GetLength = PELOTON_VARCHAR_MAX_LEN) :
    (self.Copy v).GetTypeId = v.GetTypeId ∧ (self.Copy v).GetData = v.GetData ∧
    (self.Copy v).GetLength = v.GetLength := by
  unfold VarlenType.Copy Value.mkVarlen
  by_cases h : v.GetData = nullptr
  · simp only [h, if_true]
    exact ⟨rfl, rfl, (hwf h).symm⟩
  · simp only [h, if_false]
    exact ⟨rfl, rfl, Nat.mod_eq_of_lt hlen⟩

/-- Two non-null values of one varlen type with the same pointer and the same length
compare equal, whatever the length. -/
theorem compareEquals_same_view (self : VarlenType) (m : Memory) (a b : Value)
    (ht : a.type_id = .VARCHAR ∨ a.type_id = .VARBINARY)
    (htb : b.type_id = a.type_id)
    (ha : a.IsNull = false) (hd : b.GetData = a.GetData) (hl : b.GetLength = a.GetLength) :
    self.CompareEquals m a b = .ok (GetBooleanValue true) := by
  have hc : a.CheckComparable b = .ok () := by
    unfold Value.CheckComparable
    rw [htb]; simp
  have hs1 : a.GetLength ≠ PELOTON_VARCHAR_MAX_LEN := by
    have := isNull_varlen a ht
    rw [ha] at this
    simpa using this.symm
  have hb : b.IsNull = false := by
    rw [isNull_varlen b (by rw [htb]; exact ht), hl]
    simpa using hs1
  have hs2 : b.GetLength ≠ PELOTON_VARCHAR_MAX_LEN := by rw [hl]; exact hs1
  have hcmp : CompareStrings m a.GetData (toInt32 a.GetLength) b.GetData (toInt32 b.GetLength)
      = 0 := by
    rw [hd, hl]
    unfold CompareStrings
    rw [strncmp_eq_zero_of_bytes_eq m _ a.GetData a.GetData (fun _ _ => rfl)]
    simp
  simp [VarlenType.CompareEquals, hc, ha, hb, hs1, hs2, hcmp]

/-- C14 (`Copy` is an equal shallow reference).  For a varlen value as the constructor
builds it (a 32-bit length, the sentinel length with a null pointer), `Copy` has the
same type id, the same data pointer and the same length; it is a function of the value
alone, with no pool and no memory among its arguments or results, so it allocates
nothing and changes no reference count; and for a non-null value
`CompareEquals(v, Copy(v))` is true. -/
theorem copy_is_equal_shallow_reference (self : VarlenType) (m : Memory) (v : Value)
    (hvar : v.type_id = .VARCHAR ∨ v.type_id = .VARBINARY)
    (hlen : v.GetLength < UINT32_SIZE)
    (hwf : v.GetData = nullptr → v.GetLength = PELOTON_VARCHAR_MAX_LEN) :
    (self.Copy v).GetTypeId = v.GetTypeId ∧ (self.Copy v).GetData = v.GetData ∧
    (self.Copy v).GetLength = v.GetLength ∧
    (v.IsNull = false → self.CompareEquals m v (self.Copy v) = .ok (GetBooleanValue true)) := by
  obtain ⟨h1, h2, h3⟩ := copy_fields self v hlen hwf
  exact ⟨h1, h2, h3, fun hn => compareEquals_same_view self m v _ hvar h1 hn h2 h3⟩

/-- Witness of C14: the VARCHAR value `abc`. -/
theorem copy_is_equal_shallow_reference_witness :
    (strAbc.type_id = .VARCHAR ∨ strAbc.type_id = .VARBINARY) ∧
    strAbc.GetLength < UINT32_SIZE ∧
    (strAbc.GetData = nullptr → strAbc.GetLength = PELOTON_VARCHAR_MAX_LEN) ∧
    strAbc.IsNull = false ∧
    ((varcharType.Copy strAbc).GetTypeId = strAbc.GetTypeId ∧
      (varcharType.Copy strAbc).GetData = strAbc.GetData ∧
      (varcharType.Copy strAbc).GetLength = strAbc.GetLength ∧
      (strAbc.IsNull = false →
        varcharType.CompareEquals memAbc strAbc (varcharType.Copy strAbc)
          = .ok (GetBooleanValue true))) :=
  ⟨by decide, by decide, by decide, by decide,
    copy_is_equal_shallow_reference varcharType memAbc strAbc (by decide) (by decide)
      (by decide)⟩

/-- C15 (cast closure).  For a non-null varlen value as the constructor builds it,
`CastAs(v, v.GetTypeId())` does not throw and returns a value of the same type id that
`CompareEquals` finds equal to `v`, whatever the factory conversions do. -/
theorem cast_closure (self : VarlenType) (factory : ValueFactory) (m : Memory) (v : Value)
    (hvar : v.type_id = .VARCHAR ∨ v.type_id = .VARBINARY)
    (hlen : v.GetLength < UINT32_SIZE)
    (hwf : v.GetData = nullptr → v.GetLength = PELOTON_VARCHAR_MAX_LEN)
    (hnull : v.IsNull = false) :
    ∃ r, self.CastAs factory v v.GetTypeId = .ok r ∧ r.GetTypeId = v.GetTypeId ∧
      self.CompareEquals m v r = .ok (GetBooleanValue true) := by
  obtain ⟨h1, h2, h3⟩ := copy_fields { type_id_ := v.type_id } v hlen hwf
  refine ⟨v.Copy, ?_, h1, compareEquals_same_view self m v _ hvar h1 hnull h2 h3⟩
  unfold Value.GetTypeId
  rcases hvar with h | h <;> rw [h] <;> rfl

/-- Witness of C15: the VARCHAR value `abc` cast to VARCHAR. -/
theorem cast_closure_witness :
    (strAbc.type_id = .VARCHAR ∨ strAbc.type_id = .VARBINARY) ∧
    strAbc.GetLength < UINT32_SIZE ∧
    (strAbc.GetData = nullptr → strAbc.GetLength = PELOTON_VARCHAR_MAX_LEN) ∧
    strAbc.IsNull = false ∧
    ∃ r, varcharType.CastAs factoryFailing strAbc strAbc.GetTypeId = .ok r ∧
      r.GetTypeId = strAbc.GetTypeId ∧
      varcharType.CompareEquals memAbc strAbc r = .ok (GetBooleanValue true) :=
  ⟨by decide, by decide, by decide, by decide,
    cast_closure varcharType factoryFailing memAbc strAbc (by decide) (by decide) (by decide)
      (by decide)⟩

/-- What the constructor guarantees: a 32-bit length, and the sentinel length for a null
pointer. -/
theorem mkVarlen_wellFormed (t : TypeId) (data len : Nat) :
    (Value.mkVarlen t data len).GetLength < UINT32_SIZE ∧
    ((Value.mkVarlen t data len).GetData = nullptr →
      (Value.mkVarlen t data len).GetLength = PELOTON_VARCHAR_MAX_LEN) := by
  unfold Value.mkVarlen
  by_cases h : data = nullptr
  · simp only [h, if_true]
    exact ⟨show PELOTON_VARCHAR_MAX_LEN < UINT32_SIZE by decide, fun _ => rfl⟩
  · simp only [h, if_false]
    refine ⟨Nat.mod_lt _ (by decide), ?_⟩
    intro h'
    exact absurd h' h

/-- `ToString` where the claim holds: the whole payload for VARBINARY, the payload
without its last byte for a VARCHAR of length at least one, the sentinel string for
NULL. -/
theorem toString_content (self : VarlenType) (m : Memory) (v : Value)
    (hvar : v.type_id = .VARCHAR ∨ v.type_id = .VARBINARY) :
    (v.IsNull = true → self.ToString m v = str_varlen_null) ∧
    (v.IsNull = false → self.GetTypeId = .VARBINARY →
      self.ToString m v = readBytes m v.GetData v.GetLength) ∧
    (v.IsNull = false → self.GetTypeId ≠ .VARBINARY → 0 < v.GetLength →
      v.GetLength < UINT32_SIZE →
      self.ToString m v = readBytes m v.GetData (v.GetLength - 1)) := by
  refine ⟨?_, ?_, ?_⟩
  · intro h
    unfold VarlenType.ToString
    rw [h]; rfl
  · intro h hb
    have hs : v.GetLength ≠ PELOTON_VARCHAR_MAX_LEN := by
      have := isNull_varlen v hvar
      rw [h] at this
      simpa using this.symm
    unfold VarlenType.ToString
    rw [h]
    simp only [Bool.false_eq_true, if_false, hs, hb, if_true]
  · intro h hb hpos hlt
    have hs : v.GetLength ≠ PELOTON_VARCHAR_MAX_LEN := by
      have := isNull_varlen v hvar
      rw [h] at this
      simpa using this.symm
    have hm : (v.GetLength + UINT32_SIZE - 1) % UINT32_SIZE = v.GetLength - 1 := by
      unfold UINT32_SIZE at *; omega
    unfold VarlenType.ToString
    rw [h]
    simp only [Bool.false_eq_true, if_false, hs, hb, hm]

/-- C16 (`ToString` content), at the input where it fails.  For the non-null VARCHAR
value of length 0 at address 100, `GetLength() - 1` wraps to `4294967295` in `uint32_t`
and `ToString` is the string of the 4294967295 bytes from address 100 on, not the
string of the first `len - 1` bytes. -/
theorem toString_empty_varchar :
    strEmpty.GetTypeId = .VARCHAR ∧ strEmpty.IsNull = false ∧ strEmpty.GetLength = 0 ∧
    strEmpty.GetData = 100 ∧
    varcharType.ToString memAbc strEmpty = readBytes memAbc 100 4294967295 ∧
    (varcharType.ToString memAbc strEmpty).length = 4294967295 ∧
    varcharType.ToString memAbc strEmpty ≠ readBytes memAbc 100 (0 - 1) := by
  have hn : strEmpty.IsNull = false := by decide
  have hl : strEmpty.GetLength = 0 := by decide
  have hd : strEmpty.GetData = 100 := by decide
  have ht : varcharType.GetTypeId ≠ .VARBINARY := by decide
  have hs : (0 : Nat) ≠ PELOTON_VARCHAR_MAX_LEN := by decide
  have hm : (0 + UINT32_SIZE - 1) % UINT32_SIZE = 4294967295 := by decide
  have e : varcharType.ToString memAbc strEmpty = readBytes memAbc 100 4294967295 := by
    unfold VarlenType.ToString
    rw [hn, hl, hd]
    simp only [Bool.false_eq_true, if_false, hs, ht, hm]
  refine ⟨by decide, hn, hl, hd, e, ?_, ?_⟩
  · rw [e, readBytes_length]
  · rw [e]
    intro h
    have := congrArg List.length h
    rw [readBytes_length, readBytes_length] at this
    omega

/-- C19 (pool shape constants).  `BUFFER_SIZE = 2^17`, `MIN_BLOCK_SIZE = 16`,
`MAX_LIST_NUM = 15`, `MAX_EMPTY_NUM = 4`, `MAX_POOL_SIZE = 2^60`, `LARGE_LIST_ID = 14`,
`MAX_BLOCK_NUM = 8192`; and for every regular list id `i < LARGE_LIST_ID` the block size
`MIN_BLOCK_SIZE << i` is `MIN_BLOCK_SIZE * 2^i`, divides `BUFFER_SIZE`, is at most
`BUFFER_SIZE`, and a Buffer holds between 1 and `MAX_BLOCK_NUM` such blocks. -/
theorem pool_shape_constants (i : Nat) (hi : i < LARGE_LIST_ID) :
    BUFFER_SIZE = 2 ^ 17 ∧ MIN_BLOCK_SIZE = 16 ∧ MAX_LIST_NUM = 15 ∧ MAX_EMPTY_NUM = 4 ∧
    MAX_POOL_SIZE = 2 ^ 60 ∧ LARGE_LIST_ID = 14 ∧ MAX_BLOCK_NUM = 8192 ∧
    MIN_BLOCK_SIZE <<< i = MIN_BLOCK_SIZE * 2 ^ i ∧
    (MIN_BLOCK_SIZE <<< i) ∣ BUFFER_SIZE ∧
    MIN_BLOCK_SIZE <<< i ≤ BUFFER_SIZE ∧
    (BUFFER_SIZE / (MIN_BLOCK_SIZE <<< i)) * (MIN_BLOCK_SIZE <<< i) = BUFFER_SIZE ∧
    1 ≤ BUFFER_SIZE / (MIN_BLOCK_SIZE <<< i) ∧
    BUFFER_SIZE / (MIN_BLOCK_SIZE <<< i) ≤ MAX_BLOCK_NUM := by
  have h14 : LARGE_LIST_ID = 14 := by decide
  rw [h14] at hi
  interval_cases i <;> decide

/-- Witness of C19: list 3, whose blocks have 128 bytes. -/
theorem pool_shape_constants_witness :
    3 < LARGE_LIST_ID ∧ MIN_BLOCK_SIZE <<< 3 = 128 ∧
    (BUFFER_SIZE = 2 ^ 17 ∧ MIN_BLOCK_SIZE = 16 ∧ MAX_LIST_NUM = 15 ∧ MAX_EMPTY_NUM = 4 ∧
      MAX_POOL_SIZE = 2 ^ 60 ∧ LARGE_LIST_ID = 14 ∧ MAX_BLOCK_NUM = 8192 ∧
      MIN_BLOCK_SIZE <<< 3 = MIN_BLOCK_SIZE * 2 ^ 3 ∧
      (MIN_BLOCK_SIZE <<< 3) ∣ BUFFER_SIZE ∧
      MIN_BLOCK_SIZE <<< 3 ≤ BUFFER_SIZE ∧
      (BUFFER_SIZE / (MIN_BLOCK_SIZE <<< 3)) * (MIN_BLOCK_SIZE <<< 3) = BUFFER_SIZE ∧
      1 ≤ BUFFER_SIZE / (MIN_BLOCK_SIZE <<< 3) ∧
      BUFFER_SIZE / (MIN_BLOCK_SIZE <<< 3) ≤ MAX_BLOCK_NUM) :=
  ⟨by decide, by decide, pool_shape_constants 3 (by decide)⟩

/-- C20 (`IsInlined`).  For every value, `VarlenType::IsInlined` is false and
`TimestampType::IsInlined` is true, whatever the value holds. -/
theorem isInlined_constant (vself : VarlenType) (tself : TimestampType) (v : Value) :
    vself.IsInlined v = false ∧ tself.IsInlined v = true :=
  ⟨rfl, rfl⟩

/-! ### The reference count word -/

/-- Two memories that agree on a range give the same unsigned object there. -/
theorem loadLE_congr (m m' : Memory) (p n : Nat) (h : ∀ i, i < n → m' (p + i) = m (p + i)) :
    loadLE m' p n = loadLE m p n := by
  unfold loadLE
  rw [(readBytes_eq_iff m' m p p n).mpr h]

/-- Reading back an unsigned object just stored. -/
theorem loadLE_storeBytes (m : Memory) (p n v : Nat) :
    loadLE (storeBytes m p (bytesLE n v)) p n = v % 256 ^ n := by
  apply loadLE_of_readBytes
  have := readBytes_storeBytes m p (bytesLE n v)
  rwa [bytesLE_length] at this

/-- The number spelled by `n` bytes is below `256 ^ n`. -/
theorem ofBytesLE_lt : ∀ (bs : List Nat), (∀ b ∈ bs, b < 256) → ofBytesLE bs < 256 ^ bs.length := by
  intro bs
  induction bs with
  | nil => intro _; simp [ofBytesLE]
  | cons b bs ih =>
    intro h
    have hb : b < 256 := h b (List.mem_cons_self _ _)
    have hr := ih (fun x hx => h x (List.mem_cons_of_mem _ hx))
    simp only [ofBytesLE, List.length_cons, pow_succ]
    nlinarith

/-- An `n`-byte object read from a memory of bytes is below `256 ^ n`. -/
theorem loadLE_lt (m : Memory) (hm : ∀ a, m a < 256) (p n : Nat) : loadLE m p n < 256 ^ n := by
  unfold loadLE
  have := ofBytesLE_lt (readBytes m p n) (by
    intro b hb
    simp only [readBytes, List.mem_map] at hb
    obtain ⟨i, _, rfl⟩ := hb
    exact hm _)
  rwa [readBytes_length] at this

/-- The reference count word of a payload pointer sits eight bytes before it. -/
theorem getRefCntPtr_eq (p : Nat) (h8 : 8 ≤ p) (hp : p < SIZE_T_SIZE) :
    VarlenPool.GetRefCntPtr p = p - 8 := by
  unfold VarlenPool.GetRefCntPtr VarlenPool.GetRefCountSize
  unfold SIZE_T_SIZE at *
  omega

/-- `AddRefCount` writes the reference count word only. -/
theorem addRefCount_outside (m : Memory) (ptr a : Nat)
    (h : a < VarlenPool.GetRefCntPtr ptr ∨ VarlenPool.GetRefCntPtr ptr + 8 ≤ a) :
    VarlenPool.AddRefCount m ptr a = m a := by
  unfold VarlenPool.AddRefCount
  exact storeBytes_outside _ _ _ _ (by rw [bytesLE_length]; exact h)

/-- `AddRefCount` adds one to the reference count word. -/
theorem addRefCount_word (m : Memory) (ptr : Nat) :
    loadLE (VarlenPool.AddRefCount m ptr) (VarlenPool.GetRefCntPtr ptr) 8
      = (loadLE m (VarlenPool.GetRefCntPtr ptr) 8 + 1) % SIZE_T_SIZE := by
  unfold VarlenPool.AddRefCount
  rw [loadLE_storeBytes]
  unfold SIZE_T_SIZE
  omega

/-- `Free` writes the reference count word only. -/
theorem free_outside (s : VarlenPoolState × Memory) (ptr a : Nat)
    (h : a < VarlenPool.GetRefCntPtr ptr ∨ VarlenPool.GetRefCntPtr ptr + 8 ≤ a) :
    (VarlenPoolState.Free s ptr).2 a = s.2 a := by
  have key : ∀ cnt, storeBytes s.2 (VarlenPool.GetRefCntPtr ptr) (bytesLE 8 cnt) a = s.2 a :=
    fun cnt => storeBytes_outside s.2 _ (bytesLE 8 cnt) a (by rw [bytesLE_length]; exact h)
  rw [VarlenPoolState.Free]
  split
  · dsimp only
    exact key _
  · dsimp only
    exact key _

/-- `Free` takes one off the reference count word. -/
theorem free_word (s : VarlenPoolState × Memory) (ptr : Nat) :
    loadLE (VarlenPoolState.Free s ptr).2 (VarlenPool.GetRefCntPtr ptr) 8
      = (loadLE s.2 (VarlenPool.GetRefCntPtr ptr) 8 + SIZE_T_SIZE - 1) % SIZE_T_SIZE := by
  have key : loadLE (storeBytes s.2 (VarlenPool.GetRefCntPtr ptr) (bytesLE 8
      ((loadLE s.2 (VarlenPool.GetRefCntPtr ptr) 8 + SIZE_T_SIZE - 1) % SIZE_T_SIZE)))
      (VarlenPool.GetRefCntPtr ptr) 8
      = (loadLE s.2 (VarlenPool.GetRefCntPtr ptr) 8 + SIZE_T_SIZE - 1) % SIZE_T_SIZE := by
    rw [loadLE_storeBytes]
    unfold SIZE_T_SIZE
    omega
  rw [VarlenPoolState.Free]
  split
  · dsimp only
    exact key
  · dsimp only
    exact key

/-- C17 (refcount word location).  For a payload address `p` (at least 8, within the
address space), `GetRefCountSize() = 8` and `GetRefCntPtr(p) = p - GetRefCountSize()`,
so the count occupies the 8 bytes right before `p`; `GetRefCount` reads that word, and
`AddRefCount` and `Free` write that word and no other byte, adding and subtracting
one. -/
theorem refcount_word_location (p : Nat) (h8 : 8 ≤ p) (hp : p < SIZE_T_SIZE) :
    VarlenPool.GetRefCountSize = 8 ∧
    VarlenPool.GetRefCntPtr p = p - VarlenPool.GetRefCountSize ∧
    VarlenPool.GetRefCntPtr p + VarlenPool.GetRefCountSize = p ∧
    (∀ m : Memory, VarlenPool.GetRefCount m p = toInt64 (loadLE m (p - 8) 8)) ∧
    (∀ (m : Memory) (a : Nat), (a < p - 8 ∨ p ≤ a) → VarlenPool.AddRefCount m p a = m a) ∧
    (∀ m : Memory, loadLE (VarlenPool.AddRefCount m p) (p - 8) 8
      = (loadLE m (p - 8) 8 + 1) % SIZE_T_SIZE) ∧
    (∀ (s : VarlenPoolState × Memory) (a : Nat), (a < p - 8 ∨ p ≤ a) →
      (VarlenPoolState.Free s p).2 a = s.2 a) ∧
    (∀ s : VarlenPoolState × Memory, loadLE (VarlenPoolState.Free s p).2 (p - 8) 8
      = (loadLE s.2 (p - 8) 8 + SIZE_T_SIZE - 1) % SIZE_T_SIZE) := by
  have hq := getRefCntPtr_eq p h8 hp
  refine ⟨rfl, hq, ?_, ?_, ?_, ?_, ?_, ?_⟩
  · rw [hq]; unfold VarlenPool.GetRefCountSize; omega
  · intro m
    unfold VarlenPool.GetRefCount
    rw [hq]
  · intro m a ha
    exact addRefCount_outside m p a (by rw [hq]; omega)
  · intro m
    have := addRefCount_word m p
    rwa [hq] at this
  · intro s a ha
    exact free_outside s p a (by rw [hq]; omega)
  · intro s
    have := free_word s p
    rwa [hq] at this

/-- Witness of C17: the payload pointer 1008, whose count word is at 1000. -/
theorem refcount_word_location_witness :
    8 ≤ 1008 ∧ 1008 < SIZE_T_SIZE ∧ VarlenPool.GetRefCntPtr 1008 = 1000 ∧
    (VarlenPool.GetRefCountSize = 8 ∧
      VarlenPool.GetRefCntPtr 1008 = 1008 - VarlenPool.GetRefCountSize ∧
      VarlenPool.GetRefCntPtr 1008 + VarlenPool.GetRefCountSize = 1008 ∧
      (∀ m : Memory, VarlenPool.GetRefCount m 1008 = toInt64 (loadLE m (1008 - 8) 8)) ∧
      (∀ (m : Memory) (a : Nat), (a < 1008 - 8 ∨ 1008 ≤ a) →
        VarlenPool.AddRefCount m 1008 a = m a) ∧
      (∀ m : Memory, loadLE (VarlenPool.AddRefCount m 1008) (1008 - 8) 8
        = (loadLE m (1008 - 8) 8 + 1) % SIZE_T_SIZE) ∧
      (∀ (s : VarlenPoolState × Memory) (a : Nat), (a < 1008 - 8 ∨ 1008 ≤ a) →
        (VarlenPoolState.Free s 1008).2 a = s.2 a) ∧
      (∀ s : VarlenPoolState × Memory, loadLE (VarlenPoolState.Free s 1008).2 (1008 - 8) 8
        = (loadLE s.2 (1008 - 8) 8 + SIZE_T_SIZE - 1) % SIZE_T_SIZE)) :=
  ⟨by decide, by decide, by decide, refcount_word_location 1008 (by decide) (by decide)⟩

/-! ### Shallow copy of a storage slot -/

/-- `DoShallowCopy` under its precondition, with the pointer of the source slot named. -/
theorem doShallowCopy_eq (self : VarlenType) (m : Memory) (dest src ptr : Nat)
    (pool : VarlenPool) (hptr : loadLE m src 8 = ptr) :
    self.DoShallowCopy m dest src false (some pool)
      = if ptr ≠ nullptr then
          some (VarlenPool.AddRefCount (storeBytes m dest (bytesLE 8 ptr)) ptr)
        else some (storeBytes m dest (bytesLE 8 ptr)) := by
  rw [VarlenType.DoShallowCopy, hptr]
  simp

/-- The memory `DoShallowCopy` leaves, described through the pointer `ptr` found in the
source slot. -/
theorem doShallowCopy_effect (self : VarlenType) (m : Memory) (dest src ptr : Nat)
    (pool : VarlenPool) (hptr : loadLE m src 8 = ptr)
    (hlt : ptr < SIZE_T_SIZE)
    (hslots : dest = src ∨ dest + 8 ≤ src ∨ src + 8 ≤ dest)
    (hsep : ptr ≠ nullptr →
      8 ≤ ptr ∧ (ptr ≤ dest ∨ dest + 8 ≤ ptr - 8) ∧ (ptr ≤ src ∨ src + 8 ≤ ptr - 8)) :
    ∃ m', self.DoShallowCopy m dest src false (some pool) = some m' ∧
      loadLE m' dest 8 = ptr ∧
      loadLE m' src 8 = ptr ∧
      (ptr ≠ nullptr →
        loadLE m' (ptr - 8) 8 = (loadLE m (ptr - 8) 8 + 1) % SIZE_T_SIZE ∧
        (∀ a, (a < dest ∨ dest + 8 ≤ a) → (a < ptr - 8 ∨ ptr ≤ a) → m' a = m a)) ∧
      (ptr = nullptr → ∀ a, (a < dest ∨ dest + 8 ≤ a) → m' a = m a) := by
  have hlt' : ptr < 256 ^ 8 := hlt
  have hm1dest : loadLE (storeBytes m dest (bytesLE 8 ptr)) dest 8 = ptr := by
    rw [loadLE_storeBytes, Nat.mod_eq_of_lt hlt']
  have hm1out : ∀ a, (a < dest ∨ dest + 8 ≤ a) →
      storeBytes m dest (bytesLE 8 ptr) a = m a := by
    intro a ha
    have hl : (bytesLE 8 ptr).length = 8 := bytesLE_length 8 ptr
    exact storeBytes_outside m dest (bytesLE 8 ptr) a (by rw [hl]; exact ha)
  have hm1src : loadLE (storeBytes m dest (bytesLE 8 ptr)) src 8 = ptr := by
    rcases hslots with h | h
    · rw [← h]; exact hm1dest
    · have hc : loadLE (storeBytes m dest (bytesLE 8 ptr)) src 8 = loadLE m src 8 :=
        loadLE_congr m (storeBytes m dest (bytesLE 8 ptr)) src 8
          (fun i hi => hm1out (src + i) (by omega))
      rw [hc, hptr]
  have heq := doShallowCopy_eq self m dest src ptr pool hptr
  by_cases hnull : ptr = nullptr
  · rw [if_neg (not_not.mpr hnull)] at heq
    exact ⟨_, heq, hm1dest, hm1src, fun h => absurd hnull h, fun _ a ha => hm1out a ha⟩
  · rw [if_pos hnull] at heq
    obtain ⟨h8, hd, hs⟩ := hsep hnull
    have hq : VarlenPool.GetRefCntPtr ptr = ptr - 8 := getRefCntPtr_eq ptr h8 hlt
    have hout : ∀ a, (a < ptr - 8 ∨ ptr ≤ a) →
        VarlenPool.AddRefCount (storeBytes m dest (bytesLE 8 ptr)) ptr a
          = storeBytes m dest (bytesLE 8 ptr) a := by
      intro a ha
      exact addRefCount_outside (storeBytes m dest (bytesLE 8 ptr)) ptr a
        (by rw [hq]; omega)
    have hw1 : loadLE (storeBytes m dest (bytesLE 8 ptr)) (ptr - 8) 8
        = loadLE m (ptr - 8) 8 :=
      loadLE_congr m (storeBytes m dest (bytesLE 8 ptr)) (ptr - 8) 8
        (fun i hi => hm1out (ptr - 8 + i) (by omega))
    have hword : loadLE (VarlenPool.AddRefCount (storeBytes m dest (bytesLE 8 ptr)) ptr)
        (ptr - 8) 8 = (loadLE m (ptr - 8) 8 + 1) % SIZE_T_SIZE := by
      have h := addRefCount_word (storeBytes m dest (bytesLE 8 ptr)) ptr
      rw [hq, hw1] at h
      exact h
    have hdest : loadLE (VarlenPool.AddRefCount (storeBytes m dest (bytesLE 8 ptr)) ptr)
        dest 8 = ptr := by
      rw [loadLE_congr (storeBytes m dest (bytesLE 8 ptr))
        (VarlenPool.AddRefCount (storeBytes m dest (bytesLE 8 ptr)) ptr) dest 8
        (fun i hi => hout (dest + i) (by omega))]
      exact hm1dest
    have hsrc : loadLE (VarlenPool.AddRefCount (storeBytes m dest (bytesLE 8 ptr)) ptr)
        src 8 = ptr := by
      rw [loadLE_congr (storeBytes m dest (bytesLE 8 ptr))
        (VarlenPool.AddRefCount (storeBytes m dest (bytesLE 8 ptr)) ptr) src 8
        (fun i hi => hout (src + i) (by omega))]
      exact hm1src
    refine ⟨_, heq, hdest, hsrc, fun _ => ⟨hword, ?_⟩, fun h => absurd h hnull⟩
    intro a ha1 ha2
    rw [hout a ha2, hm1out a ha1]

/-- Adding one to a reference count word adds one to the count it holds, short of the
largest `int64_t`. -/
theorem toInt64_succ (w : Nat) (h : toInt64 w < 9223372036854775807) :
    toInt64 ((w + 1) % SIZE_T_SIZE) = toInt64 w + 1 := by
  unfold toInt64 SIZE_T_SIZE at *
  have h1 := Nat.mod_lt w (show 0 < 18446744073709551616 by decide)
  split at h <;> split <;> omega

/-- C13 (shallow copy).  Under the precondition (`inlined = false`, a pool given), for
slots that coincide or do not overlap and a pointer whose count word overlaps neither
slot, `DoShallowCopy` succeeds; afterwards the destination slot and the source slot both
hold the pointer the source slot held.  If the pointer is not null its reference count
word is one higher modulo `2^64` (`GetRefCount` is one higher below the largest
`int64_t`), every byte outside the destination slot and that word is unchanged, hence
every other 8-byte word (the reference count of any other block) and the pointed-to
buffer are unchanged.  If the pointer is null only the destination slot is written. -/
theorem shallow_copy (self : VarlenType) (m : Memory) (dest src : Nat) (pool : VarlenPool)
    (hptr64 : loadLE m src 8 < SIZE_T_SIZE)
    (hslots : dest = src ∨ dest + 8 ≤ src ∨ src + 8 ≤ dest)
    (hsep : loadLE m src 8 ≠ nullptr →
      8 ≤ loadLE m src 8 ∧
      (loadLE m src 8 ≤ dest ∨ dest + 8 ≤ loadLE m src 8 - 8) ∧
      (loadLE m src 8 ≤ src ∨ src + 8 ≤ loadLE m src 8 - 8)) :
    ∃ m', self.DoShallowCopy m dest src false (some pool) = some m' ∧
      loadLE m' dest 8 = loadLE m src 8 ∧
      loadLE m' src 8 = loadLE m src 8 ∧
      (loadLE m src 8 ≠ nullptr →
        loadLE m' (VarlenPool.GetRefCntPtr (loadLE m src 8)) 8
          = (loadLE m (VarlenPool.GetRefCntPtr (loadLE m src 8)) 8 + 1) % SIZE_T_SIZE ∧
        (VarlenPool.GetRefCount m (loadLE m src 8) < 9223372036854775807 →
          VarlenPool.GetRefCount m' (loadLE m src 8)
            = VarlenPool.GetRefCount m (loadLE m src 8) + 1) ∧
        (∀ a, (a < dest ∨ dest + 8 ≤ a) →
          (a < loadLE m src 8 - 8 ∨ loadLE m src 8 ≤ a) → m' a = m a) ∧
        (∀ q, (q + 8 ≤ dest ∨ dest + 8 ≤ q) →
          (q + 8 ≤ loadLE m src 8 - 8 ∨ loadLE m src 8 ≤ q) →
          loadLE m' q 8 = loadLE m q 8) ∧
        (∀ n, (loadLE m src 8 + n ≤ dest ∨ dest + 8 ≤ loadLE m src 8) →
          readBytes m' (loadLE m src 8) n = readBytes m (loadLE m src 8) n)) ∧
      (loadLE m src 8 = nullptr → ∀ a, (a < dest ∨ dest + 8 ≤ a) → m' a = m a) := by
  obtain ⟨m', h0, h1, h2, h3, h4⟩ :=
    doShallowCopy_effect self m dest src (loadLE m src 8) pool rfl hptr64 hslots hsep
  refine ⟨m', h0, h1, h2, ?_, h4⟩
  intro hnn
  obtain ⟨hw, hframe⟩ := h3 hnn
  obtain ⟨h8, _, _⟩ := hsep hnn
  have hq : VarlenPool.GetRefCntPtr (loadLE m src 8) = loadLE m src 8 - 8 :=
    getRefCntPtr_eq _ h8 hptr64
  refine ⟨?_, ?_, hframe, ?_, ?_⟩
  · rw [hq]; exact hw
  · intro hno
    unfold VarlenPool.GetRefCount at hno ⊢
    rw [hq] at hno ⊢
    rw [hw]
    exact toInt64_succ _ hno
  · intro q hq1 hq2
    exact loadLE_congr m m' q 8 (fun i hi => hframe (q + i) (by omega) (by omega))
  · intro n hn
    exact (readBytes_eq_iff m' m _ _ n).mpr
      (fun i hi => hframe (loadLE m src 8 + i) (by omega) (by omega))

/-- Witness of C13: the slot at 2000 holds the pointer 1008, whose count word at 1000
holds 1; the copy goes to the slot at 3000. -/
theorem shallow_copy_witness :
    loadLE memShallow 2000 8 < SIZE_T_SIZE ∧
    ((3000 : Nat) = 2000 ∨ 3000 + 8 ≤ 2000 ∨ 2000 + 8 ≤ 3000) ∧
    loadLE memShallow 2000 8 = 1008 ∧
    VarlenPool.GetRefCount memShallow 1008 = 1 ∧
    ∃ m', varcharType.DoShallowCopy memShallow 3000 2000 false (some poolHandle) = some m' ∧
      loadLE m' 3000 8 = loadLE memShallow 2000 8 ∧
      loadLE m' 2000 8 = loadLE memShallow 2000 8 ∧
      (loadLE memShallow 2000 8 ≠ nullptr →
        loadLE m' (VarlenPool.GetRefCntPtr (loadLE memShallow 2000 8)) 8
          = (loadLE memShallow (VarlenPool.GetRefCntPtr (loadLE memShallow 2000 8)) 8 + 1)
            % SIZE_T_SIZE ∧
        (VarlenPool.GetRefCount memShallow (loadLE memShallow 2000 8) < 9223372036854775807 →
          VarlenPool.GetRefCount m' (loadLE memShallow 2000 8)
            = VarlenPool.GetRefCount memShallow (loadLE memShallow 2000 8) + 1) ∧
        (∀ a, (a < 3000 ∨ 3000 + 8 ≤ a) →
          (a < loadLE memShallow 2000 8 - 8 ∨ loadLE memShallow 2000 8 ≤ a) →
          m' a = memShallow a) ∧
        (∀ q, (q + 8 ≤ 3000 ∨ 3000 + 8 ≤ q) →
          (q + 8 ≤ loadLE memShallow 2000 8 - 8 ∨ loadLE memShallow 2000 8 ≤ q) →
          loadLE m' q 8 = loadLE memShallow q 8) ∧
        (∀ n, (loadLE memShallow 2000 8 + n ≤ 3000 ∨ 3000 + 8 ≤ loadLE memShallow 2000 8) →
          readBytes m' (loadLE memShallow 2000 8) n
            = readBytes memShallow (loadLE memShallow 2000 8) n)) ∧
      (loadLE memShallow 2000 8 = nullptr →
        ∀ a, (a < 3000 ∨ 3000 + 8 ≤ a) → m' a = memShallow a) :=
  ⟨by decide, by decide, by decide, by decide,
    shallow_copy varcharType memShallow 3000 2000 poolHandle (by decide) (by decide)
      (by decide)⟩

/-! ### The reference count protocol of the pool -/

/-- The pool after `Free`: the block is returned exactly when the count reaches zero. -/
theorem free_pool (s : VarlenPoolState × Memory) (ptr : Nat) :
    (VarlenPoolState.Free s ptr).1
      = if (loadLE s.2 (VarlenPool.GetRefCntPtr ptr) 8 + SIZE_T_SIZE - 1) % SIZE_T_SIZE = 0
        then s.1.FreeHelper (VarlenPool.GetRefCntPtr ptr) else s.1 := by
  rw [VarlenPoolState.Free]
  split
  · rfl
  · rfl

/-- The reference count word after `n` calls of `AddRefCount`. -/
theorem addRefCountTimes_word (m : Memory) (p w : Nat)
    (hw : loadLE m (VarlenPool.GetRefCntPtr p) 8 = w) :
    ∀ n, w + n < SIZE_T_SIZE →
      loadLE (VarlenPool.AddRefCountTimes m p n) (VarlenPool.GetRefCntPtr p) 8 = w + n := by
  intro n
  induction n with
  | zero => intro _; exact hw
  | succ n ih =>
    intro h
    have h1 := ih (by omega)
    rw [VarlenPool.AddRefCountTimes, addRefCount_word, h1]
    exact Nat.mod_eq_of_lt (by omega)

/-- While the count stays positive `Free` only lowers the reference count word. -/
theorem freeTimes_keep (pool : VarlenPoolState) (m : Memory) (p w : Nat)
    (hw : loadLE m (VarlenPool.GetRefCntPtr p) 8 = w) (hlt : w < SIZE_T_SIZE) :
    ∀ j, j < w →
      (VarlenPoolState.FreeTimes (pool, m) p j).1 = pool ∧
      loadLE (VarlenPoolState.FreeTimes (pool, m) p j).2 (VarlenPool.GetRefCntPtr p) 8
        = w - j := by
  intro j
  induction j with
  | zero => intro _; exact ⟨rfl, hw⟩
  | succ j ih =>
    intro h
    obtain ⟨h1, h2⟩ := ih (by omega)
    have hc : (w - j + SIZE_T_SIZE - 1) % SIZE_T_SIZE = w - (j + 1) := by
      have : w - j + SIZE_T_SIZE - 1 = (w - (j + 1)) + SIZE_T_SIZE := by omega
      rw [this, Nat.add_mod_right]
      exact Nat.mod_eq_of_lt (by omega)
    constructor
    · rw [VarlenPoolState.FreeTimes, free_pool, h2, hc, if_neg (by omega), h1]
    · rw [VarlenPoolState.FreeTimes, free_word, h2, hc]

/-- The `Free` that meets a count of one returns the block and leaves a count of zero. -/
theorem freeTimes_last (pool : VarlenPoolState) (m : Memory) (p w : Nat)
    (hw : loadLE m (VarlenPool.GetRefCntPtr p) 8 = w + 1) (hlt : w + 1 < SIZE_T_SIZE) :
    (VarlenPoolState.FreeTimes (pool, m) p (w + 1)).1
        = pool.FreeHelper (VarlenPool.GetRefCntPtr p) ∧
      loadLE (VarlenPoolState.FreeTimes (pool, m) p (w + 1)).2 (VarlenPool.GetRefCntPtr p) 8
        = 0 := by
  obtain ⟨h1, h2⟩ := freeTimes_keep pool m p (w + 1) hw hlt w (by omega)
  have hc : (w + 1 - w + SIZE_T_SIZE - 1) % SIZE_T_SIZE = 0 := by
    have : w + 1 - w + SIZE_T_SIZE - 1 = SIZE_T_SIZE := by omega
    rw [this, Nat.mod_self]
  constructor
  · rw [VarlenPoolState.FreeTimes, free_pool, h2, hc, if_pos rfl, h1]
  · rw [VarlenPoolState.FreeTimes, free_word, h2, hc]

/-- The list search stops within its fuel. -/
theorem listIdFrom_le (need : Nat) : ∀ fuel i, listIdFrom need fuel i ≤ i + fuel := by
  intro fuel
  induction fuel with
  | zero => intro i; rw [listIdFrom]; omega
  | succ n ih =>
    intro i
    rw [listIdFrom]
    split
    · omega
    · have := ih (i + 1); omega

/-- The list id of a request names one of the lists. -/
theorem listId_lt (need : Nat) : listId need < MAX_LIST_NUM := by
  have h := listIdFrom_le need LARGE_LIST_ID 0
  unfold listId
  have h1 : LARGE_LIST_ID = 14 := by decide
  have h2 : MAX_LIST_NUM = 15 := by decide
  omega

/-- A bitmap that is not full has its first clear bit inside it. -/
theorem firstClear_lt : ∀ l : List Bool, l.all (fun x => x) = false → firstClear l < l.length := by
  intro l
  induction l with
  | nil => intro h; simp at h
  | cons x xs ih =>
    intro h
    rw [firstClear]
    cases x with
    | false => simp
    | true =>
      simp only [List.all_cons, Bool.true_and] at h
      have := ih h
      simp only [List.length_cons]
      rw [if_neg (by decide)]
      omega

/-- A block is marked allocated when some Buffer of the pool covers it with its bit set. -/
theorem isAllocated_iff (pool : VarlenPoolState) (blk : Nat) :
    pool.IsAllocated blk = true ↔
      ∃ (i j : Nat) (b : Buffer), i < MAX_LIST_NUM ∧ (pool.buf_list_ i)[j]? = some b ∧ b.Contains blk = true ∧
        b.bitmap_.getD (b.blockIndex blk) false = true := by
  unfold VarlenPoolState.IsAllocated
  rw [List.any_eq_true]
  constructor
  · rintro ⟨i, hi, h⟩
    rw [List.any_eq_true] at h
    obtain ⟨b, hb, hcb⟩ := h
    obtain ⟨j, hj⟩ := List.mem_iff_getElem?.mp hb
    rw [Bool.and_eq_true] at hcb
    exact ⟨i, j, b, List.mem_range.mp hi, hj, hcb.1, hcb.2⟩
  · rintro ⟨i, j, b, hi, hj, hc, hbit⟩
    refine ⟨i, List.mem_range.mpr hi, ?_⟩
    rw [List.any_eq_true]
    exact ⟨b, List.mem_iff_getElem?.mpr ⟨j, hj⟩, by rw [Bool.and_eq_true]; exact ⟨hc, hbit⟩⟩

/-- A block is not marked allocated when every Buffer that covers it has its bit clear. -/
theorem isAllocated_false (pool : VarlenPoolState) (blk : Nat)
    (h : ∀ (i j : Nat) (b : Buffer), i < MAX_LIST_NUM → (pool.buf_list_ i)[j]? = some b → b.Contains blk = true →
      b.bitmap_.getD (b.blockIndex blk) false = false) :
    pool.IsAllocated blk = false := by
  rw [Bool.eq_false_iff]
  intro hc
  obtain ⟨i, j, b, hi, hj, hcb, hbit⟩ := (isAllocated_iff pool blk).mp hc
  rw [h i j b hi hj hcb] at hbit
  exact Bool.false_ne_true hbit

/-- The scan for the owning Buffer finds the only Buffer that covers the block. -/
theorem locateFrom_owner (pool : VarlenPoolState) (blk i0 j0 : Nat) (b0 : Buffer)
    (hi0 : i0 < MAX_LIST_NUM) (hb0 : (pool.buf_list_ i0)[j0]? = some b0)
    (hc0 : b0.Contains blk = true)
    (huniq : ∀ (i j : Nat) (b : Buffer), i < MAX_LIST_NUM → (pool.buf_list_ i)[j]? = some b →
      b.Contains blk = true → i = i0 ∧ j = j0) :
    ∀ fuel i, i ≤ i0 → i0 < i + fuel → pool.locateFrom blk fuel i = some (i0, j0) := by
  intro fuel
  induction fuel with
  | zero => intro i h1 h2; omega
  | succ n ih =>
    intro i h1 h2
    rw [VarlenPoolState.locateFrom]
    cases hf : (pool.buf_list_ i).findIdx? (fun b => b.Contains blk) with
    | some j =>
      obtain ⟨hlt, hcj, _⟩ := List.findIdx?_eq_some_iff_getElem.mp hf
      have hget : (pool.buf_list_ i)[j]? = some ((pool.buf_list_ i)[j]) :=
        List.getElem?_eq_getElem hlt
      obtain ⟨e1, e2⟩ := huniq i j _ (by omega) hget hcj
      show some (i, j) = some (i0, j0)
      rw [e1, e2]
    | none =>
      have hnone := List.findIdx?_eq_none_iff.mp hf
      have hne : i ≠ i0 := by
        intro e
        subst e
        have := hnone b0 (List.mem_iff_getElem?.mpr ⟨j0, hb0⟩)
        rw [hc0] at this
        exact Bool.noConfusion this
      show pool.locateFrom blk n (i + 1) = some (i0, j0)
      exact ih (i + 1) (by omega) (by omega)

/-- The owning Buffer of a block that exactly one Buffer covers. -/
theorem locate_owner (pool : VarlenPoolState) (blk i0 j0 : Nat) (b0 : Buffer)
    (hi0 : i0 < MAX_LIST_NUM) (hb0 : (pool.buf_list_ i0)[j0]? = some b0)
    (hc0 : b0.Contains blk = true)
    (huniq : ∀ (i j : Nat) (b : Buffer), i < MAX_LIST_NUM → (pool.buf_list_ i)[j]? = some b →
      b.Contains blk = true → i = i0 ∧ j = j0) :
    pool.locate blk = some (i0, j0) :=
  locateFrom_owner pool blk i0 j0 b0 hi0 hb0 hc0 huniq MAX_LIST_NUM 0 (by omega) (by omega)

/-- Freeing a block leaves the bit that covers it clear. -/
theorem buffer_free_bit (b : Buffer) (blk : Nat) :
    (b.Free blk).bitmap_.getD ((b.Free blk).blockIndex blk) false = false := by
  show (b.bitmap_.set (b.blockIndex blk) false).getD (b.blockIndex blk) false = false
  rw [List.getD_eq_getElem?_getD, List.getElem?_set, if_pos rfl]
  split <;> rfl

/-- Freeing a block does not move the Buffer. -/
theorem buffer_free_contains (b : Buffer) (blk a : Nat) :
    (b.Free blk).Contains a = b.Contains a := rfl

/-- After `FreeHelper` the block is free: its Buffer has the bit clear or is gone. -/
theorem freeHelper_clears (pool : VarlenPoolState) (blk i0 j0 : Nat) (b0 : Buffer)
    (hi0 : i0 < MAX_LIST_NUM) (hb0 : (pool.buf_list_ i0)[j0]? = some b0)
    (hc0 : b0.Contains blk = true)
    (huniq : ∀ (i j : Nat) (b : Buffer), i < MAX_LIST_NUM → (pool.buf_list_ i)[j]? = some b →
      b.Contains blk = true → i = i0 ∧ j = j0) :
    (pool.FreeHelper blk).IsAllocated blk = false := by
  have hset : ∀ (p2 : VarlenPoolState),
      p2.buf_list_ = Function.update pool.buf_list_ i0 ((pool.buf_list_ i0).set j0 (b0.Free blk)) →
      p2.IsAllocated blk = false := by
    intro p2 hp2
    apply isAllocated_false
    intro i j b hi hj hc
    rw [hp2] at hj
    by_cases hii : i = i0
    · subst hii
      rw [Function.update_same, List.getElem?_set] at hj
      by_cases hjj : j0 = j
      · rw [if_pos hjj] at hj
        split at hj
        · cases hj
          exact buffer_free_bit b0 blk
        · cases hj
      · rw [if_neg hjj] at hj
        exact absurd (huniq i j b hi hj hc).2 (fun e => hjj e.symm)
    · rw [Function.update_noteq hii] at hj
      exact absurd (huniq i j b hi hj hc).1 hii
  have herase : ∀ (p2 : VarlenPoolState),
      p2.buf_list_ = Function.update pool.buf_list_ i0 ((pool.buf_list_ i0).eraseIdx j0) →
      p2.IsAllocated blk = false := by
    intro p2 hp2
    apply isAllocated_false
    intro i j b hi hj hc
    rw [hp2] at hj
    by_cases hii : i = i0
    · subst hii
      rw [Function.update_same, List.getElem?_eraseIdx] at hj
      split at hj
      · have := (huniq i j b hi hj hc).2
        omega
      · have := (huniq i (j + 1) b hi hj hc).2
        omega
    · rw [Function.update_noteq hii] at hj
      exact absurd (huniq i j b hi hj hc).1 hii
  rw [VarlenPoolState.FreeHelper, locate_owner pool blk i0 j0 b0 hi0 hb0 hc0 huniq]
  dsimp only
  rw [hb0]
  dsimp only
  split
  · split
    · exact herase _ rfl
    · exact hset _ rfl
  · exact hset _ rfl

/-- A Buffer covers the addresses of its region. -/
theorem contains_iff (b : Buffer) (a : Nat) :
    b.Contains a = true ↔ b.buf_begin_ ≤ a ∧ a < b.buf_begin_ + b.buf_size_ := by
  unfold Buffer.Contains
  exact decide_eq_true_iff

/-- The block a Buffer that is not full hands out lies in its region and has its bit
set afterwards. -/
theorem buffer_allocate_block (b : Buffer) (hfull : b.IsFull = false) (hblk : 0 < b.blk_size_)
    (hcap : b.bitmap_.length * b.blk_size_ ≤ b.buf_size_) :
    (b.buf_begin_ ≤ (b.Allocate).1 ∧ (b.Allocate).1 < b.buf_begin_ + b.buf_size_) ∧
      (b.Allocate).2.bitmap_.getD ((b.Allocate).2.blockIndex (b.Allocate).1) false = true := by
  have hfc : firstClear b.bitmap_ < b.bitmap_.length := firstClear_lt b.bitmap_ hfull
  have h1 : (firstClear b.bitmap_ + 1) * b.blk_size_ ≤ b.bitmap_.length * b.blk_size_ :=
    Nat.mul_le_mul_right _ hfc
  rw [Nat.succ_mul] at h1
  have hA : (b.Allocate).1 = b.buf_begin_ + firstClear b.bitmap_ * b.blk_size_ := rfl
  constructor
  · rw [hA]
    omega
  · show (b.bitmap_.set (firstClear b.bitmap_) true).getD
      ((b.buf_begin_ + firstClear b.bitmap_ * b.blk_size_ - b.buf_begin_) / b.blk_size_) false
      = true
    rw [Nat.add_sub_cancel_left, Nat.mul_div_cancel _ hblk, List.getD_eq_getElem?_getD,
      List.getElem?_set, if_pos rfl, if_pos hfc]
    rfl

/-- The shape of a Buffer created for a list: a positive block size within the
capacity. -/
theorem newBlockSize_le (i need : Nat) (hi : i < MAX_LIST_NUM) (hneed : 0 < need) :
    0 < newBlockSize i need ∧ newBlockSize i need ≤ newBufferSize i need := by
  unfold newBlockSize newBufferSize
  by_cases h : i = LARGE_LIST_ID
  · rw [if_pos h, if_pos h]
    exact ⟨hneed, le_refl _⟩
  · rw [if_neg h, if_neg h]
    have h1 : LARGE_LIST_ID = 14 := by decide
    have h2 : MAX_LIST_NUM = 15 := by decide
    have h3 : i < 14 := by omega
    interval_cases i <;> decide

/-- A freshly created Buffer is not full and respects its capacity. -/
theorem buffer_create_shape (region S B : Nat) (hB : 0 < B) (hle : B ≤ S) :
    (Buffer.create region S B).IsFull = false ∧
      (Buffer.create region S B).bitmap_.length * (Buffer.create region S B).blk_size_
        ≤ (Buffer.create region S B).buf_size_ := by
  have hn : 0 < S / B := Nat.div_pos hle hB
  constructor
  · show (List.replicate (S / B) false).all (fun x => x) = false
    obtain ⟨n, hn1⟩ : ∃ n, S / B = n + 1 := ⟨S / B - 1, by omega⟩
    rw [hn1, List.replicate_succ, List.all_cons]
    rfl
  · show (List.replicate (S / B) false).length * B ≤ S
    rw [List.length_replicate]
    exact Nat.div_mul_le_self S B

/-- The block `AllocateHelper` hands out is covered by exactly one Buffer of the pool
afterwards, and that Buffer has the bit of the block set. -/
theorem allocateHelper_owner (pool pool' : VarlenPoolState) (region need blk : Nat)
    (hneed : 0 < need)
    (hwf : ∀ (i j : Nat) (b : Buffer), i < MAX_LIST_NUM → (pool.buf_list_ i)[j]? = some b →
      0 < b.blk_size_ ∧ b.bitmap_.length * b.blk_size_ ≤ b.buf_size_ ∧
        b.buf_begin_ + b.buf_size_ ≤ SIZE_T_SIZE)
    (hdisj : ∀ (i j i' j' : Nat) (b b' : Buffer), i < MAX_LIST_NUM → i' < MAX_LIST_NUM →
      (pool.buf_list_ i)[j]? = some b → (pool.buf_list_ i')[j']? = some b' →
      (i ≠ i' ∨ j ≠ j') →
      b.buf_begin_ + b.buf_size_ ≤ b'.buf_begin_ ∨ b'.buf_begin_ + b'.buf_size_ ≤ b.buf_begin_)
    (hfresh : ∀ (i j : Nat) (b : Buffer), i < MAX_LIST_NUM → (pool.buf_list_ i)[j]? = some b →
      b.buf_begin_ + b.buf_size_ ≤ region ∨
        region + newBufferSize (listId need) need ≤ b.buf_begin_)
    (hregion : region + newBufferSize (listId need) need ≤ SIZE_T_SIZE)
    (h : pool.AllocateHelper region need = some (blk, pool')) :
    blk < SIZE_T_SIZE ∧
      ∃ (i0 j0 : Nat) (b0 : Buffer), i0 < MAX_LIST_NUM ∧
        (pool'.buf_list_ i0)[j0]? = some b0 ∧ b0.Contains blk = true ∧
        b0.bitmap_.getD (b0.blockIndex blk) false = true ∧
        ∀ (i j : Nat) (b : Buffer), i < MAX_LIST_NUM → (pool'.buf_list_ i)[j]? = some b →
          b.Contains blk = true → i = i0 ∧ j = j0 := by
  have hi0 : listId need < MAX_LIST_NUM := listId_lt need
  rw [VarlenPoolState.AllocateHelper] at h
  split at h
  · rename_i j hf
    split at h
    · rename_i b hget
      rw [Option.some.injEq, Prod.mk.injEq] at h
      obtain ⟨hblk, hpool⟩ := h
      have hjlt : j < (pool.buf_list_ (listId need)).length :=
        (List.getElem?_eq_some.mp hget).1
      have hnf : b.IsFull = false := by
        have := List.findIdx?_of_eq_some hf
        rw [hget] at this
        simpa using this
      obtain ⟨hb1, hb2, hb3⟩ := hwf _ _ _ hi0 hget
      obtain ⟨hrange, hbit⟩ := buffer_allocate_block b hnf hb1 hb2
      rw [hblk] at hrange hbit
      refine ⟨by omega, listId need, j, (b.Allocate).2, hi0, ?_, ?_, hbit, ?_⟩
      · rw [← hpool]
        show (Function.update pool.buf_list_ (listId need) _ (listId need))[j]? = _
        rw [Function.update_same, List.getElem?_set, if_pos rfl, if_pos hjlt]
      · exact (contains_iff _ _).mpr hrange
      · intro i j' b' hi hj' hc'
        rw [← hpool] at hj'
        change (Function.update pool.buf_list_ (listId need) _ i)[j']? = _ at hj'
        have hc2 := (contains_iff _ _).mp hc'
        by_cases hii : i = listId need
        · subst hii
          refine ⟨rfl, ?_⟩
          rw [Function.update_same, List.getElem?_set] at hj'
          by_cases hjj : j = j'
          · exact hjj.symm
          · rw [if_neg hjj] at hj'
            have := hdisj _ j _ j' b b' hi0 hi0 hget hj' (Or.inr hjj)
            omega
        · rw [Function.update_noteq hii] at hj'
          have := hdisj _ j _ j' b b' hi0 hi hget hj' (Or.inl (fun e => hii e.symm))
          omega
    · cases h
  · rename_i hf
    split at h
    · cases h
    · rw [Option.some.injEq, Prod.mk.injEq] at h
      obtain ⟨hblk, hpool⟩ := h
      obtain ⟨hB1, hB2⟩ := newBlockSize_le (listId need) need hi0 hneed
      obtain ⟨hnf, hcap⟩ := buffer_create_shape region (newBufferSize (listId need) need)
        (newBlockSize (listId need) need) hB1 hB2
      obtain ⟨hrange, hbit⟩ := buffer_allocate_block _ hnf hB1 hcap
      rw [hblk] at hrange hbit
      have hrange2 : region ≤ blk ∧ blk < region + newBufferSize (listId need) need := hrange
      refine ⟨by omega, listId need, (pool.buf_list_ (listId need)).length, _, hi0, ?_, ?_,
        hbit, ?_⟩
      · rw [← hpool]
        show (Function.update pool.buf_list_ (listId need) _ (listId need))[_]? = _
        rw [Function.update_same, List.getElem?_concat_length]
      · exact (contains_iff _ _).mpr hrange
      · intro i j' b' hi hj' hc'
        rw [← hpool] at hj'
        change (Function.update pool.buf_list_ (listId need) _ i)[j']? = _ at hj'
        have hc2 := (contains_iff _ _).mp hc'
        by_cases hii : i = listId need
        · subst hii
          refine ⟨rfl, ?_⟩
          rw [Function.update_same] at hj'
          by_cases hlt : j' < (pool.buf_list_ (listId need)).length
          · rw [List.getElem?_append_left hlt] at hj'
            have := hfresh _ j' b' hi0 hj'
            omega
          · have hlen := (List.getElem?_eq_some.mp hj').1
            rw [List.length_append, List.length_singleton] at hlen
            omega
        · rw [Function.update_noteq hii] at hj'
          have := hfresh _ j' b' hi hj'
          omega

/-- A successful `Allocate` is a successful `AllocateHelper` of eight bytes more, with the
count word of the block set to one. -/
theorem allocate_some (pool : VarlenPoolState) (m : Memory) (region size : Nat)
    (hp : (pool.Allocate m region size).ptr ≠ nullptr) :
    ∃ (blk : Nat) (pool' : VarlenPoolState),
      pool.AllocateHelper region (size + 8) = some (blk, pool') ∧
      pool.Allocate m region size
        = { ptr := blk + 8, pool := pool', memory := storeBytes m blk (bytesLE 8 1) } := by
  rw [VarlenPoolState.Allocate] at hp ⊢
  have h8 : VarlenPool.GetRefCountSize = 8 := rfl
  rw [h8] at hp ⊢
  cases h : pool.AllocateHelper region (size + 8) with
  | none =>
    rw [h] at hp
    exact absurd rfl hp
  | some r => exact ⟨r.1, r.2, rfl, rfl⟩

/-- The reference count word of the payload pointer of a block is the start of the
block. -/
theorem getRefCntPtr_payload (blk : Nat) (h : blk < SIZE_T_SIZE) :
    VarlenPool.GetRefCntPtr (blk + 8) = blk := by
  unfold VarlenPool.GetRefCntPtr VarlenPool.GetRefCountSize SIZE_T_SIZE at *
  omega

/-- A count word below `2^63` is a non-negative count. -/
theorem toInt64_of_lt (x : Nat) (h : x < 9223372036854775808) : toInt64 x = (x : Int) := by
  unfold toInt64 SIZE_T_SIZE
  have : x % 18446744073709551616 = x := Nat.mod_eq_of_lt (by omega)
  rw [this, if_pos h]

/-- C18 (refcount correctness of the pool).  For a pool whose Buffers are well formed and
pairwise disjoint, a fresh region for a new Buffer, and an `Allocate` that succeeds with
payload pointer `p`: the count is 1 on return and the block is marked allocated; after
`k` calls of `AddRefCount(p)` and then `j ≤ k` calls of `Free(p)` the count is
`1 + k - j` and the block is still marked allocated; after the `(k+1)`-th `Free` the
count is 0 and the bit of the block is clear in every Buffer that covers it. -/
theorem pool_refcount_protocol (pool : VarlenPoolState) (m : Memory) (region size k : Nat)
    (hwf : ∀ (i j : Nat) (b : Buffer), i < MAX_LIST_NUM → (pool.buf_list_ i)[j]? = some b →
      0 < b.blk_size_ ∧ b.bitmap_.length * b.blk_size_ ≤ b.buf_size_ ∧
        b.buf_begin_ + b.buf_size_ ≤ SIZE_T_SIZE)
    (hdisj : ∀ (i j i' j' : Nat) (b b' : Buffer), i < MAX_LIST_NUM → i' < MAX_LIST_NUM →
      (pool.buf_list_ i)[j]? = some b → (pool.buf_list_ i')[j']? = some b' →
      (i ≠ i' ∨ j ≠ j') →
      b.buf_begin_ + b.buf_size_ ≤ b'.buf_begin_ ∨ b'.buf_begin_ + b'.buf_size_ ≤ b.buf_begin_)
    (hfresh : ∀ (i j : Nat) (b : Buffer), i < MAX_LIST_NUM → (pool.buf_list_ i)[j]? = some b →
      b.buf_begin_ + b.buf_size_ ≤ region ∨
        region + newBufferSize (listId (size + 8)) (size + 8) ≤ b.buf_begin_)
    (hregion : region + newBufferSize (listId (size + 8)) (size + 8) ≤ SIZE_T_SIZE)
    (hk : 1 + k < 9223372036854775808)
    (hp : (pool.Allocate m region size).ptr ≠ nullptr) :
    VarlenPool.GetRefCount (pool.Allocate m region size).memory
        (pool.Allocate m region size).ptr = 1 ∧
      (pool.Allocate m region size).pool.IsAllocated
        (VarlenPool.GetRefCntPtr (pool.Allocate m region size).ptr) = true ∧
      (∀ j, j ≤ k →
        VarlenPool.GetRefCount (pool.afterCalls m region size k j).2
            (pool.Allocate m region size).ptr = 1 + (k : Int) - (j : Int) ∧
          (pool.afterCalls m region size k j).1.IsAllocated
            (VarlenPool.GetRefCntPtr (pool.Allocate m region size).ptr) = true) ∧
      VarlenPool.GetRefCount (pool.afterCalls m region size k (k + 1)).2
          (pool.Allocate m region size).ptr = 0 ∧
      (pool.afterCalls m region size k (k + 1)).1.IsAllocated
          (VarlenPool.GetRefCntPtr (pool.Allocate m region size).ptr) = false := by
  obtain ⟨blk, pool', hA, hE⟩ := allocate_some pool m region size hp
  obtain ⟨hblk, i0, j0, b0, hi0, hb0, hc0, hbit, huniq⟩ :=
    allocateHelper_owner pool pool' region (size + 8) blk (by omega) hwf hdisj hfresh hregion hA
  unfold VarlenPoolState.afterCalls
  rw [hE]
  dsimp only
  have hq : VarlenPool.GetRefCntPtr (blk + 8) = blk := getRefCntPtr_payload blk hblk
  have hw0 : loadLE (storeBytes m blk (bytesLE 8 1)) (VarlenPool.GetRefCntPtr (blk + 8)) 8 = 1 := by
    rw [hq, loadLE_storeBytes]
    decide
  have hS : SIZE_T_SIZE = 18446744073709551616 := rfl
  have hwk : loadLE (VarlenPool.AddRefCountTimes (storeBytes m blk (bytesLE 8 1)) (blk + 8) k)
      (VarlenPool.GetRefCntPtr (blk + 8)) 8 = 1 + k :=
    addRefCountTimes_word _ _ 1 hw0 k (by omega)
  have hwk1 : loadLE (VarlenPool.AddRefCountTimes (storeBytes m blk (bytesLE 8 1)) (blk + 8) k)
      (VarlenPool.GetRefCntPtr (blk + 8)) 8 = k + 1 := by
    rw [hwk]; omega
  have halloc : pool'.IsAllocated blk = true :=
    (isAllocated_iff pool' blk).mpr ⟨i0, j0, b0, hi0, hb0, hc0, hbit⟩
  refine ⟨?_, ?_, ?_, ?_, ?_⟩
  · unfold VarlenPool.GetRefCount
    rw [hw0]
    rfl
  · rw [hq]; exact halloc
  · intro j hj
    obtain ⟨h1, h2⟩ := freeTimes_keep pool' _ (blk + 8) (1 + k) hwk (by omega) j (by omega)
    constructor
    · unfold VarlenPool.GetRefCount
      rw [h2, toInt64_of_lt _ (by omega)]
      omega
    · rw [h1, hq]; exact halloc
  · obtain ⟨h1, h2⟩ := freeTimes_last pool' _ (blk + 8) k hwk1 (by omega)
    unfold VarlenPool.GetRefCount
    rw [h2]
    rfl
  · obtain ⟨h1, h2⟩ := freeTimes_last pool' _ (blk + 8) k hwk1 (by omega)
    rw [h1, hq]
    exact freeHelper_clears pool' blk i0 j0 b0 hi0 hb0 hc0 huniq

/-- Witness of C18: 100 bytes allocated from the pool after `Init` with the region at
1000000, two calls of `AddRefCount` and up to three of `Free`. -/
theorem pool_refcount_protocol_witness :
    (VarlenPoolState.Init.Allocate (fun _ => 0) 1000000 100).ptr ≠ nullptr ∧
    (VarlenPoolState.Init.Allocate (fun _ => 0) 1000000 100).ptr = 1000008 ∧
    (VarlenPool.GetRefCount (VarlenPoolState.Init.Allocate (fun _ => 0) 1000000 100).memory
        (VarlenPoolState.Init.Allocate (fun _ => 0) 1000000 100).ptr = 1 ∧
      (VarlenPoolState.Init.Allocate (fun _ => 0) 1000000 100).pool.IsAllocated
        (VarlenPool.GetRefCntPtr (VarlenPoolState.Init.Allocate (fun _ => 0) 1000000 100).ptr)
          = true ∧
      (∀ j, j ≤ 2 →
        VarlenPool.GetRefCount (VarlenPoolState.Init.afterCalls (fun _ => 0) 1000000 100 2 j).2
            (VarlenPoolState.Init.Allocate (fun _ => 0) 1000000 100).ptr
              = 1 + ((2 : Nat) : Int) - (j : Int) ∧
          (VarlenPoolState.Init.afterCalls (fun _ => 0) 1000000 100 2 j).1.IsAllocated
            (VarlenPool.GetRefCntPtr
              (VarlenPoolState.Init.Allocate (fun _ => 0) 1000000 100).ptr) = true) ∧
      VarlenPool.GetRefCount
          (VarlenPoolState.Init.afterCalls (fun _ => 0) 1000000 100 2 (2 + 1)).2
          (VarlenPoolState.Init.Allocate (fun _ => 0) 1000000 100).ptr = 0 ∧
      (VarlenPoolState.Init.afterCalls (fun _ => 0) 1000000 100 2 (2 + 1)).1.IsAllocated
          (VarlenPool.GetRefCntPtr (VarlenPoolState.Init.Allocate (fun _ => 0) 1000000 100).ptr)
            = false) :=
  ⟨by decide, by decide,
    pool_refcount_protocol VarlenPoolState.Init (fun _ => 0) 1000000 100 2
      (fun i j b _ h => by simp [VarlenPoolState.Init] at h)
      (fun i j i' j' b b' _ _ h => by simp [VarlenPoolState.Init] at h)
      (fun i j b _ h => by simp [VarlenPoolState.Init] at h)
      (by decide) (by decide) (by decide)⟩

/-! ### Timestamp comparison -/

/-- The test tells the two readings of `NotEquals` apart: at the pair (NULL, 1000000000)
it rejects a NULL result and accepts the true BOOLEAN, and at (1000000000, NULL) it
accepts the NULL result. -/
theorem comparisonTest_notEquals_null_left :
    ComparisonTest.check .NotEquals PELOTON_TIMESTAMP_NULL 1000000000
        (.ok (GetNullValueByType .BOOLEAN)) = false ∧
    ComparisonTest.check .NotEquals PELOTON_TIMESTAMP_NULL 1000000000
        (.ok (GetBooleanValue true)) = true ∧
    ComparisonTest.check .NotEquals 1000000000 PELOTON_TIMESTAMP_NULL
        (.ok (GetNullValueByType .BOOLEAN)) = true := by
  decide

/-- Two TIMESTAMP values are comparable. -/
theorem timestamp_comparable (val0 val1 : Value) (h0 : val0.type_id = .TIMESTAMP)
    (h1 : val1.type_id = .TIMESTAMP) : val0.CheckComparable val1 = .ok () := by
  unfold Value.CheckComparable
  rw [h0, h1, if_pos rfl]

/-- A TIMESTAMP value is NULL exactly when it holds the sentinel. -/
theorem timestamp_isNull (v : Value) (h : v.type_id = .TIMESTAMP) :
    v.IsNull = true ↔ v.GetAs_uint64 = PELOTON_TIMESTAMP_NULL := by
  unfold Value.IsNull Value.GetAs_uint64
  rw [h]
  exact beq_iff_eq

/-- C21 (timestamp comparison as the test asserts it).  For every pair of TIMESTAMP
values, `CompareEquals`, `CompareLessThan`, `CompareLessThanEquals`, `CompareGreaterThan`
and `CompareGreaterThanEquals` return the NULL BOOLEAN when an operand is NULL and
otherwise the non-null BOOLEAN of the comparison of the two unsigned 64-bit values;
`CompareNotEquals` returns the NULL BOOLEAN when the right operand is NULL and otherwise
the non-null BOOLEAN of the inequality of the raw values, which is true when the left
operand is NULL; and the repository's `ComparisonTest` passes on these operators. -/
theorem timestamp_comparison (self : TimestampType) (val0 val1 : Value)
    (h0 : val0.type_id = .TIMESTAMP) (h1 : val1.type_id = .TIMESTAMP) :
    ((val0.IsNull = true ∨ val1.IsNull = true) →
      self.CompareEquals val0 val1 = .ok (GetNullValueByType .BOOLEAN) ∧
      self.CompareLessThan val0 val1 = .ok (GetNullValueByType .BOOLEAN) ∧
      self.CompareLessThanEquals val0 val1 = .ok (GetNullValueByType .BOOLEAN) ∧
      self.CompareGreaterThan val0 val1 = .ok (GetNullValueByType .BOOLEAN) ∧
      self.CompareGreaterThanEquals val0 val1 = .ok (GetNullValueByType .BOOLEAN)) ∧
    (val0.IsNull = false → val1.IsNull = false →
      self.CompareEquals val0 val1
        = .ok (GetBooleanValue (decide (val0.GetAs_uint64 = val1.GetAs_uint64))) ∧
      self.CompareLessThan val0 val1
        = .ok (GetBooleanValue (decide (val0.GetAs_uint64 < val1.GetAs_uint64))) ∧
      self.CompareLessThanEquals val0 val1
        = .ok (GetBooleanValue (decide (val0.GetAs_uint64 ≤ val1.GetAs_uint64))) ∧
      self.CompareGreaterThan val0 val1
        = .ok (GetBooleanValue (decide (val0.GetAs_uint64 > val1.GetAs_uint64))) ∧
      self.CompareGreaterThanEquals val0 val1
        = .ok (GetBooleanValue (decide (val0.GetAs_uint64 ≥ val1.GetAs_uint64)))) ∧
    (val1.IsNull = true →
      self.CompareNotEquals val0 val1 = .ok (GetNullValueByType .BOOLEAN)) ∧
    (val1.IsNull = false →
      self.CompareNotEquals val0 val1
        = .ok (GetBooleanValue (decide (val0.GetAs_uint64 ≠ val1.GetAs_uint64)))) ∧
    (val0.IsNull = true → val1.IsNull = false →
      self.CompareNotEquals val0 val1 = .ok (GetBooleanValue true)) ∧
    (GetNullValueByType .BOOLEAN).IsNull = true ∧
    (∀ b, (GetBooleanValue b).IsNull = false ∧ (GetBooleanValue b).IsTrue = b) ∧
    ComparisonTest = true := by
  have hc := timestamp_comparable val0 val1 h0 h1
  refine ⟨?_, ?_, ?_, ?_, ?_, by decide, ?_, by decide⟩
  · intro hn
    have hor : (val0.IsNull || val1.IsNull) = true := by
      rcases hn with h | h <;> simp [h]
    simp [TimestampType.CompareEquals, TimestampType.CompareLessThan,
      TimestampType.CompareLessThanEquals, TimestampType.CompareGreaterThan,
      TimestampType.CompareGreaterThanEquals, hc, hor]
  · intro hn0 hn1
    simp [TimestampType.CompareEquals, TimestampType.CompareLessThan,
      TimestampType.CompareLessThanEquals, TimestampType.CompareGreaterThan,
      TimestampType.CompareGreaterThanEquals, hc, hn0, hn1]
  · intro hn1
    simp [TimestampType.CompareNotEquals, hc, hn1]
  · intro hn1
    simp [TimestampType.CompareNotEquals, hc, hn1]
  · intro hn0 hn1
    have a0 : val0.GetAs_uint64 = PELOTON_TIMESTAMP_NULL := (timestamp_isNull val0 h0).mp hn0
    have a1 : val1.GetAs_uint64 ≠ PELOTON_TIMESTAMP_NULL := by
      intro h
      have := (timestamp_isNull val1 h1).mpr h
      rw [hn1] at this
      exact Bool.false_ne_true this
    have hne : val0.GetAs_uint64 ≠ val1.GetAs_uint64 := by
      rw [a0]
      exact fun h => a1 h.symm
    simp [TimestampType.CompareNotEquals, hc, hn1, hne]
  · intro b
    cases b <;> decide

/-- Witness of C21: the NULL TIMESTAMP against 1000000000, and the values of the test:
1000000000 against 2000000000 gives `<` true, `==` false, `!=` true. -/
theorem timestamp_comparison_witness :
    tsNull.type_id = .TIMESTAMP ∧ ts1.type_id = .TIMESTAMP ∧
    tsNull.IsNull = true ∧ ts1.IsNull = false ∧ ts2.IsNull = false ∧
    timestampType.CompareLessThan ts1 ts2 = .ok (GetBooleanValue true) ∧
    timestampType.CompareEquals ts1 ts2 = .ok (GetBooleanValue false) ∧
    timestampType.CompareNotEquals ts1 ts2 = .ok (GetBooleanValue true) ∧
    (∃ r, timestampType.CompareNotEquals tsNull ts1 = .ok r ∧ r.IsNull = false ∧
      r.IsTrue = true) ∧
    (((tsNull.IsNull = true ∨ ts1.IsNull = true) →
        timestampType.CompareEquals tsNull ts1 = .ok (GetNullValueByType .BOOLEAN) ∧
        timestampType.CompareLessThan tsNull ts1 = .ok (GetNullValueByType .BOOLEAN) ∧
        timestampType.CompareLessThanEquals tsNull ts1 = .ok (GetNullValueByType .BOOLEAN) ∧
        timestampType.CompareGreaterThan tsNull ts1 = .ok (GetNullValueByType .BOOLEAN) ∧
        timestampType.CompareGreaterThanEquals tsNull ts1 = .ok (GetNullValueByType .BOOLEAN)) ∧
      (tsNull.IsNull = false → ts1.IsNull = false →
        timestampType.CompareEquals tsNull ts1
          = .ok (GetBooleanValue (decide (tsNull.GetAs_uint64 = ts1.GetAs_uint64))) ∧
        timestampType.CompareLessThan tsNull ts1
          = .ok (GetBooleanValue (decide (tsNull.GetAs_uint64 < ts1.GetAs_uint64))) ∧
        timestampType.CompareLessThanEquals tsNull ts1
          = .ok (GetBooleanValue (decide (tsNull.GetAs_uint64 ≤ ts1.GetAs_uint64))) ∧
        timestampType.CompareGreaterThan tsNull ts1
          = .ok (GetBooleanValue (decide (tsNull.GetAs_uint64 > ts1.GetAs_uint64))) ∧
        timestampType.CompareGreaterThanEquals tsNull ts1
          = .ok (GetBooleanValue (decide (tsNull.GetAs_uint64 ≥ ts1.GetAs_uint64)))) ∧
      (ts1.IsNull = true →
        timestampType.CompareNotEquals tsNull ts1 = .ok (GetNullValueByType .BOOLEAN)) ∧
      (ts1.IsNull = false →
        timestampType.CompareNotEquals tsNull ts1
          = .ok (GetBooleanValue (decide (tsNull.GetAs_uint64 ≠ ts1.GetAs_uint64)))) ∧
      (tsNull.IsNull = true → ts1.IsNull = false →
        timestampType.CompareNotEquals tsNull ts1 = .ok (GetBooleanValue true)) ∧
      (GetNullValueByType .BOOLEAN).IsNull = true ∧
      (∀ b, (GetBooleanValue b).IsNull = false ∧ (GetBooleanValue b).IsTrue = b) ∧
      ComparisonTest = true) :=
  ⟨by decide, by decide, by decide, by decide, by decide, by decide, by decide, by decide,
    ⟨GetBooleanValue true, by decide, by decide, by decide⟩,
    timestamp_comparison timestampType tsNull ts1 (by decide) (by decide)⟩

/-! ### Order properties of the comparison -/

/-- Swapping the strings negates `strncmp`. -/
theorem strncmp_antisymm (m : Memory) (n : Nat) :
    ∀ s1 s2 : Nat, strncmp m s1 s2 n = -strncmp m s2 s1 n := by
  induction n with
  | zero => intro s1 s2; rw [strncmp_zero, strncmp_zero]; rfl
  | succ n ih =>
    intro s1 s2
    rw [strncmp_succ, strncmp_succ]
    by_cases he : m s1 = m s2
    · rw [if_neg (not_not.mpr he), if_neg (not_not.mpr he.symm)]
      by_cases hz : m s1 = 0
      · rw [if_pos hz, if_pos (he ▸ hz)]
        rfl
      · rw [if_neg hz, if_neg (he ▸ hz)]
        exact ih (s1 + 1) (s2 + 1)
    · rw [if_pos he, if_pos (fun h => he h.symm)]
      omega

/-- `CompareStrings` on lengths below `2^31`: the result of `strncmp` over the common
length, and the difference of the lengths when that is zero. -/
theorem compareStrings_nat (m : Memory) (s1 s2 l1 l2 : Nat)
    (h1 : l1 < 2147483648) (h2 : l2 < 2147483648) :
    CompareStrings m s1 (l1 : Int) s2 (l2 : Int)
      = if strncmp m s1 s2 (min l1 l2) = 0 then (l1 : Int) - (l2 : Int)
        else strncmp m s1 s2 (min l1 l2) := by
  have hmin : min (l1 : Int) (l2 : Int) = ((min l1 l2 : Nat) : Int) := by omega
  have hs : toSizeT ((min l1 l2 : Nat) : Int) = min l1 l2 := toSizeT_of_nat _ (by omega)
  have hw : wrapInt32 ((l1 : Int) - (l2 : Int)) = (l1 : Int) - (l2 : Int) :=
    wrapInt32_of_small _ (by omega) (by omega)
  unfold CompareStrings
  rw [hmin, hs, hw]
  by_cases hr : strncmp m s1 s2 (min l1 l2) = 0
  · rw [if_pos hr]
    by_cases hl : (l1 : Int) = (l2 : Int)
    · rw [if_neg (fun h => h.2 hl), hr, hl]
      omega
    · rw [if_pos ⟨hr, hl⟩]
  · rw [if_neg hr, if_neg (fun h => hr h.1)]

/-- Swapping the operands negates `CompareStrings`, for lengths below `2^31`. -/
theorem compareStrings_antisymm (m : Memory) (s1 s2 l1 l2 : Nat)
    (h1 : l1 < 2147483648) (h2 : l2 < 2147483648) :
    CompareStrings m s1 (l1 : Int) s2 (l2 : Int)
      = -CompareStrings m s2 (l2 : Int) s1 (l1 : Int) := by
  rw [compareStrings_nat m s1 s2 l1 l2 h1 h2, compareStrings_nat m s2 s1 l2 l1 h2 h1,
    Nat.min_comm l2 l1, strncmp_antisymm m (min l1 l2) s2 s1]
  by_cases hr : strncmp m s1 s2 (min l1 l2) = 0
  · rw [if_pos hr, if_pos (by omega)]
    omega
  · rw [if_neg hr, if_neg (by omega)]
    omega

/-- A string compared with itself gives zero. -/
theorem compareStrings_self (m : Memory) (s l : Nat) (h : l < 2147483648) :
    CompareStrings m s (l : Int) s (l : Int) = 0 := by
  rw [compareStrings_nat m s s l l h h,
    strncmp_eq_zero_of_bytes_eq m (min l l) s s (fun _ _ => rfl), if_pos rfl]
  omega

/-- Against an empty string the lengths decide. -/
theorem compareStrings_empty (m : Memory) (s1 s2 l1 l2 : Nat)
    (h1 : l1 < 2147483648) (h2 : l2 < 2147483648) (h0 : l1 = 0 ∨ l2 = 0) :
    CompareStrings m s1 (l1 : Int) s2 (l2 : Int) = (l1 : Int) - (l2 : Int) := by
  have hmin : min l1 l2 = 0 := by omega
  rw [compareStrings_nat m s1 s2 l1 l2 h1 h2, hmin, strncmp_zero, if_pos rfl]

/-- On a common first byte that is zero the lengths decide. -/
theorem compareStrings_zero_byte (m : Memory) (s1 s2 k j : Nat)
    (hk : k + 1 < 2147483648) (hj : j + 1 < 2147483648)
    (he : m s1 = m s2) (hz : m s1 = 0) :
    CompareStrings m s1 ((k + 1 : Nat) : Int) s2 ((j + 1 : Nat) : Int)
      = (k : Int) - (j : Int) := by
  have hmin : min (k + 1) (j + 1) = min k j + 1 := by omega
  rw [compareStrings_nat m s1 s2 (k + 1) (j + 1) hk hj, hmin, strncmp_succ,
    if_neg (not_not.mpr he), if_pos hz, if_pos rfl]
  omega

/-- `CompareStrings` orders transitively on lengths below `2^31`: a negative result
composes, and so does a zero result. -/
theorem compareStrings_trans (m : Memory) (l1 : Nat) :
    ∀ (s1 s2 s3 l2 l3 : Nat), l1 < 2147483648 → l2 < 2147483648 → l3 < 2147483648 →
      (CompareStrings m s1 (l1 : Int) s2 (l2 : Int) < 0 →
        CompareStrings m s2 (l2 : Int) s3 (l3 : Int) < 0 →
        CompareStrings m s1 (l1 : Int) s3 (l3 : Int) < 0) ∧
      (CompareStrings m s1 (l1 : Int) s2 (l2 : Int) = 0 →
        CompareStrings m s2 (l2 : Int) s3 (l3 : Int) = 0 →
        CompareStrings m s1 (l1 : Int) s3 (l3 : Int) = 0) := by
  induction l1 with
  | zero =>
    intro s1 s2 s3 l2 l3 h1 h2 h3
    rw [compareStrings_empty m s1 s2 0 l2 h1 h2 (Or.inl rfl),
      compareStrings_empty m s1 s3 0 l3 h1 h3 (Or.inl rfl)]
    by_cases hl3 : l3 = 0
    · rw [compareStrings_empty m s2 s3 l2 l3 h2 h3 (Or.inr hl3)]
      constructor <;> intro a b <;> omega
    · by_cases hl2 : l2 = 0
      · rw [compareStrings_empty m s2 s3 l2 l3 h2 h3 (Or.inl hl2)]
        constructor <;> intro a b <;> omega
      · constructor <;> intro a b <;> omega
  | succ k ih =>
    intro s1 s2 s3 l2 l3 h1 h2 h3
    cases l2 with
    | zero =>
      rw [compareStrings_empty m s1 s2 (k + 1) 0 h1 h2 (Or.inr rfl)]
      constructor <;> intro a b <;> omega
    | succ j =>
      cases l3 with
      | zero =>
        rw [compareStrings_empty m s2 s3 (j + 1) 0 h2 h3 (Or.inr rfl)]
        constructor <;> intro a b <;> omega
      | succ i =>
        by_cases e12 : m s1 = m s2
        · by_cases e23 : m s2 = m s3
          · have e13 : m s1 = m s3 := e12.trans e23
            by_cases hz : m s1 = 0
            · rw [compareStrings_zero_byte m s1 s2 k j h1 h2 e12 hz,
                compareStrings_zero_byte m s2 s3 j i h2 h3 e23 (e12 ▸ hz),
                compareStrings_zero_byte m s1 s3 k i h1 h3 e13 hz]
              constructor <;> intro a b <;> omega
            · rw [compareStrings_step m s1 s2 k j h1 h2 e12 hz,
                compareStrings_step m s2 s3 j i h2 h3 e23 (e12 ▸ hz),
                compareStrings_step m s1 s3 k i h1 h3 e13 hz]
              exact ih (s1 + 1) (s2 + 1) (s3 + 1) j i (by omega) (by omega) (by omega)
          · have e13 : m s1 ≠ m s3 := fun h => e23 (e12.symm.trans h)
            rw [compareStrings_ne m s2 s3 j i h2 h3 e23, compareStrings_ne m s1 s3 k i h1 h3 e13]
            constructor <;> intro a b <;> omega
        · rw [compareStrings_ne m s1 s2 k j h1 h2 e12]
          by_cases e23 : m s2 = m s3
          · have e13 : m s1 ≠ m s3 := fun h => e12 (h.trans e23.symm)
            rw [compareStrings_ne m s1 s3 k i h1 h3 e13]
            constructor <;> intro a b <;> omega
          · rw [compareStrings_ne m s2 s3 j i h2 h3 e23]
            by_cases e13 : m s1 = m s3
            · constructor <;> intro a b <;> omega
            · rw [compareStrings_ne m s1 s3 k i h1 h3 e13]
              constructor <;> intro a b <;> omega

/-- `GetBooleanValue` keeps the truth value apart. -/
theorem getBooleanValue_inj (b c : Bool) (h : GetBooleanValue b = GetBooleanValue c) : b = c := by
  have h1 : (GetBooleanValue b).value_.boolean = (GetBooleanValue c).value_.boolean := by rw [h]
  exact Option.some.inj h1

/-- `CheckComparable` succeeds exactly on operands of one type. -/
theorem checkComparable_iff (a b : Value) :
    a.CheckComparable b = .ok () ↔ a.type_id = b.type_id := by
  unfold Value.CheckComparable
  by_cases h : a.type_id = b.type_id
  · rw [if_pos h]; exact ⟨fun _ => h, fun _ => rfl⟩
  · rw [if_neg h]
    exact ⟨fun e => (by cases e), fun e => absurd e h⟩

/-- On a comparable pair of non-null values the six operators test one three-way result
against zero: the difference of the lengths in the sentinel branch, the result of
`CompareStrings` otherwise. -/
theorem compare_threeWay (self : VarlenType) (m : Memory) (a b : Value)
    (hc : a.CheckComparable b = .ok ()) (ha : a.IsNull = false) (hb : b.IsNull = false) :
    ∃ c : Int,
      c = (if a.GetLength = PELOTON_VARCHAR_MAX_LEN ∨ b.GetLength = PELOTON_VARCHAR_MAX_LEN
            then (a.GetLength : Int) - (b.GetLength : Int)
            else CompareStrings m a.GetData (toInt32 a.GetLength) b.GetData
              (toInt32 b.GetLength)) ∧
      self.CompareEquals m a b = .ok (GetBooleanValue (decide (c = 0))) ∧
      self.CompareNotEquals m a b = .ok (GetBooleanValue (decide (c ≠ 0))) ∧
      self.CompareLessThan m a b = .ok (GetBooleanValue (decide (c < 0))) ∧
      self.CompareLessThanEquals m a b = .ok (GetBooleanValue (decide (c ≤ 0))) ∧
      self.CompareGreaterThan m a b = .ok (GetBooleanValue (decide (c > 0))) ∧
      self.CompareGreaterThanEquals m a b = .ok (GetBooleanValue (decide (c ≥ 0))) := by
  refine ⟨_, rfl, ?_⟩
  by_cases hs : a.GetLength = PELOTON_VARCHAR_MAX_LEN ∨ b.GetLength = PELOTON_VARCHAR_MAX_LEN
  · rw [if_pos hs]
    have e0 : decide (a.GetLength = b.GetLength)
        = decide ((a.GetLength : Int) - (b.GetLength : Int) = 0) :=
      decide_eq_decide.mpr (by omega)
    have e1 : decide (a.GetLength ≠ b.GetLength)
        = decide ((a.GetLength : Int) - (b.GetLength : Int) ≠ 0) :=
      decide_eq_decide.mpr (by omega)
    have e2 : decide (a.GetLength < b.GetLength)
        = decide ((a.GetLength : Int) - (b.GetLength : Int) < 0) :=
      decide_eq_decide.mpr (by omega)
    have e3 : decide (a.GetLength ≤ b.GetLength)
        = decide ((a.GetLength : Int) - (b.GetLength : Int) ≤ 0) :=
      decide_eq_decide.mpr (by omega)
    have e4 : decide (a.GetLength > b.GetLength)
        = decide ((a.GetLength : Int) - (b.GetLength : Int) > 0) :=
      decide_eq_decide.mpr (by omega)
    have e5 : decide (a.GetLength ≥ b.GetLength)
        = decide ((a.GetLength : Int) - (b.GetLength : Int) ≥ 0) :=
      decide_eq_decide.mpr (by omega)
    rw [← e0, ← e1, ← e2, ← e3, ← e4, ← e5]
    refine ⟨?_, ?_, ?_, ?_, ?_, ?_⟩
    · simp only [VarlenType.CompareEquals, hc, ha, hb, Bool.or_self, Bool.false_eq_true,
        if_false, if_pos hs]
    · simp only [VarlenType.CompareNotEquals, hc, ha, hb, Bool.or_self, Bool.false_eq_true,
        if_false, if_pos hs]
    · simp only [VarlenType.CompareLessThan, hc, ha, hb, Bool.or_self, Bool.false_eq_true,
        if_false, if_pos hs]
    · simp only [VarlenType.CompareLessThanEquals, hc, ha, hb, Bool.or_self,
        Bool.false_eq_true, if_false, if_pos hs]
    · simp only [VarlenType.CompareGreaterThan, hc, ha, hb, Bool.or_self, Bool.false_eq_true,
        if_false, if_pos hs]
    · simp only [VarlenType.CompareGreaterThanEquals, hc, ha, hb, Bool.or_self,
        Bool.false_eq_true, if_false, if_pos hs]
  · rw [if_neg hs]
    refine ⟨?_, ?_, ?_, ?_, ?_, ?_⟩
    · simp only [VarlenType.CompareEquals, hc, ha, hb, Bool.or_self, Bool.false_eq_true,
        if_false, if_neg hs]
    · simp only [VarlenType.CompareNotEquals, hc, ha, hb, Bool.or_self, Bool.false_eq_true,
        if_false, if_neg hs]
    · simp only [VarlenType.CompareLessThan, hc, ha, hb, Bool.or_self, Bool.false_eq_true,
        if_false, if_neg hs]
    · simp only [VarlenType.CompareLessThanEquals, hc, ha, hb, Bool.or_self,
        Bool.false_eq_true, if_false, if_neg hs]
    · simp only [VarlenType.CompareGreaterThan, hc, ha, hb, Bool.or_self, Bool.false_eq_true,
        if_false, if_neg hs]
    · simp only [VarlenType.CompareGreaterThanEquals, hc, ha, hb, Bool.or_self,
        Bool.false_eq_true, if_false, if_neg hs]

/-! ### Claims on the order -/

/-- On non-null values of one type with lengths below `2^31`, the six operators test
`CompareStrings` of the two payloads against zero. -/
theorem compare_small (self : VarlenType) (m : Memory) (a b : Value)
    (hc : a.CheckComparable b = .ok ()) (ha : a.IsNull = false) (hb : b.IsNull = false)
    (hla : a.GetLength < 2147483648) (hlb : b.GetLength < 2147483648) :
    self.CompareEquals m a b = .ok (GetBooleanValue (decide
      (CompareStrings m a.GetData (a.GetLength : Int) b.GetData (b.GetLength : Int) = 0))) ∧
    self.CompareLessThan m a b = .ok (GetBooleanValue (decide
      (CompareStrings m a.GetData (a.GetLength : Int) b.GetData (b.GetLength : Int) < 0))) := by
  obtain ⟨c, hcdef, h1, _, h3, _⟩ := compare_threeWay self m a b hc ha hb
  have hs : ¬(a.GetLength = PELOTON_VARCHAR_MAX_LEN ∨ b.GetLength = PELOTON_VARCHAR_MAX_LEN) := by
    unfold PELOTON_VARCHAR_MAX_LEN; omega
  rw [if_neg hs, toInt32_of_lt _ hla, toInt32_of_lt _ hlb] at hcdef
  rw [hcdef] at h1 h3
  exact ⟨h1, h3⟩

/-- C22 (strict weak order).  On non-null values of one type with lengths below `2^31`,
`CompareLessThan(a, a)` is false; if `CompareLessThan(a, b)` and `CompareLessThan(b, c)`
are true then `CompareLessThan(a, c)` is true; and if `CompareEquals(a, b)` and
`CompareEquals(b, c)` are true then `CompareEquals(a, c)` is true.  This holds whatever
the bytes are, zero bytes included. -/
theorem less_than_strict_order (self : VarlenType) (m : Memory) (a b c : Value)
    (hab : a.CheckComparable b = .ok ()) (hbc : b.CheckComparable c = .ok ())
    (ha : a.IsNull = false) (hb : b.IsNull = false) (hc : c.IsNull = false)
    (hla : a.GetLength < 2147483648) (hlb : b.GetLength < 2147483648)
    (hlc : c.GetLength < 2147483648) :
    self.CompareLessThan m a a = .ok (GetBooleanValue false) ∧
    (self.CompareLessThan m a b = .ok (GetBooleanValue true) →
      self.CompareLessThan m b c = .ok (GetBooleanValue true) →
      self.CompareLessThan m a c = .ok (GetBooleanValue true)) ∧
    (self.CompareEquals m a b = .ok (GetBooleanValue true) →
      self.CompareEquals m b c = .ok (GetBooleanValue true) →
      self.CompareEquals m a c = .ok (GetBooleanValue true)) := by
  have haa : a.CheckComparable a = .ok () := (checkComparable_iff a a).mpr rfl
  have hac : a.CheckComparable c = .ok () :=
    (checkComparable_iff a c).mpr
      (((checkComparable_iff a b).mp hab).trans ((checkComparable_iff b c).mp hbc))
  obtain ⟨_, laa⟩ := compare_small self m a a haa ha ha hla hla
  obtain ⟨eab, lab⟩ := compare_small self m a b hab ha hb hla hlb
  obtain ⟨ebc, lbc⟩ := compare_small self m b c hbc hb hc hlb hlc
  obtain ⟨eac, lac⟩ := compare_small self m a c hac ha hc hla hlc
  obtain ⟨tlt, teq⟩ := compareStrings_trans m a.GetLength a.GetData b.GetData c.GetData
    b.GetLength c.GetLength hla hlb hlc
  have key : ∀ (p : Prop) [Decidable p],
      (Except.ok (GetBooleanValue (decide p)) : Except Exception Value)
        = .ok (GetBooleanValue true) → p := by
    intro p _ h
    have h1 : GetBooleanValue (decide p) = GetBooleanValue true := Except.ok.inj h
    exact of_decide_eq_true (getBooleanValue_inj _ _ h1)
  refine ⟨?_, ?_, ?_⟩
  · rw [laa, compareStrings_self m a.GetData a.GetLength hla]
    rfl
  · intro h1 h2
    rw [lab] at h1
    rw [lbc] at h2
    rw [lac, decide_eq_true (tlt (key _ h1) (key _ h2))]
  · intro h1 h2
    rw [eab] at h1
    rw [ebc] at h2
    rw [eac, decide_eq_true (teq (key _ h1) (key _ h2))]

/-- Witness of C22: `a`, `ab` and `b`, each less than the next. -/
theorem less_than_strict_order_witness :
    strA.CheckComparable strAB = .ok () ∧ strAB.CheckComparable strB = .ok () ∧
    strA.IsNull = false ∧ strAB.IsNull = false ∧ strB.IsNull = false ∧
    strA.GetLength < 2147483648 ∧ strAB.GetLength < 2147483648 ∧
    strB.GetLength < 2147483648 ∧
    varcharType.CompareLessThan memOrder strA strAB = .ok (GetBooleanValue true) ∧
    varcharType.CompareLessThan memOrder strAB strB = .ok (GetBooleanValue true) ∧
    (varcharType.CompareLessThan memOrder strA strA = .ok (GetBooleanValue false) ∧
      (varcharType.CompareLessThan memOrder strA strAB = .ok (GetBooleanValue true) →
        varcharType.CompareLessThan memOrder strAB strB = .ok (GetBooleanValue true) →
        varcharType.CompareLessThan memOrder strA strB = .ok (GetBooleanValue true)) ∧
      (varcharType.CompareEquals memOrder strA strAB = .ok (GetBooleanValue true) →
        varcharType.CompareEquals memOrder strAB strB = .ok (GetBooleanValue true) →
        varcharType.CompareEquals memOrder strA strB = .ok (GetBooleanValue true))) :=
  ⟨by decide, by decide, by decide, by decide, by decide, by decide, by decide, by decide,
    by decide, by decide,
    less_than_strict_order varcharType memOrder strA strAB strB (by decide) (by decide)
      (by decide) (by decide) (by decide) (by decide) (by decide) (by decide)⟩

/-- C23 (trichotomy and operator consistency).  For every comparable pair of non-null
values, whatever their lengths, exactly one of `CompareLessThan`, `CompareEquals` and
`CompareGreaterThan` is true, `CompareNotEquals` is the negation of `CompareEquals`,
`CompareLessThanEquals` the negation of `CompareGreaterThan` and
`CompareGreaterThanEquals` the negation of `CompareLessThan`. -/
theorem trichotomy_and_consistency (self : VarlenType) (m : Memory) (a b : Value)
    (hab : a.CheckComparable b = .ok ())
    (ha : a.IsNull = false) (hb : b.IsNull = false) :
    ∃ lt eq gt : Bool,
      self.CompareLessThan m a b = .ok (GetBooleanValue lt) ∧
      self.CompareEquals m a b = .ok (GetBooleanValue eq) ∧
      self.CompareGreaterThan m a b = .ok (GetBooleanValue gt) ∧
      ((lt = true ∧ eq = false ∧ gt = false) ∨ (lt = false ∧ eq = true ∧ gt = false) ∨
        (lt = false ∧ eq = false ∧ gt = true)) ∧
      self.CompareNotEquals m a b = .ok (GetBooleanValue (!eq)) ∧
      self.CompareLessThanEquals m a b = .ok (GetBooleanValue (!gt)) ∧
      self.CompareGreaterThanEquals m a b = .ok (GetBooleanValue (!lt)) := by
  obtain ⟨c, _, h1, h2, h3, h4, h5, h6⟩ := compare_threeWay self m a b hab ha hb
  have n : ∀ (p r : Prop) [Decidable p] [Decidable r], (p ↔ ¬r) →
      (Except.ok (GetBooleanValue (decide p)) : Except Exception Value)
        = .ok (GetBooleanValue (!decide r)) := by
    intro p r _ _ h
    rw [← decide_not, decide_eq_decide.mpr h]
  refine ⟨decide (c < 0), decide (c = 0), decide (c > 0), h3, h1, h5, ?_, ?_, ?_, ?_⟩
  · rcases Int.lt_trichotomy c 0 with h | h | h
    · exact Or.inl ⟨decide_eq_true h, decide_eq_false (by omega), decide_eq_false (by omega)⟩
    · exact Or.inr (Or.inl
        ⟨decide_eq_false (by omega), decide_eq_true h, decide_eq_false (by omega)⟩)
    · exact Or.inr (Or.inr
        ⟨decide_eq_false (by omega), decide_eq_false (by omega), decide_eq_true h⟩)
  · rw [h2]; exact n _ _ (by omega)
  · rw [h4]; exact n _ _ (by omega)
  · rw [h6]; exact n _ _ (by omega)

/-- Witness of C23: `a` against `ab`, where `CompareLessThan` is the one that is true. -/
theorem trichotomy_and_consistency_witness :
    strA.CheckComparable strAB = .ok () ∧ strA.IsNull = false ∧ strAB.IsNull = false ∧
    varcharType.CompareLessThan memOrder strA strAB = .ok (GetBooleanValue true) ∧
    ∃ lt eq gt : Bool,
      varcharType.CompareLessThan memOrder strA strAB = .ok (GetBooleanValue lt) ∧
      varcharType.CompareEquals memOrder strA strAB = .ok (GetBooleanValue eq) ∧
      varcharType.CompareGreaterThan memOrder strA strAB = .ok (GetBooleanValue gt) ∧
      ((lt = true ∧ eq = false ∧ gt = false) ∨ (lt = false ∧ eq = true ∧ gt = false) ∨
        (lt = false ∧ eq = false ∧ gt = true)) ∧
      varcharType.CompareNotEquals memOrder strA strAB = .ok (GetBooleanValue (!eq)) ∧
      varcharType.CompareLessThanEquals memOrder strA strAB = .ok (GetBooleanValue (!gt)) ∧
      varcharType.CompareGreaterThanEquals memOrder strA strAB = .ok (GetBooleanValue (!lt)) :=
  ⟨by decide, by decide, by decide, by decide,
    trichotomy_and_consistency varcharType memOrder strA strAB (by decide) (by decide)
      (by decide)⟩

/-- C24 (converse symmetry).  For every comparable pair of non-null values whose lengths
are below `2^31` or the sentinel, swapping the operands mirrors the operator:
`a < b` is `b > a`, `a <= b` is `b >= a`, and `==` and `!=` do not depend on the order of
the operands. -/
theorem converse_symmetry (self : VarlenType) (m : Memory) (a b : Value)
    (hab : a.CheckComparable b = .ok ())
    (ha : a.IsNull = false) (hb : b.IsNull = false)
    (hla : a.GetLength < 2147483648 ∨ a.GetLength = PELOTON_VARCHAR_MAX_LEN)
    (hlb : b.GetLength < 2147483648 ∨ b.GetLength = PELOTON_VARCHAR_MAX_LEN) :
    self.CompareLessThan m a b = self.CompareGreaterThan m b a ∧
    self.CompareLessThanEquals m a b = self.CompareGreaterThanEquals m b a ∧
    self.CompareEquals m a b = self.CompareEquals m b a ∧
    self.CompareNotEquals m a b = self.CompareNotEquals m b a ∧
    self.CompareGreaterThan m a b = self.CompareLessThan m b a ∧
    self.CompareGreaterThanEquals m a b = self.CompareLessThanEquals m b a := by
  have hba : b.CheckComparable a = .ok () :=
    (checkComparable_iff b a).mpr ((checkComparable_iff a b).mp hab).symm
  obtain ⟨c, hc, h1, h2, h3, h4, h5, h6⟩ := compare_threeWay self m a b hab ha hb
  obtain ⟨d, hd, g1, g2, g3, g4, g5, g6⟩ := compare_threeWay self m b a hba hb ha
  have hneg : c = -d := by
    by_cases hs : a.GetLength = PELOTON_VARCHAR_MAX_LEN ∨ b.GetLength = PELOTON_VARCHAR_MAX_LEN
    · rw [if_pos hs] at hc
      rw [if_pos (Or.symm hs)] at hd
      omega
    · rw [if_neg hs] at hc
      rw [if_neg (fun h => hs (Or.symm h))] at hd
      have ha31 : a.GetLength < 2147483648 := by
        rcases hla with h | h
        · exact h
        · exact absurd (Or.inl h) hs
      have hb31 : b.GetLength < 2147483648 := by
        rcases hlb with h | h
        · exact h
        · exact absurd (Or.inr h) hs
      rw [toInt32_of_lt _ ha31, toInt32_of_lt _ hb31] at hc hd
      rw [hc, hd]
      exact compareStrings_antisymm m a.GetData b.GetData a.GetLength b.GetLength ha31 hb31
  have q : ∀ (p r : Prop) [Decidable p] [Decidable r], (p ↔ r) →
      (Except.ok (GetBooleanValue (decide p)) : Except Exception Value)
        = .ok (GetBooleanValue (decide r)) := by
    intro p r _ _ h
    rw [decide_eq_decide.mpr h]
  refine ⟨?_, ?_, ?_, ?_, ?_, ?_⟩
  · rw [h3, g5]; exact q _ _ (by omega)
  · rw [h4, g6]; exact q _ _ (by omega)
  · rw [h1, g1]; exact q _ _ (by omega)
  · rw [h2, g2]; exact q _ _ (by omega)
  · rw [h5, g3]; exact q _ _ (by omega)
  · rw [h6, g4]; exact q _ _ (by omega)

/-- Witness of C24: `ab` against `b`. -/
theorem converse_symmetry_witness :
    strAB.CheckComparable strB = .ok () ∧ strAB.IsNull = false ∧ strB.IsNull = false ∧
    (strAB.GetLength < 2147483648 ∨ strAB.GetLength = PELOTON_VARCHAR_MAX_LEN) ∧
    (strB.GetLength < 2147483648 ∨ strB.GetLength = PELOTON_VARCHAR_MAX_LEN) ∧
    varcharType.CompareLessThan memOrder strAB strB = .ok (GetBooleanValue true) ∧
    (varcharType.CompareLessThan memOrder strAB strB
        = varcharType.CompareGreaterThan memOrder strB strAB ∧
      varcharType.CompareLessThanEquals memOrder strAB strB
        = varcharType.CompareGreaterThanEquals memOrder strB strAB ∧
      varcharType.CompareEquals memOrder strAB strB
        = varcharType.CompareEquals memOrder strB strAB ∧
      varcharType.CompareNotEquals memOrder strAB strB
        = varcharType.CompareNotEquals memOrder strB strAB ∧
      varcharType.CompareGreaterThan memOrder strAB strB
        = varcharType.CompareLessThan memOrder strB strAB ∧
      varcharType.CompareGreaterThanEquals memOrder strAB strB
        = varcharType.CompareLessThanEquals memOrder strB strAB) :=
  ⟨by decide, by decide, by decide, by decide, by decide, by decide,
    converse_symmetry varcharType memOrder strAB strB (by decide) (by decide) (by decide)
      (by decide) (by decide)⟩

/-! ### Sentinel comparison -/

/-- With the null test of this development for the parameter, the operators are the
ones embedded above. -/
theorem compareWith_isNull (self : VarlenType) (op : CompareOp) (m : Memory)
    (left right : Value) :
    self.CompareWith Value.IsNull op m left right = self.Compare op m left right := by
  cases op <;> rfl

/-- Each operator with the null test as a parameter returns the NULL BOOLEAN when the
test holds of an operand, whatever the lengths. -/
theorem compareWith_of_null (self : VarlenType) (isNull : Value → Bool) (op : CompareOp)
    (m : Memory) (a b : Value) (hc : a.CheckComparable b = .ok ())
    (hn : isNull a = true ∨ isNull b = true) :
    self.CompareWith isNull op m a b = .ok (GetNullValueByType .BOOLEAN) := by
  have hor : (isNull a || isNull b) = true := by
    rcases hn with h | h <;> simp [h]
  cases op <;> simp only [VarlenType.CompareWith, hc, hor, if_true]

end type
end peloton
